import Mathlib

/-!
# squares.c : marching squares over a sampled scalar field

A shallow embedding of `src/squares.h` and a verification development over it.

Modelling conventions.

* `float` values are rationals (`ℚ`).  The arithmetic of `msq_lerp` and the
  conversions of pixel coordinates are exact: rounding, infinities and NaN
  are not modelled there.  Where IEEE arithmetic would give an infinity or a
  NaN (a division by zero inside `msq_lerp`), `ℚ` gives `x / 0 = 0`; every
  statement about `msq_lerp` carries the hypotheses that exclude that case.
* The average that decides the saddle case is computed as the C code computes
  it: every `float` addition is rounded to IEEE 754 binary32 (round to
  nearest, ties to even, gradual underflow), the division by `4.0` is exact
  in `double`, and its result is rounded to `float` when it is passed to
  `msq_threshold`.  An overflow gives `2 ^ 128` or `-2 ^ 128`, which stand
  for the two infinities: every finite `float` lies strictly between them.
* `uint32_t` values are natural numbers, with the wrap-around written out as
  `% 2 ^ 32` wherever the C arithmetic is unsigned.  `int` values are
  integers; conversions between the two are `toU32` and `toI32`.  Signed
  additions are exact (signed overflow is undefined behaviour in C and is not
  given a meaning here).
* `float**` and `uint32_t**` are lists of rows.  Every load and store is
  checked: an access outside the allocated rows makes the operation return
  `none`, so a result `some _` means the run performed no out-of-bounds
  access.
* The rendering surface is external: `GetScreenWidth ()` and
  `GetScreenHeight ()` are parameters, and the calls of `DrawLineEx` are
  collected, in order, in a list.
* The preprocessor symbols tested by `msq_grid_march` are fields of
  `msq_build`.  The OpenMP pragmas are not modelled: the loops are run in
  order, and their iterations write distinct cells.
* `malloc` is taken to succeed, and the indeterminate contents of a fresh
  block are parameters of `msq_grid_create`.
* The two `while` loops of `msq_grid_draw` take a fuel; running out of fuel is
  `none`.  The `for` loops have a bound fixed on entry and are folds over a
  range.
-/

namespace Squares

/-! ## Machine integers -/

/-- Conversion of an `int` to `uint32_t` (reduction modulo `2 ^ 32`). -/
def toU32 (x : Int) : Nat := (x % 2 ^ 32).toNat

/-- Conversion of a `uint32_t` to `int` (two's complement). -/
def toI32 (n : Nat) : Int :=
  if n % 2 ^ 32 < 2 ^ 31 then ((n % 2 ^ 32 : Nat) : Int) else ((n % 2 ^ 32 : Nat) : Int) - 2 ^ 32

/-- Unsigned 32-bit addition. -/
def u32_add (a b : Nat) : Nat := (a + b) % 2 ^ 32

/-- Unsigned 32-bit subtraction. -/
def u32_sub (a b : Nat) : Nat := (a + 2 ^ 32 - b % 2 ^ 32) % 2 ^ 32

/-- Unsigned 32-bit multiplication. -/
def u32_mul (a b : Nat) : Nat := (a * b) % 2 ^ 32

/-! ## Checked two-dimensional arrays -/

/-- The load `m[i][j]`, `none` when either index is outside the allocation. -/
def load2 {α : Type} (m : List (List α)) (i j : Nat) : Option α :=
  match m[i]? with
  | none => none
  | some row => row[j]?

/-- The store `m[i][j] = v`, `none` when either index is outside the allocation. -/
def store2 {α : Type} (m : List (List α)) (i j : Nat) (v : α) : Option (List (List α)) :=
  match m[i]? with
  | none => none
  | some row => if j < row.length then some (m.set i (row.set j v)) else none

/-! ## Data model -/

/-- The C struct `msq_squares_grid`. -/
structure msq_squares_grid where
  rows_count : Nat
  cols_count : Nat
  field : List (List ℚ)
  binary_index : List (List Nat)
  threshold : ℚ
  max_threshold : ℚ
deriving DecidableEq

/-- A grid as `msq_grid_create` allocates it, for dimensions of at least one
cell: `rows_count` rows of `cols_count` samples, and `rows_count - 1` rows of
`cols_count - 1` codes. -/
def msq_grid_wf (g : msq_squares_grid) : Prop :=
  2 ≤ g.rows_count ∧ g.rows_count < 2 ^ 32 ∧
  2 ≤ g.cols_count ∧ g.cols_count < 2 ^ 32 ∧
  g.field.length = g.rows_count ∧
  (∀ row ∈ g.field, row.length = g.cols_count) ∧
  g.binary_index.length = g.rows_count - 1 ∧
  (∀ row ∈ g.binary_index, row.length = g.cols_count - 1)

instance (g : msq_squares_grid) : Decidable (msq_grid_wf g) := by
  unfold msq_grid_wf; infer_instance

/-- The constant table `lut_contours`. -/
def lut_contours : List Nat :=
  [0b00000000, 0b00001010, 0b10000010, 0b10001000,
   0b10100000, 0b10101010, 0b00100010, 0b00101000,
   0b00101000, 0b00100010, 0b10101010, 0b10100000,
   0b10001000, 0b10000010, 0b00001010, 0b00000000]

/-- The read `lut_contours[k]` for an `int` index, `none` outside the 16 entries. -/
def lut_contours_at (k : Int) : Option Nat :=
  if 0 ≤ k then lut_contours[k.toNat]? else none

/-! ## Thresholding and interpolation -/

/-- The C function `msq_threshold`. -/
def msq_threshold (threshold value : ℚ) : Nat :=
  if value > threshold then 1 else 0

/-- The C function `msq_lerp`. -/
def msq_lerp (threshold pos_a pos_b grid_a grid_b : ℚ) : ℚ :=
  let grid_a := grid_a / threshold
  let grid_b := grid_b / threshold
  pos_a + (pos_b - pos_a) * (1 - grid_a) / (grid_b - grid_a)

/-! ## Classification -/

/-- The C function `msq_get_index`. -/
def msq_get_index (grid : msq_squares_grid) (i j : Nat) : Option Nat := do
  let index : Nat := 0
  let v ← load2 grid.field (u32_sub i 1) j
  let index := index ||| msq_threshold grid.threshold v
  let index := (index <<< 1) % 2 ^ 32
  let v ← load2 grid.field (u32_sub i 1) (u32_add j 1)
  let index := index ||| msq_threshold grid.threshold v
  let index := (index <<< 1) % 2 ^ 32
  let v ← load2 grid.field i (u32_add j 1)
  let index := index ||| msq_threshold grid.threshold v
  let index := (index <<< 1) % 2 ^ 32
  let v ← load2 grid.field i j
  let index := index ||| msq_threshold grid.threshold v
  pure index

/-- The body of the inner loop of `msq_grid_get_indices`:
`grid->binary_index[i - 1][j] = msq_get_index (grid, i, j)`. -/
def msq_grid_get_indices_body (grid : msq_squares_grid) (i j : Nat) : Option msq_squares_grid := do
  let v ← msq_get_index grid i j
  let binary_index ← store2 grid.binary_index (u32_sub i 1) j v
  pure { grid with binary_index := binary_index }

/-- The C function `msq_grid_get_indices`: `i` runs from `1` while
`i < rows_count` (that is over `rows_count - 1` values, none when
`rows_count` is `0`), `j` from `0` while `j < cols_count - 1`, the bound being
an unsigned subtraction. -/
def msq_grid_get_indices (grid : msq_squares_grid) : Option msq_squares_grid :=
  (List.range' 1 (grid.rows_count - 1)).foldlM
    (fun grid i =>
      (List.range (u32_sub grid.cols_count 1)).foldlM
        (fun grid j => msq_grid_get_indices_body grid i j) grid)
    grid

/-! ## Marching -/

/-- The raylib struct `Vector2`. -/
structure Vector2 where
  x : ℚ
  y : ℚ
deriving DecidableEq

/-- The raylib struct `Color`. -/
structure Color where
  r : Nat
  g : Nat
  b : Nat
  a : Nat
deriving DecidableEq

/-- One call `DrawLineEx (startPos, endPos, thick, color)` received by the
rendering surface. -/
structure DrawLineEx_call where
  startPos : Vector2
  endPos : Vector2
  thick : ℚ
  color : Color
deriving DecidableEq

/-- The preprocessor symbols that `msq_grid_march` tests. -/
structure msq_build where
  NO_LERP : Bool
  MSQ_NO_LERP : Bool
deriving DecidableEq

/-- The write `vertices[index] = v; index++` into the local array
`Vector2 vertices[4]`: the list holds the `index` entries written so far, and
a fifth write is outside the array. -/
def vertices_store (vertices : List Vector2) (v : Vector2) : Option (List Vector2) :=
  if vertices.length < 4 then some (vertices ++ [v]) else none

/-- The vertex written under `lut_contours[lut_index] & 128` (right edge). -/
def vertex_128 (build : msq_build) (grid : msq_squares_grid)
    (width_spacing height_spacing height_halfspacing cell_x cell_y : Int) (i j : Nat) :
    Option Vector2 := do
  let x : ℚ := ((cell_x + width_spacing : Int) : ℚ)
  let y : ℚ ←
    (if build.NO_LERP then pure ((cell_y + height_halfspacing : Int) : ℚ)
    else do
      let a ← load2 grid.field i (u32_add j 1)
      let b ← load2 grid.field (u32_add i 1) (u32_add j 1)
      pure (msq_lerp grid.threshold (cell_y : ℚ) ((cell_y + height_spacing : Int) : ℚ) a b))
  pure ⟨x, y⟩

/-- The vertex written under `lut_contours[lut_index] & 64` (top-right corner). -/
def vertex_64 (width_spacing cell_x cell_y : Int) : Vector2 :=
  ⟨((cell_x + width_spacing : Int) : ℚ), (cell_y : ℚ)⟩

/-- The vertex written under `lut_contours[lut_index] & 32` (top edge). -/
def vertex_32 (build : msq_build) (grid : msq_squares_grid)
    (width_spacing width_halfspacing cell_x cell_y : Int) (i j : Nat) :
    Option Vector2 := do
  let x : ℚ ←
    (if build.MSQ_NO_LERP then pure ((cell_x + width_halfspacing : Int) : ℚ)
    else do
      let a ← load2 grid.field i j
      let b ← load2 grid.field i (u32_add j 1)
      pure (msq_lerp grid.threshold (cell_x : ℚ) ((cell_x + width_spacing : Int) : ℚ) a b))
  pure ⟨x, (cell_y : ℚ)⟩

/-- The vertex written under `lut_contours[lut_index] & 16` (top-left corner). -/
def vertex_16 (cell_x cell_y : Int) : Vector2 :=
  ⟨(cell_x : ℚ), (cell_y : ℚ)⟩

/-- The vertex written under `lut_contours[lut_index] & 8` (left edge). -/
def vertex_8 (build : msq_build) (grid : msq_squares_grid)
    (height_spacing height_halfspacing cell_x cell_y : Int) (i j : Nat) :
    Option Vector2 := do
  let y : ℚ ←
    (if build.MSQ_NO_LERP then pure ((cell_y + height_halfspacing : Int) : ℚ)
    else do
      let a ← load2 grid.field i j
      let b ← load2 grid.field (u32_add i 1) j
      pure (msq_lerp grid.threshold (cell_y : ℚ) ((cell_y + height_spacing : Int) : ℚ) a b))
  pure ⟨(cell_x : ℚ), y⟩

/-- The vertex written under `lut_contours[lut_index] & 4` (bottom-left corner). -/
def vertex_4 (height_spacing cell_x cell_y : Int) : Vector2 :=
  ⟨(cell_x : ℚ), ((cell_y + height_spacing : Int) : ℚ)⟩

/-- The vertex written under `lut_contours[lut_index] & 2` (bottom edge). -/
def vertex_2 (build : msq_build) (grid : msq_squares_grid)
    (width_spacing width_halfspacing height_spacing cell_x cell_y : Int) (i j : Nat) :
    Option Vector2 := do
  let x : ℚ ←
    (if build.MSQ_NO_LERP then pure ((cell_x + width_halfspacing : Int) : ℚ)
    else do
      let a ← load2 grid.field (u32_add i 1) j
      let b ← load2 grid.field (u32_add i 1) (u32_add j 1)
      pure (msq_lerp grid.threshold (cell_x : ℚ) ((cell_x + width_spacing : Int) : ℚ) a b))
  pure ⟨x, ((cell_y + height_spacing : Int) : ℚ)⟩

/-- The vertex written under `lut_contours[lut_index] & 1` (bottom-right corner). -/
def vertex_1 (width_spacing height_spacing cell_x cell_y : Int) : Vector2 :=
  ⟨((cell_x + width_spacing : Int) : ℚ), ((cell_y + height_spacing : Int) : ℚ)⟩

/-- The integer nearest to `y`, the even one of the two when `y` lies half way
between two integers. -/
def round_ties_even (y : ℚ) : Int :=
  if y - (⌊y⌋ : ℚ) < 1 / 2 then ⌊y⌋
  else if 1 / 2 < y - (⌊y⌋ : ℚ) then ⌊y⌋ + 1
  else if ⌊y⌋ % 2 = 0 then ⌊y⌋ else ⌊y⌋ + 1

/-- The spacing of the binary32 values around `x`: `2 ^ (e - 23)` for
`2 ^ e ≤ |x| < 2 ^ (e + 1)`, and `2 ^ (-149)`, the spacing of the subnormal
values, below `2 ^ (-126)`. -/
def f32_quantum (x : ℚ) : ℚ := 2 ^ (max (Int.log 2 |x|) (-126) - 23)

/-- The conversion of a real value to `float`: the nearest binary32 value,
ties to even; `2 ^ 128` and `-2 ^ 128` stand for the infinities that a result
beyond the largest finite value rounds to. -/
def f32_round (x : ℚ) : ℚ :=
  if 2 ^ 128 ≤ (round_ties_even (x / f32_quantum x) : ℚ) * f32_quantum x then 2 ^ 128
  else if (round_ties_even (x / f32_quantum x) : ℚ) * f32_quantum x ≤ -2 ^ 128 then -2 ^ 128
  else (round_ties_even (x / f32_quantum x) : ℚ) * f32_quantum x

/-- The `float` addition `a + b` of `a`, a sample or a running sum, and a finite
sample `b`: the exact sum rounded to `float`; a running sum that has
overflowed to an infinity stays there. -/
def f32_add (a b : ℚ) : ℚ :=
  if 2 ^ 128 ≤ |a| then a else if 2 ^ 128 ≤ |b| then b else f32_round (a + b)

/-- The value `(a + b + c + d) / 4.0` as `msq_threshold` receives it: the three
`float` additions from left to right, the division by `4.0` in `double`, which
is exact, and the conversion of the quotient to `float`; an infinite sum gives
an infinite average. -/
def f32_average (a b c d : ℚ) : ℚ :=
  if 2 ^ 128 ≤ |f32_add (f32_add (f32_add a b) c) d| then f32_add (f32_add (f32_add a b) c) d
  else f32_round (f32_add (f32_add (f32_add a b) c) d / 4)

/-- The average `(field[i][j] + field[i][j + 1] + field[i + 1][j] + field[i + 1][j + 1]) / 4.0`
that `msq_grid_march` thresholds for a cell with four vertices, in `float`
arithmetic. -/
def cell_average (grid : msq_squares_grid) (i j : Nat) : Option ℚ := do
  let a ← load2 grid.field i j
  let b ← load2 grid.field i (u32_add j 1)
  let c ← load2 grid.field (u32_add i 1) j
  let d ← load2 grid.field (u32_add i 1) (u32_add j 1)
  pure (f32_average a b c d)

/-- The local `int cell_x = j * width_spacing + width_halfspacing;` of
`msq_grid_march`: the product and the sum are unsigned (`j` is a `uint32_t`),
the result is stored in an `int`. -/
def cell_x (width_spacing width_halfspacing : Int) (j : Nat) : Int :=
  toI32 (u32_add (u32_mul j (toU32 width_spacing)) (toU32 width_halfspacing))

/-- The local `int cell_y = i * height_spacing + height_halfspacing;` of
`msq_grid_march`. -/
def cell_y (height_spacing height_halfspacing : Int) (i : Nat) : Int :=
  toI32 (u32_add (u32_mul i (toU32 height_spacing)) (toU32 height_halfspacing))

/-- The eight tests `if (lut_contours[lut_index] & b)` of `msq_grid_march`,
for `b = 128, 64, ..., 1` in this order, `mask` being `lut_contours[lut_index]`:
the entries of `vertices` written for the cell `(i, j)`, in the order of
writing. -/
def msq_grid_march_vertices (build : msq_build) (grid : msq_squares_grid)
    (width_spacing width_halfspacing height_spacing height_halfspacing cell_x cell_y : Int)
    (mask : Nat) (i j : Nat) : Option (List Vector2) := do
  let vertices : List Vector2 := []
  let vertices ←
    (if mask &&& 128 ≠ 0 then
      (vertex_128 build grid width_spacing height_spacing height_halfspacing cell_x cell_y i j).bind
        (vertices_store vertices)
    else pure vertices)
  let vertices ←
    (if mask &&& 64 ≠ 0 then vertices_store vertices (vertex_64 width_spacing cell_x cell_y)
    else pure vertices)
  let vertices ←
    (if mask &&& 32 ≠ 0 then
      (vertex_32 build grid width_spacing width_halfspacing cell_x cell_y i j).bind
        (vertices_store vertices)
    else pure vertices)
  let vertices ←
    (if mask &&& 16 ≠ 0 then vertices_store vertices (vertex_16 cell_x cell_y)
    else pure vertices)
  let vertices ←
    (if mask &&& 8 ≠ 0 then
      (vertex_8 build grid height_spacing height_halfspacing cell_x cell_y i j).bind
        (vertices_store vertices)
    else pure vertices)
  let vertices ←
    (if mask &&& 4 ≠ 0 then vertices_store vertices (vertex_4 height_spacing cell_x cell_y)
    else pure vertices)
  let vertices ←
    (if mask &&& 2 ≠ 0 then
      (vertex_2 build grid width_spacing width_halfspacing height_spacing cell_x cell_y i j).bind
        (vertices_store vertices)
    else pure vertices)
  let vertices ←
    (if mask &&& 1 ≠ 0 then
      vertices_store vertices (vertex_1 width_spacing height_spacing cell_x cell_y)
    else pure vertices)
  pure vertices

/-- The end of the loop body of `msq_grid_march`, from `if (index == 4)` on:
the calls of `DrawLineEx` made for the cell `(i, j)` with the vertices
written, `index` being their number.  Reading an entry of `vertices` that was
not written gives `none`. -/
def msq_grid_march_draw (grid : msq_squares_grid) (color : Color) (line_width : ℚ)
    (vertices : List Vector2) (i j : Nat) : Option (List DrawLineEx_call) := do
  if vertices.length = 4 then
    let average ← cell_average grid i j
    if msq_threshold grid.threshold average ≠ 0 then
      let v0 ← vertices[0]?
      let v3 ← vertices[3]?
      let v1 ← vertices[1]?
      let v2 ← vertices[2]?
      pure [⟨v0, v3, line_width, color⟩, ⟨v1, v2, line_width, color⟩]
    else
      let v0 ← vertices[0]?
      let v1 ← vertices[1]?
      let v2 ← vertices[2]?
      let v3 ← vertices[3]?
      pure [⟨v0, v1, line_width, color⟩, ⟨v2, v3, line_width, color⟩]
  else
    let v0 ← vertices[0]?
    let v1 ← vertices[1]?
    pure [⟨v0, v1, line_width, color⟩]

/-- The body of the inner loop of `msq_grid_march` for the cell `(i, j)`: the
calls of `DrawLineEx` it makes, in order. -/
def msq_grid_march_cell (build : msq_build) (grid : msq_squares_grid)
    (width_spacing width_halfspacing height_spacing height_halfspacing : Int)
    (color : Color) (line_width : ℚ) (i j : Nat) : Option (List DrawLineEx_call) := do
  let cell_x : Int := cell_x width_spacing width_halfspacing j
  let cell_y : Int := cell_y height_spacing height_halfspacing i
  let lut_index : Int := toI32 (← load2 grid.binary_index i j)
  if lut_index = 0 ∨ lut_index = 15 then pure [] else
  let mask ← lut_contours_at lut_index
  let vertices ← msq_grid_march_vertices build grid width_spacing width_halfspacing
    height_spacing height_halfspacing cell_x cell_y mask i j
  msq_grid_march_draw grid color line_width vertices i j

/-- The C function `msq_grid_march`, with the values returned by
`GetScreenWidth ()` and `GetScreenHeight ()` as parameters; the result is the
list of the `DrawLineEx` calls made, in order.  The two spacings are unsigned
divisions by `cols_count` and `rows_count` (a zero divisor is undefined), the
half spacings are `spacing * 0.5` truncated to `int`, and the loops run while
`i < rows_count - 1` and `j < cols_count - 1`, both bounds unsigned. -/
def msq_grid_march (build : msq_build) (grid : msq_squares_grid)
    (screen_width screen_height : Int) (color : Color) (line_width : ℚ) :
    Option (List DrawLineEx_call) :=
  if grid.cols_count = 0 then none else
  let width_spacing : Int := toI32 (toU32 screen_width / grid.cols_count)
  let width_halfspacing : Int := Int.tdiv width_spacing 2
  if grid.rows_count = 0 then none else
  let height_spacing : Int := toI32 (toU32 screen_height / grid.rows_count)
  let height_halfspacing : Int := Int.tdiv height_spacing 2
  (List.range (u32_sub grid.rows_count 1)).foldlM
    (fun drawn i =>
      (List.range (u32_sub grid.cols_count 1)).foldlM
        (fun drawn j => do
          let calls ← msq_grid_march_cell build grid width_spacing width_halfspacing
            height_spacing height_halfspacing color line_width i j
          pure (drawn ++ calls))
        drawn)
    []

/-! ## The calls of `msq_lerp` -/

/-- One call `msq_lerp (threshold, pos_a, pos_b, grid_a, grid_b)`. -/
structure msq_lerp_call where
  threshold : ℚ
  pos_a : ℚ
  pos_b : ℚ
  grid_a : ℚ
  grid_b : ℚ
deriving DecidableEq

/-- The calls of `msq_lerp` made under `lut_contours[lut_index] & 128`: none
when `NO_LERP` is defined, else the call that gives the right-edge vertex its
`y`. -/
def lerp_calls_128 (build : msq_build) (grid : msq_squares_grid)
    (height_spacing cell_y : Int) (i j : Nat) : Option (List msq_lerp_call) :=
  if build.NO_LERP then pure []
  else do
    let a ← load2 grid.field i (u32_add j 1)
    let b ← load2 grid.field (u32_add i 1) (u32_add j 1)
    pure [⟨grid.threshold, (cell_y : ℚ), ((cell_y + height_spacing : Int) : ℚ), a, b⟩]

/-- The calls of `msq_lerp` made under `lut_contours[lut_index] & 32`: none
when `MSQ_NO_LERP` is defined, else the call that gives the top-edge vertex
its `x`. -/
def lerp_calls_32 (build : msq_build) (grid : msq_squares_grid)
    (width_spacing cell_x : Int) (i j : Nat) : Option (List msq_lerp_call) :=
  if build.MSQ_NO_LERP then pure []
  else do
    let a ← load2 grid.field i j
    let b ← load2 grid.field i (u32_add j 1)
    pure [⟨grid.threshold, (cell_x : ℚ), ((cell_x + width_spacing : Int) : ℚ), a, b⟩]

/-- The calls of `msq_lerp` made under `lut_contours[lut_index] & 8`: none
when `MSQ_NO_LERP` is defined, else the call that gives the left-edge vertex
its `y`. -/
def lerp_calls_8 (build : msq_build) (grid : msq_squares_grid)
    (height_spacing cell_y : Int) (i j : Nat) : Option (List msq_lerp_call) :=
  if build.MSQ_NO_LERP then pure []
  else do
    let a ← load2 grid.field i j
    let b ← load2 grid.field (u32_add i 1) j
    pure [⟨grid.threshold, (cell_y : ℚ), ((cell_y + height_spacing : Int) : ℚ), a, b⟩]

/-- The calls of `msq_lerp` made under `lut_contours[lut_index] & 2`: none
when `MSQ_NO_LERP` is defined, else the call that gives the bottom-edge vertex
its `x`. -/
def lerp_calls_2 (build : msq_build) (grid : msq_squares_grid)
    (width_spacing cell_x : Int) (i j : Nat) : Option (List msq_lerp_call) :=
  if build.MSQ_NO_LERP then pure []
  else do
    let a ← load2 grid.field (u32_add i 1) j
    let b ← load2 grid.field (u32_add i 1) (u32_add j 1)
    pure [⟨grid.threshold, (cell_x : ℚ), ((cell_x + width_spacing : Int) : ℚ), a, b⟩]

/-- The loop body of `msq_grid_march` for the cell `(i, j)`, read for its calls
of `msq_lerp` instead of its calls of `DrawLineEx`: the same skip of the codes
0 and 15, the same table read, and under each of the tests of the bits 128,
32, 8 and 2 the call made there, in order.  The tests of the bits 64, 16, 4
and 1 and the drawing make no call of `msq_lerp`. -/
def msq_grid_march_cell_lerp_calls (build : msq_build) (grid : msq_squares_grid)
    (width_spacing width_halfspacing height_spacing height_halfspacing : Int) (i j : Nat) :
    Option (List msq_lerp_call) := do
  let cell_x : Int := cell_x width_spacing width_halfspacing j
  let cell_y : Int := cell_y height_spacing height_halfspacing i
  let lut_index : Int := toI32 (← load2 grid.binary_index i j)
  if lut_index = 0 ∨ lut_index = 15 then pure [] else
  let mask ← lut_contours_at lut_index
  let calls_128 ←
    (if mask &&& 128 ≠ 0 then lerp_calls_128 build grid height_spacing cell_y i j else pure [])
  let calls_32 ←
    (if mask &&& 32 ≠ 0 then lerp_calls_32 build grid width_spacing cell_x i j else pure [])
  let calls_8 ←
    (if mask &&& 8 ≠ 0 then lerp_calls_8 build grid height_spacing cell_y i j else pure [])
  let calls_2 ←
    (if mask &&& 2 ≠ 0 then lerp_calls_2 build grid width_spacing cell_x i j else pure [])
  pure (calls_128 ++ calls_32 ++ calls_8 ++ calls_2)

/-! ## Construction -/

/-- The C function `msq_grid_create`.  Every `malloc` is taken to succeed; the
contents of the fresh blocks are indeterminate and are given by `fresh_sample`
and `fresh_code`.  `field` gets `rows_count` rows, each allocated for
`cols_count` pointer-sized elements, of which the model keeps `cols_count`
samples; `binary_index` gets `rows_count - 1` rows allocated for
`cols_count - 1` elements, both subtractions unsigned.  The result stands for
the pointer returned, `none` being the null pointer. -/
def msq_grid_create (fresh_sample : Nat → Nat → ℚ) (fresh_code : Nat → Nat → Nat)
    (rows_count cols_count : Nat) (max_threshold : ℚ) : Option msq_squares_grid :=
  some
    { rows_count := rows_count
      cols_count := cols_count
      field := (List.range rows_count).map (fun i => (List.range cols_count).map (fresh_sample i))
      binary_index :=
        (List.range (u32_sub rows_count 1)).map
          (fun i => (List.range (u32_sub cols_count 1)).map (fresh_code i))
      threshold := max_threshold / 2
      max_threshold := max_threshold }

/-! ## Drawing the grid -/

/-- The raylib colour `RED`. -/
def RED : Color := ⟨230, 41, 55, 255⟩

/-- The raylib colour `GREEN`. -/
def GREEN : Color := ⟨0, 228, 48, 255⟩

/-- The raylib colour `BLACK`. -/
def BLACK : Color := ⟨0, 0, 0, 255⟩

/-- One call of `DrawLine (startPosX, startPosY, endPosX, endPosY, color)` or of
`DrawCircle (centerX, centerY, radius, color)` received by the rendering
surface. -/
inductive draw_call where
  | DrawLine (startPosX startPosY endPosX endPosY : Int) (color : Color)
  | DrawCircle (centerX centerY : Int) (radius : ℚ) (color : Color)
deriving DecidableEq

/-- The first loop of `msq_grid_draw`,
`while (x_pos <= width) { DrawLine (x_pos, height, x_pos, 0, BLACK); x_pos += width_spacing; }`,
run for at most `fuel` tests of its condition; `none` when the fuel runs out
before the loop ends. -/
def msq_grid_draw_columns :
    Nat → Int → Int → Int → Int → Option (List draw_call)
  | 0, _, _, _, _ => none
  | fuel + 1, x_pos, width, height, width_spacing =>
    if x_pos ≤ width then
      (msq_grid_draw_columns fuel (x_pos + width_spacing) width height width_spacing).map
        (fun rest => draw_call.DrawLine x_pos height x_pos 0 BLACK :: rest)
    else some []

/-- The second loop of `msq_grid_draw`,
`while (y_pos <= height) { DrawLine (0, y_pos, width, y_pos, BLACK); y_pos += height_spacing; }`,
run for at most `fuel` tests of its condition. -/
def msq_grid_draw_rows :
    Nat → Int → Int → Int → Int → Option (List draw_call)
  | 0, _, _, _, _ => none
  | fuel + 1, y_pos, width, height, height_spacing =>
    if y_pos ≤ height then
      (msq_grid_draw_rows fuel (y_pos + height_spacing) width height height_spacing).map
        (fun rest => draw_call.DrawLine 0 y_pos width y_pos BLACK :: rest)
    else some []

/-- The body of the inner `for` loop of `msq_grid_draw` at the grid point
`(i, j)`: the circle drawn, `x_pos` and `y_pos` being the `uint32_t` loop
variables. -/
def msq_grid_draw_circle (grid : msq_squares_grid) (x_pos y_pos i j : Nat) : Option draw_call := do
  let v ← load2 grid.field i j
  let circle_color : Color := if msq_threshold grid.threshold v ≠ 0 then RED else GREEN
  pure (draw_call.DrawCircle (toI32 x_pos) (toI32 y_pos) 2 circle_color)

/-- The nested `for` loops of `msq_grid_draw`: `i` runs over the rows with
`y_pos` starting at `height_halfspacing` and stepping by `height_spacing`, `j`
over the columns with `x_pos` starting at `width_halfspacing` and stepping by
`width_spacing`; both positions are `uint32_t` variables declared by the
loops. -/
def msq_grid_draw_circles (grid : msq_squares_grid)
    (width_spacing width_halfspacing height_spacing height_halfspacing : Int) :
    Option (List draw_call) :=
  ((List.range grid.rows_count).foldlM
    (fun (state : Nat × List draw_call) i => do
      let inner ← (List.range grid.cols_count).foldlM
        (fun (state' : Nat × List draw_call) j => do
          let circle ← msq_grid_draw_circle grid state'.1 state.1 i j
          pure (u32_add state'.1 (toU32 width_spacing), state'.2 ++ [circle]))
        (toU32 width_halfspacing, state.2)
      pure (u32_add state.1 (toU32 height_spacing), inner.2))
    (toU32 height_halfspacing, [])).map Prod.snd

/-- The C function `msq_grid_draw`, with the values returned by
`GetScreenWidth ()` and `GetScreenHeight ()` as parameters and `fuel` bounding
each of the two `while` loops; the result is the list of the calls made, in
order.  The two spacings are unsigned divisions stored in an `int`. -/
def msq_grid_draw (fuel : Nat) (grid : msq_squares_grid) (screen_width screen_height : Int) :
    Option (List draw_call) :=
  let width : Int := screen_width
  let height : Int := screen_height
  if grid.cols_count = 0 then none else
  let width_spacing : Int := toI32 (toU32 width / grid.cols_count)
  (msq_grid_draw_columns fuel 0 width height width_spacing).bind fun columns =>
  if grid.rows_count = 0 then none else
  let height_spacing : Int := toI32 (toU32 height / grid.rows_count)
  (msq_grid_draw_rows fuel 0 width height height_spacing).bind fun rows =>
  let width_halfspacing : Int := Int.tdiv width_spacing 2
  let height_halfspacing : Int := Int.tdiv height_spacing 2
  (msq_grid_draw_circles grid width_spacing width_halfspacing height_spacing
    height_halfspacing).map fun circles => columns ++ rows ++ circles

/-! ## Notions used in the statements -/

/-- The row lengths of a two-dimensional array. -/
def shape {α : Type} (m : List (List α)) : List Nat := m.map List.length

/-- The value that the shift-and-or sequence of `msq_get_index` builds from the
four thresholded corners, in the order in which they are or-ed in. -/
def pack4 (a b c d : Nat) : Nat :=
  ((((((0 ||| a) <<< 1) % 2 ^ 32 ||| b) <<< 1) % 2 ^ 32 ||| c) <<< 1) % 2 ^ 32 ||| d

/-- The vertices that the four edge bits of a mask select among the right,
top, left and bottom edge vertices `v0 v1 v2 v3`, in the order in which
`msq_grid_march` tests the bits 128, 32, 8 and 2. -/
def edge_vertices (mask : Nat) (v0 v1 v2 v3 : Vector2) : List Vector2 :=
  (if mask &&& 128 ≠ 0 then [v0] else []) ++ (if mask &&& 32 ≠ 0 then [v1] else []) ++
    (if mask &&& 8 ≠ 0 then [v2] else []) ++ (if mask &&& 2 ≠ 0 then [v3] else [])

/-- The grid of two rows and two columns with the samples `[[0, 0], [0, 10]]`
and the threshold `5`. -/
def grid_low_right_high : msq_squares_grid :=
  { rows_count := 2, cols_count := 2, field := [[0, 0], [0, 10]], binary_index := [[0]],
    threshold := 5, max_threshold := 10 }

/-- The checkerboard grid of two rows and two columns with the samples
`[[10, 0], [0, 10]]` and the threshold `5`, after classification. -/
def grid_checkerboard : msq_squares_grid :=
  { rows_count := 2, cols_count := 2, field := [[10, 0], [0, 10]], binary_index := [[10]],
    threshold := 5, max_threshold := 10 }

/-- A grid of two rows and three columns whose samples are all `3`, with the
threshold `5` and arbitrary stored codes. -/
def grid_uniform_low : msq_squares_grid :=
  { rows_count := 2, cols_count := 3, field := [[3, 3, 3], [3, 3, 3]], binary_index := [[7, 9]],
    threshold := 5, max_threshold := 10 }

/-- A grid of two rows and three columns whose samples are all `8`, with the
threshold `5` and arbitrary stored codes. -/
def grid_uniform_high : msq_squares_grid :=
  { rows_count := 2, cols_count := 3, field := [[8, 8, 8], [8, 8, 8]], binary_index := [[7, 9]],
    threshold := 5, max_threshold := 10 }

/-- A classified grid of two rows and four columns, threshold `5`, whose three
cells have the codes `10`, `1` and `0`. -/
def grid_three_cells : msq_squares_grid :=
  { rows_count := 2, cols_count := 4, field := [[10, 0, 0, 0], [0, 10, 0, 0]],
    binary_index := [[10, 1, 0]], threshold := 5, max_threshold := 10 }

/-- The grid of three rows and three columns with the samples
`[[0, 0, 0], [0, 10, 0], [0, 0, 0]]` and the threshold `5`, not yet
classified. -/
def grid_centre_peak : msq_squares_grid :=
  { rows_count := 3, cols_count := 3, field := [[0, 0, 0], [0, 10, 0], [0, 0, 0]],
    binary_index := [[0, 0], [0, 0]], threshold := 5, max_threshold := 10 }

/-- The grid `grid_centre_peak` with the codes `[[2, 1], [4, 8]]` stored. -/
def grid_centre_peak_classified : msq_squares_grid :=
  { rows_count := 3, cols_count := 3, field := [[0, 0, 0], [0, 10, 0], [0, 0, 0]],
    binary_index := [[2, 1], [4, 8]], threshold := 5, max_threshold := 10 }

/-- The locals `width_spacing` and `height_spacing` of `msq_grid_march`: the
screen extent divided, unsigned, by the number of samples, stored in an
`int`. -/
def march_spacing (screen_extent : Int) (count : Nat) : Int :=
  toI32 (toU32 screen_extent / count)

/-- The locals `width_halfspacing` and `height_halfspacing` of
`msq_grid_march`: `spacing * 0.5` stored in an `int`. -/
def march_halfspacing (spacing : Int) : Int := Int.tdiv spacing 2

/-- The classified grid of two rows and two columns with the samples
`[[0, 0], [0, 10]]` and the threshold `2`; its cell has the code `2`. -/
def grid_lerp_probe : msq_squares_grid :=
  { rows_count := 2, cols_count := 2, field := [[0, 0], [0, 10]], binary_index := [[2]],
    threshold := 2, max_threshold := 4 }

/-- A mask that selects two opposite edges of the cell: right and left, or top
and bottom, with the bits as `msq_grid_march` reads them (128 right, 32 top,
8 left, 2 bottom). -/
def edges_opposite (mask : Nat) : Prop := mask = 128 + 8 ∨ mask = 32 + 2

instance (mask : Nat) : Decidable (edges_opposite mask) := by
  unfold edges_opposite; infer_instance

/-- A mask that selects two adjacent edges of the cell, two edges that share a
corner: right and top, top and left, left and bottom, or bottom and right. -/
def edges_adjacent (mask : Nat) : Prop :=
  mask = 128 + 32 ∨ mask = 32 + 8 ∨ mask = 8 + 2 ∨ mask = 2 + 128

instance (mask : Nat) : Decidable (edges_adjacent mask) := by
  unfold edges_adjacent; infer_instance

/-- The calls made by running a loop body over the cells `(i, j)` with
`i < rows` and `j < cols`, rows first and columns within a row, each cell
once; `none` when the body fails on one of them. -/
def march_over (rows cols : Nat) (body : Nat → Nat → Option (List DrawLineEx_call)) :
    Option (List DrawLineEx_call) :=
  ((List.range rows).mapM
    (fun i => ((List.range cols).mapM (fun j => body i j)).map List.flatten)).map List.flatten

/-- The classified grid of two rows and two columns with the samples
`[[0, 10], [10, 0]]` and the threshold `5`; its cell has the code `5`. -/
def grid_checkerboard_5 : msq_squares_grid :=
  { rows_count := 2, cols_count := 2, field := [[0, 10], [10, 0]], binary_index := [[5]],
    threshold := 5, max_threshold := 10 }

/-- The classified grid of two rows and two columns with the samples
`[[1 + 2 ^ (-23), 1], [1, 1 + 2 ^ (-23)]]`, all of them `float` values, and the
threshold `1`; its cell has the code `10`. -/
def grid_rounding : msq_squares_grid :=
  { rows_count := 2, cols_count := 2,
    field := [[8388609 / 8388608, 1], [1, 8388609 / 8388608]], binary_index := [[10]],
    threshold := 1, max_threshold := 2 }

/-- The number of set bits among the 8 bits of a mask. -/
def popcount8 (mask : Nat) : Nat :=
  ((List.range 8).filter (fun k => mask.testBit k)).length

/-- The state `g'` reached from `g` once the cells selected by `W` have been
classified: nothing but `binary_index` differs, the allocation is the same,
the selected cells hold the value `msq_get_index` computes from `g`, and the
other cells hold what they held in `g`. -/
def classified (g : msq_squares_grid) (W : Nat → Nat → Prop) (g' : msq_squares_grid) : Prop :=
  g'.rows_count = g.rows_count ∧ g'.cols_count = g.cols_count ∧ g'.field = g.field ∧
  g'.threshold = g.threshold ∧ g'.max_threshold = g.max_threshold ∧
  shape g'.binary_index = shape g.binary_index ∧
  (∀ r c, W r c → load2 g'.binary_index r c = msq_get_index g (r + 1) c) ∧
  (∀ r c, ¬ W r c → load2 g'.binary_index r c = load2 g.binary_index r c)

/-! ## Checked arrays: loads, stores and shapes -/

theorem load2_eq_some_iff {α : Type} (m : List (List α)) (i j : Nat) (v : α) :
    load2 m i j = some v ↔ ∃ row, m[i]? = some row ∧ row[j]? = some v := by
  unfold load2
  cases h : m[i]? with
  | none => simp
  | some row => simp

theorem load2_isSome_of_shape {α : Type} (m : List (List α)) (i j n : Nat)
    (hn : (shape m)[i]? = some n) (hj : j < n) : ∃ v, load2 m i j = some v := by
  unfold shape at hn
  rw [List.getElem?_map] at hn
  cases h : m[i]? with
  | none => simp [h] at hn
  | some row =>
    simp [h] at hn
    subst hn
    exact ⟨row[j], by simp [load2, h, List.getElem?_eq_getElem hj]⟩

theorem load2_eq_none_of_shape_none {α : Type} (m : List (List α)) (i j : Nat)
    (hn : (shape m)[i]? = none) : load2 m i j = none := by
  unfold shape at hn
  rw [List.getElem?_map] at hn
  cases h : m[i]? with
  | none => simp [load2, h]
  | some row => simp [h] at hn

theorem load2_eq_none_of_shape_le {α : Type} (m : List (List α)) (i j n : Nat)
    (hn : (shape m)[i]? = some n) (hj : n ≤ j) : load2 m i j = none := by
  unfold shape at hn
  rw [List.getElem?_map] at hn
  cases h : m[i]? with
  | none => simp [h] at hn
  | some row =>
    simp [h] at hn
    subst hn
    simp [load2, h, List.getElem?_eq_none hj]

theorem store2_isSome_of_shape {α : Type} (m : List (List α)) (i j n : Nat) (v : α)
    (hn : (shape m)[i]? = some n) (hj : j < n) : ∃ m', store2 m i j v = some m' := by
  unfold shape at hn
  rw [List.getElem?_map] at hn
  cases h : m[i]? with
  | none => simp [h] at hn
  | some row =>
    simp [h] at hn
    subst hn
    exact ⟨m.set i (row.set j v), by simp [store2, h, hj]⟩

theorem store2_shape {α : Type} (m m' : List (List α)) (i j : Nat) (v : α)
    (h : store2 m i j v = some m') : shape m' = shape m := by
  unfold store2 at h
  cases hr : m[i]? with
  | none => simp [hr] at h
  | some row =>
    simp [hr] at h
    obtain ⟨_, rfl⟩ := h
    unfold shape
    rw [List.map_set, List.length_set]
    obtain ⟨hi, hrow⟩ := List.getElem?_eq_some.mp hr
    apply List.ext_getElem?
    intro n
    rw [List.getElem?_set]
    by_cases hin : i = n
    · subst hin
      simp [hi, hrow]
    · simp [hin]

theorem store2_load2 {α : Type} (m m' : List (List α)) (i j : Nat) (v : α)
    (h : store2 m i j v = some m') (r c : Nat) :
    load2 m' r c = if r = i ∧ c = j then some v else load2 m r c := by
  unfold store2 at h
  cases hr : m[i]? with
  | none => simp [hr] at h
  | some row =>
    simp [hr] at h
    obtain ⟨hj, rfl⟩ := h
    obtain ⟨hi, hrow⟩ := List.getElem?_eq_some.mp hr
    unfold load2
    rw [List.getElem?_set]
    by_cases hri : i = r
    · subst hri
      simp only [if_pos, hi, hr, true_and]
      rw [List.getElem?_set]
      by_cases hcj : j = c
      · subst hcj
        simp [hj]
      · have : ¬ c = j := fun e => hcj e.symm
        simp [hcj, this]
    · have : ¬ r = i := fun e => hri e.symm
      simp [hri, this]

theorem shape_load2_ext {α : Type} (m m' : List (List α)) (hs : shape m = shape m')
    (hl : ∀ i j, load2 m i j = load2 m' i j) : m = m' := by
  have hlen : m.length = m'.length := by
    have := congrArg List.length hs
    simpa [shape] using this
  apply List.ext_getElem hlen
  intro i h1 h2
  have hrow : (m[i]).length = (m'[i]).length := by
    have := congrArg (fun s => s[i]?) hs
    simpa [shape, List.getElem?_map, List.getElem?_eq_getElem h1, List.getElem?_eq_getElem h2]
      using this
  apply List.ext_getElem hrow
  intro j hj1 hj2
  have := hl i j
  simpa [load2, List.getElem?_eq_getElem h1, List.getElem?_eq_getElem h2,
    List.getElem?_eq_getElem hj1, List.getElem?_eq_getElem hj2] using this

/-! ## Machine integers -/

theorem u32_sub_one (n : Nat) (h1 : 1 ≤ n) (h2 : n < 2 ^ 32) : u32_sub n 1 = n - 1 := by
  unfold u32_sub
  norm_num at h2 ⊢
  omega

theorem u32_add_one (n : Nat) (h2 : n + 1 < 2 ^ 32) : u32_add n 1 = n + 1 := by
  unfold u32_add
  norm_num at h2 ⊢
  omega

/-! ## Well-formed grids -/

theorem wf_shape_field (g : msq_squares_grid) (h : msq_grid_wf g) :
    shape g.field = List.replicate g.rows_count g.cols_count := by
  obtain ⟨_, _, _, _, hl, hr, _, _⟩ := h
  unfold shape
  rw [List.eq_replicate_iff]
  refine ⟨by simpa using hl, ?_⟩
  intro b hb
  obtain ⟨row, hrow, rfl⟩ := List.mem_map.mp hb
  exact hr row hrow

theorem wf_shape_binary_index (g : msq_squares_grid) (h : msq_grid_wf g) :
    shape g.binary_index = List.replicate (g.rows_count - 1) (g.cols_count - 1) := by
  obtain ⟨_, _, _, _, _, _, hl, hr⟩ := h
  unfold shape
  rw [List.eq_replicate_iff]
  refine ⟨by simpa using hl, ?_⟩
  intro b hb
  obtain ⟨row, hrow, rfl⟩ := List.mem_map.mp hb
  exact hr row hrow

theorem wf_of_shape (g : msq_squares_grid)
    (hr : 2 ≤ g.rows_count ∧ g.rows_count < 2 ^ 32) (hc : 2 ≤ g.cols_count ∧ g.cols_count < 2 ^ 32)
    (hf : shape g.field = List.replicate g.rows_count g.cols_count)
    (hb : shape g.binary_index = List.replicate (g.rows_count - 1) (g.cols_count - 1)) :
    msq_grid_wf g := by
  unfold shape at hf hb
  rw [List.eq_replicate_iff] at hf hb
  refine ⟨hr.1, hr.2, hc.1, hc.2, by simpa using hf.1, ?_, by simpa using hb.1, ?_⟩
  · intro row hrow
    exact hf.2 _ (List.mem_map.mpr ⟨row, hrow, rfl⟩)
  · intro row hrow
    exact hb.2 _ (List.mem_map.mpr ⟨row, hrow, rfl⟩)

theorem wf_load_field (g : msq_squares_grid) (h : msq_grid_wf g) (i j : Nat)
    (hi : i < g.rows_count) (hj : j < g.cols_count) : ∃ v, load2 g.field i j = some v := by
  apply load2_isSome_of_shape g.field i j g.cols_count _ hj
  rw [wf_shape_field g h, List.getElem?_replicate]
  simp [hi]

theorem wf_load_binary_index (g : msq_squares_grid) (h : msq_grid_wf g) (i j : Nat)
    (hi : i < g.rows_count - 1) (hj : j < g.cols_count - 1) :
    ∃ v, load2 g.binary_index i j = some v := by
  apply load2_isSome_of_shape g.binary_index i j (g.cols_count - 1) _ hj
  rw [wf_shape_binary_index g h, List.getElem?_replicate]
  simp [hi]

theorem wf_load_binary_index_none (g : msq_squares_grid) (h : msq_grid_wf g) (i j : Nat)
    (hij : ¬ (i < g.rows_count - 1 ∧ j < g.cols_count - 1)) :
    load2 g.binary_index i j = none := by
  by_cases hi : i < g.rows_count - 1
  · apply load2_eq_none_of_shape_le g.binary_index i j (g.cols_count - 1)
    · rw [wf_shape_binary_index g h, List.getElem?_replicate]
      simp [hi]
    · by_contra hlt
      exact hij ⟨hi, by omega⟩
  · apply load2_eq_none_of_shape_none
    rw [wf_shape_binary_index g h, List.getElem?_replicate]
    simp [hi]

/-! ## The code of one cell -/

theorem msq_threshold_le_one (t v : ℚ) : msq_threshold t v ≤ 1 := by
  unfold msq_threshold
  split <;> simp

theorem pack4_eq (a b c d : Nat) (ha : a ≤ 1) (hb : b ≤ 1) (hc : c ≤ 1) (hd : d ≤ 1) :
    pack4 a b c d = 8 * a + 4 * b + 2 * c + d := by
  interval_cases a <;> interval_cases b <;> interval_cases c <;> interval_cases d <;> rfl

theorem msq_get_index_eq (g : msq_squares_grid) (i j : Nat) (tl tr br bl : ℚ)
    (hi1 : 1 ≤ i) (hi2 : i < 2 ^ 32) (hj : j + 1 < 2 ^ 32)
    (htl : load2 g.field (i - 1) j = some tl) (htr : load2 g.field (i - 1) (j + 1) = some tr)
    (hbr : load2 g.field i (j + 1) = some br) (hbl : load2 g.field i j = some bl) :
    msq_get_index g i j =
      some (pack4 (msq_threshold g.threshold tl) (msq_threshold g.threshold tr)
        (msq_threshold g.threshold br) (msq_threshold g.threshold bl)) := by
  unfold msq_get_index
  rw [u32_sub_one i hi1 hi2, u32_add_one j hj]
  simp only [htl, htr, hbr, hbl, Option.bind_eq_bind, Option.some_bind, Option.pure_def]
  rfl

theorem msq_get_index_congr (g g' : msq_squares_grid) (hf : g'.field = g.field)
    (ht : g'.threshold = g.threshold) (i j : Nat) :
    msq_get_index g' i j = msq_get_index g i j := by
  unfold msq_get_index
  rw [hf, ht]

theorem wf_get_index (g : msq_squares_grid) (h : msq_grid_wf g) (r c : Nat)
    (hr : r < g.rows_count - 1) (hc : c < g.cols_count - 1) :
    ∃ tl tr br bl, load2 g.field r c = some tl ∧ load2 g.field r (c + 1) = some tr ∧
      load2 g.field (r + 1) (c + 1) = some br ∧ load2 g.field (r + 1) c = some bl ∧
      msq_get_index g (r + 1) c =
        some (pack4 (msq_threshold g.threshold tl) (msq_threshold g.threshold tr)
          (msq_threshold g.threshold br) (msq_threshold g.threshold bl)) := by
  have hrows := h.2.1
  have hcols := h.2.2.2.1
  obtain ⟨tl, htl⟩ := wf_load_field g h r c (by omega) (by omega)
  obtain ⟨tr, htr⟩ := wf_load_field g h r (c + 1) (by omega) (by omega)
  obtain ⟨br, hbr⟩ := wf_load_field g h (r + 1) (c + 1) (by omega) (by omega)
  obtain ⟨bl, hbl⟩ := wf_load_field g h (r + 1) c (by omega) (by omega)
  refine ⟨tl, tr, br, bl, htl, htr, hbr, hbl, ?_⟩
  exact msq_get_index_eq g (r + 1) c tl tr br bl (by omega) (by omega) (by omega)
    (by simpa using htl) (by simpa using htr) hbr hbl

/-! ## Loops -/

theorem foldlM_range_invariant {σ : Type} (f : σ → Nat → Option σ) (P : Nat → σ → Prop)
    (n : Nat) (s0 : σ) (h0 : P 0 s0)
    (hstep : ∀ k s, k < n → P k s → ∃ s', f s k = some s' ∧ P (k + 1) s') :
    ∃ s', (List.range n).foldlM f s0 = some s' ∧ P n s' := by
  induction n with
  | zero => exact ⟨s0, by simp, h0⟩
  | succ n ih =>
    obtain ⟨s1, hs1, hP1⟩ := ih (fun k s hk hP => hstep k s (by omega) hP)
    obtain ⟨s2, hs2, hP2⟩ := hstep n s1 (by omega) hP1
    refine ⟨s2, ?_, hP2⟩
    rw [List.range_succ, List.foldlM_append, hs1]
    simp [hs2]

/-! ## Classification of the whole grid -/

theorem classified_congr (g g' : msq_squares_grid) (W W' : Nat → Nat → Prop)
    (hW : ∀ r c, W r c ↔ W' r c) (h : classified g W g') : classified g W' g' := by
  obtain ⟨h1, h2, h3, h4, h5, h6, h7, h8⟩ := h
  refine ⟨h1, h2, h3, h4, h5, h6, ?_, ?_⟩
  · intro r c hw
    exact h7 r c ((hW r c).mpr hw)
  · intro r c hw
    exact h8 r c (fun hw' => hw ((hW r c).mp hw'))

theorem classified_refl (g : msq_squares_grid) : classified g (fun _ _ => False) g := by
  refine ⟨rfl, rfl, rfl, rfl, rfl, rfl, ?_, ?_⟩
  · intro r c hw
    exact hw.elim
  · intro r c _
    rfl

theorem classified_body (g g' : msq_squares_grid) (W : Nat → Nat → Prop)
    (hwf : msq_grid_wf g) (h : classified g W g') (r c : Nat)
    (hr : r < g.rows_count - 1) (hc : c < g.cols_count - 1) :
    ∃ g'', msq_grid_get_indices_body g' (r + 1) c = some g'' ∧
      classified g (fun r' c' => W r' c' ∨ (r' = r ∧ c' = c)) g'' := by
  obtain ⟨h1, h2, h3, h4, h5, h6, h7, h8⟩ := h
  have hrows := hwf.2.1
  obtain ⟨tl, tr, br, bl, _, _, _, _, hcode⟩ := wf_get_index g hwf r c hr hc
  have hshape : (shape g'.binary_index)[r]? = some (g.cols_count - 1) := by
    rw [h6, wf_shape_binary_index g hwf, List.getElem?_replicate]
    simp [hr]
  obtain ⟨m', hm'⟩ := store2_isSome_of_shape g'.binary_index r c (g.cols_count - 1)
    (pack4 (msq_threshold g.threshold tl) (msq_threshold g.threshold tr)
      (msq_threshold g.threshold br) (msq_threshold g.threshold bl)) hshape hc
  have hsub : u32_sub (r + 1) 1 = r := by
    rw [u32_sub_one (r + 1) (by omega) (by omega)]
    rfl
  refine ⟨{ g' with binary_index := m' }, ?_, h1, h2, h3, h4, h5, ?_, ?_, ?_⟩
  · unfold msq_grid_get_indices_body
    rw [msq_get_index_congr g g' h3 h4, hcode, hsub]
    simp [hm']
  · exact (store2_shape _ _ _ _ _ hm').trans h6
  · intro r' c' hw
    show load2 m' r' c' = _
    rw [store2_load2 _ _ _ _ _ hm' r' c']
    by_cases heq : r' = r ∧ c' = c
    · obtain ⟨rfl, rfl⟩ := heq
      simp [hcode]
    · rw [if_neg heq]
      rcases hw with hw | hw
      · exact h7 r' c' hw
      · exact (heq hw).elim
  · intro r' c' hw
    show load2 m' r' c' = _
    rw [store2_load2 _ _ _ _ _ hm' r' c']
    have heq : ¬ (r' = r ∧ c' = c) := fun e => hw (Or.inr e)
    rw [if_neg heq]
    exact h8 r' c' (fun e => hw (Or.inl e))

theorem classified_row (g g' : msq_squares_grid) (hwf : msq_grid_wf g) (r : Nat)
    (hr : r < g.rows_count - 1)
    (h : classified g (fun r' c' => r' < r ∧ c' < g.cols_count - 1) g') :
    ∃ g'', (List.range (u32_sub g'.cols_count 1)).foldlM
        (fun grid j => msq_grid_get_indices_body grid (1 + r) j) g' = some g'' ∧
      classified g (fun r' c' => r' < r + 1 ∧ c' < g.cols_count - 1) g'' := by
  have hcols : u32_sub g'.cols_count 1 = g.cols_count - 1 := by
    rw [h.2.1, u32_sub_one g.cols_count (by have := hwf.2.2.1; omega) hwf.2.2.2.1]
  rw [hcols]
  obtain ⟨g'', hg'', hP⟩ := foldlM_range_invariant
    (fun grid j => msq_grid_get_indices_body grid (1 + r) j)
    (fun k s => classified g
      (fun r' c' => (r' < r ∧ c' < g.cols_count - 1) ∨ (r' = r ∧ c' < k)) s)
    (g.cols_count - 1) g'
    (classified_congr g g' _ _ (fun r' c' => by simp) h)
    (by
      intro k s hk hs
      obtain ⟨s', hs', hcl⟩ := classified_body g s _ hwf hs r k hr hk
      refine ⟨s', by rw [Nat.add_comm 1 r]; exact hs', ?_⟩
      refine classified_congr g s' _ _ (fun r' c' => ?_) hcl
      constructor
      · rintro ((hw | hw) | hw)
        · exact Or.inl hw
        · exact Or.inr ⟨hw.1, by omega⟩
        · exact Or.inr ⟨hw.1, by omega⟩
      · rintro (hw | hw)
        · exact Or.inl (Or.inl hw)
        · by_cases hck : c' = k
          · exact Or.inr ⟨hw.1, hck⟩
          · exact Or.inl (Or.inr ⟨hw.1, by omega⟩))
  refine ⟨g'', hg'', classified_congr g g'' _ _ (fun r' c' => ?_) hP⟩
  constructor
  · rintro (hw | hw)
    · exact ⟨by omega, hw.2⟩
    · exact ⟨by omega, hw.2⟩
  · rintro ⟨hw1, hw2⟩
    by_cases hrr : r' = r
    · exact Or.inr ⟨hrr, hw2⟩
    · exact Or.inl ⟨by omega, hw2⟩

theorem msq_grid_get_indices_classified (g : msq_squares_grid) (hwf : msq_grid_wf g) :
    ∃ g', msq_grid_get_indices g = some g' ∧
      classified g (fun r c => r < g.rows_count - 1 ∧ c < g.cols_count - 1) g' := by
  unfold msq_grid_get_indices
  rw [List.range'_eq_map_range, List.foldlM_map]
  exact foldlM_range_invariant
    (fun grid i => (List.range (u32_sub grid.cols_count 1)).foldlM
      (fun grid j => msq_grid_get_indices_body grid (1 + i) j) grid)
    (fun k s => classified g (fun r c => r < k ∧ c < g.cols_count - 1) s)
    (g.rows_count - 1) g
    (classified_congr g g _ _ (fun r c => by simp) (classified_refl g))
    (fun k s hk hs => classified_row g s hwf k hk hs)

theorem classified_wf (g g' : msq_squares_grid) (W : Nat → Nat → Prop)
    (hwf : msq_grid_wf g) (h : classified g W g') : msq_grid_wf g' := by
  obtain ⟨h1, h2, h3, _, _, h6, _, _⟩ := h
  apply wf_of_shape
  · rw [h1]; exact ⟨hwf.1, hwf.2.1⟩
  · rw [h2]; exact ⟨hwf.2.2.1, hwf.2.2.2.1⟩
  · rw [h1, h2, h3]; exact wf_shape_field g hwf
  · rw [h1, h2, h6]; exact wf_shape_binary_index g hwf

theorem classified_all_eq (g g1 g2 : msq_squares_grid)
    (h1 : classified g (fun r c => r < g.rows_count - 1 ∧ c < g.cols_count - 1) g1)
    (h2 : classified g (fun r c => r < g.rows_count - 1 ∧ c < g.cols_count - 1) g2) :
    g1.binary_index = g2.binary_index := by
  apply shape_load2_ext
  · rw [h1.2.2.2.2.2.1, h2.2.2.2.2.2.1]
  · intro i j
    by_cases hw : i < g.rows_count - 1 ∧ j < g.cols_count - 1
    · rw [h1.2.2.2.2.2.2.1 i j hw, h2.2.2.2.2.2.2.1 i j hw]
    · rw [h1.2.2.2.2.2.2.2 i j hw, h2.2.2.2.2.2.2.2 i j hw]

theorem classified_trans_all (g g1 g2 : msq_squares_grid)
    (h1 : classified g (fun r c => r < g.rows_count - 1 ∧ c < g.cols_count - 1) g1)
    (h2 : classified g1 (fun r c => r < g1.rows_count - 1 ∧ c < g1.cols_count - 1) g2) :
    classified g (fun r c => r < g.rows_count - 1 ∧ c < g.cols_count - 1) g2 := by
  obtain ⟨a1, a2, a3, a4, a5, a6, a7, a8⟩ := h1
  obtain ⟨b1, b2, b3, b4, b5, b6, b7, b8⟩ := h2
  rw [a1, a2] at b7 b8
  refine ⟨b1.trans a1, b2.trans a2, b3.trans a3, b4.trans a4, b5.trans a5, b6.trans a6, ?_, ?_⟩
  · intro r c hw
    rw [b7 r c hw, msq_get_index_congr g g1 a3 a4]
  · intro r c hw
    rw [b8 r c hw, a8 r c hw]

theorem grid_eq_of_fields (g g' : msq_squares_grid)
    (h1 : g'.rows_count = g.rows_count) (h2 : g'.cols_count = g.cols_count)
    (h3 : g'.field = g.field) (h4 : g'.binary_index = g.binary_index)
    (h5 : g'.threshold = g.threshold) (h6 : g'.max_threshold = g.max_threshold) : g' = g := by
  cases g
  cases g'
  simp only [msq_squares_grid.mk.injEq]
  exact ⟨h1, h2, h3, h4, h5, h6⟩

theorem msq_grid_get_indices_idempotent (g g' : msq_squares_grid) (hwf : msq_grid_wf g)
    (h : msq_grid_get_indices g = some g') : msq_grid_get_indices g' = some g' := by
  obtain ⟨g1, hg1, hc1⟩ := msq_grid_get_indices_classified g hwf
  rw [h] at hg1
  cases hg1
  have hwf' := classified_wf g g' _ hwf hc1
  obtain ⟨g2, hg2, hc2⟩ := msq_grid_get_indices_classified g' hwf'
  have hc3 := classified_trans_all g g' g2 hc1 hc2
  have hb := classified_all_eq g g2 g' hc3 hc1
  rw [hg2]
  congr 1
  exact grid_eq_of_fields g' g2 hc2.1 hc2.2.1 hc2.2.2.1 hb hc2.2.2.2.1 hc2.2.2.2.2.1

theorem wf_same_field_dims (g1 g2 : msq_squares_grid) (h1 : msq_grid_wf g1)
    (h2 : msq_grid_wf g2) (hf : g2.field = g1.field) :
    g2.rows_count = g1.rows_count ∧ g2.cols_count = g1.cols_count := by
  have s1 := wf_shape_field g1 h1
  have s2 := wf_shape_field g2 h2
  rw [hf, s1] at s2
  have hlen := congrArg List.length s2
  simp only [List.length_replicate] at hlen
  refine ⟨hlen.symm, ?_⟩
  have h0 := congrArg (fun s => s[0]?) s2
  have p1 : 0 < g1.rows_count := by have := h1.1; omega
  have p2 : 0 < g2.rows_count := by have := h2.1; omega
  simp only [List.getElem?_replicate, p1, p2, if_true, Option.some.injEq] at h0
  exact h0.symm

/-! ## One cell of the march -/

theorem wf_corners (g : msq_squares_grid) (hwf : msq_grid_wf g) (i j : Nat)
    (hi : i < g.rows_count - 1) (hj : j < g.cols_count - 1) :
    ∃ tl tr bl br, load2 g.field i j = some tl ∧ load2 g.field i (u32_add j 1) = some tr ∧
      load2 g.field (u32_add i 1) j = some bl ∧
      load2 g.field (u32_add i 1) (u32_add j 1) = some br := by
  have hrows := hwf.2.1
  have hcols := hwf.2.2.2.1
  rw [u32_add_one i (by omega), u32_add_one j (by omega)]
  obtain ⟨tl, htl⟩ := wf_load_field g hwf i j (by omega) (by omega)
  obtain ⟨tr, htr⟩ := wf_load_field g hwf i (j + 1) (by omega) (by omega)
  obtain ⟨bl, hbl⟩ := wf_load_field g hwf (i + 1) j (by omega) (by omega)
  obtain ⟨br, hbr⟩ := wf_load_field g hwf (i + 1) (j + 1) (by omega) (by omega)
  exact ⟨tl, tr, bl, br, htl, htr, hbl, hbr⟩

theorem vertex_128_eq (build : msq_build) (g : msq_squares_grid)
    (ws hs hhs cx cy : Int) (i j : Nat) (tr br : ℚ)
    (htr : load2 g.field i (u32_add j 1) = some tr)
    (hbr : load2 g.field (u32_add i 1) (u32_add j 1) = some br) :
    vertex_128 build g ws hs hhs cx cy i j =
      some ⟨((cx + ws : Int) : ℚ),
        if build.NO_LERP then ((cy + hhs : Int) : ℚ)
        else msq_lerp g.threshold (cy : ℚ) ((cy + hs : Int) : ℚ) tr br⟩ := by
  unfold vertex_128
  cases build.NO_LERP <;> simp [htr, hbr]

theorem vertex_32_eq (build : msq_build) (g : msq_squares_grid)
    (ws whs cx cy : Int) (i j : Nat) (tl tr : ℚ)
    (htl : load2 g.field i j = some tl)
    (htr : load2 g.field i (u32_add j 1) = some tr) :
    vertex_32 build g ws whs cx cy i j =
      some ⟨if build.MSQ_NO_LERP then ((cx + whs : Int) : ℚ)
        else msq_lerp g.threshold (cx : ℚ) ((cx + ws : Int) : ℚ) tl tr, (cy : ℚ)⟩ := by
  unfold vertex_32
  cases build.MSQ_NO_LERP <;> simp [htl, htr]

theorem vertex_8_eq (build : msq_build) (g : msq_squares_grid)
    (hs hhs cx cy : Int) (i j : Nat) (tl bl : ℚ)
    (htl : load2 g.field i j = some tl)
    (hbl : load2 g.field (u32_add i 1) j = some bl) :
    vertex_8 build g hs hhs cx cy i j =
      some ⟨(cx : ℚ), if build.MSQ_NO_LERP then ((cy + hhs : Int) : ℚ)
        else msq_lerp g.threshold (cy : ℚ) ((cy + hs : Int) : ℚ) tl bl⟩ := by
  unfold vertex_8
  cases build.MSQ_NO_LERP <;> simp [htl, hbl]

theorem vertex_2_eq (build : msq_build) (g : msq_squares_grid)
    (ws whs hs cx cy : Int) (i j : Nat) (bl br : ℚ)
    (hbl : load2 g.field (u32_add i 1) j = some bl)
    (hbr : load2 g.field (u32_add i 1) (u32_add j 1) = some br) :
    vertex_2 build g ws whs hs cx cy i j =
      some ⟨if build.MSQ_NO_LERP then ((cx + whs : Int) : ℚ)
        else msq_lerp g.threshold (cx : ℚ) ((cx + ws : Int) : ℚ) bl br,
        ((cy + hs : Int) : ℚ)⟩ := by
  unfold vertex_2
  cases build.MSQ_NO_LERP <;> simp [hbl, hbr]

theorem cell_average_eq (g : msq_squares_grid) (i j : Nat) (tl tr bl br : ℚ)
    (htl : load2 g.field i j = some tl) (htr : load2 g.field i (u32_add j 1) = some tr)
    (hbl : load2 g.field (u32_add i 1) j = some bl)
    (hbr : load2 g.field (u32_add i 1) (u32_add j 1) = some br) :
    cell_average g i j = some (f32_average tl tr bl br) := by
  unfold cell_average
  simp [htl, htr, hbl, hbr]

theorem toI32_of_lt (n : Nat) (h : n < 2 ^ 31) : toI32 n = (n : Int) := by
  unfold toI32
  have h1 : n % 2 ^ 32 = n := Nat.mod_eq_of_lt (by omega)
  rw [h1, if_pos h]

theorem msq_grid_march_cell_skip (build : msq_build) (g : msq_squares_grid)
    (ws whs hs hhs : Int) (color : Color) (lw : ℚ) (i j code : Nat)
    (hcode : load2 g.binary_index i j = some code) (h : code = 0 ∨ code = 15) :
    msq_grid_march_cell build g ws whs hs hhs color lw i j = some [] := by
  unfold msq_grid_march_cell
  have h1 : toI32 code = 0 ∨ toI32 code = 15 := by
    rcases h with rfl | rfl
    · left; rw [toI32_of_lt 0 (by norm_num)]; rfl
    · right; rw [toI32_of_lt 15 (by norm_num)]; rfl
  simp only [hcode, Option.bind_eq_bind, Option.some_bind, if_pos h1, Option.pure_def]

theorem lut_contours_corner_bits (mask : Nat) (h : mask ∈ lut_contours) :
    mask &&& 64 = 0 ∧ mask &&& 16 = 0 ∧ mask &&& 4 = 0 ∧ mask &&& 1 = 0 := by
  revert mask
  decide

theorem msq_grid_march_vertices_eq (build : msq_build) (g : msq_squares_grid)
    (ws whs hs hhs cx cy : Int) (mask i j : Nat) (v0 v1 v2 v3 : Vector2)
    (hv0 : vertex_128 build g ws hs hhs cx cy i j = some v0)
    (hv1 : vertex_32 build g ws whs cx cy i j = some v1)
    (hv2 : vertex_8 build g hs hhs cx cy i j = some v2)
    (hv3 : vertex_2 build g ws whs hs cx cy i j = some v3)
    (hmask : mask ∈ lut_contours) :
    msq_grid_march_vertices build g ws whs hs hhs cx cy mask i j =
      some (edge_vertices mask v0 v1 v2 v3) := by
  obtain ⟨h64, h16, h4, h1⟩ := lut_contours_corner_bits mask hmask
  unfold msq_grid_march_vertices edge_vertices
  by_cases h128 : mask &&& 128 = 0 <;> by_cases h32 : mask &&& 32 = 0 <;>
    by_cases h8 : mask &&& 8 = 0 <;> by_cases h2 : mask &&& 2 = 0 <;>
    simp [h64, h16, h4, h1, h128, h32, h8, h2, hv0, hv1, hv2, hv3, vertices_store]

theorem lut_contours_at_eq (code : Nat) (h : code < 16) :
    lut_contours_at (toI32 code) = lut_contours[code]? := by
  unfold lut_contours_at
  rw [toI32_of_lt code (by omega)]
  simp

theorem msq_grid_march_cell_eq (build : msq_build) (g : msq_squares_grid)
    (ws whs hs hhs : Int) (color : Color) (lw : ℚ) (i j code mask : Nat) (v0 v1 v2 v3 : Vector2)
    (hcode : load2 g.binary_index i j = some code)
    (h0 : code ≠ 0) (h15 : code ≠ 15) (hlt : code < 16)
    (hmask : lut_contours[code]? = some mask)
    (hv0 : vertex_128 build g ws hs hhs (cell_x ws whs j) (cell_y hs hhs i) i j = some v0)
    (hv1 : vertex_32 build g ws whs (cell_x ws whs j) (cell_y hs hhs i) i j = some v1)
    (hv2 : vertex_8 build g hs hhs (cell_x ws whs j) (cell_y hs hhs i) i j = some v2)
    (hv3 : vertex_2 build g ws whs hs (cell_x ws whs j) (cell_y hs hhs i) i j = some v3) :
    msq_grid_march_cell build g ws whs hs hhs color lw i j =
      msq_grid_march_draw g color lw (edge_vertices mask v0 v1 v2 v3) i j := by
  unfold msq_grid_march_cell
  have h1 : ¬ (toI32 code = 0 ∨ toI32 code = 15) := by
    rw [toI32_of_lt code (by omega)]
    omega
  have hmem : mask ∈ lut_contours := List.getElem?_mem hmask
  simp only [hcode, Option.bind_eq_bind, Option.some_bind, if_neg h1, lut_contours_at_eq code hlt,
    hmask, msq_grid_march_vertices_eq build g ws whs hs hhs _ _ mask i j v0 v1 v2 v3 hv0 hv1 hv2 hv3
      hmem]

theorem msq_grid_march_draw_two (g : msq_squares_grid) (color : Color) (lw : ℚ)
    (a b : Vector2) (i j : Nat) :
    msq_grid_march_draw g color lw [a, b] i j = some [⟨a, b, lw, color⟩] := by
  simp [msq_grid_march_draw]

theorem msq_grid_march_draw_four (g : msq_squares_grid) (color : Color) (lw : ℚ)
    (a b c d : Vector2) (i j : Nat) (average : ℚ) (havg : cell_average g i j = some average) :
    msq_grid_march_draw g color lw [a, b, c, d] i j =
      some (if average > g.threshold then [⟨a, d, lw, color⟩, ⟨b, c, lw, color⟩]
        else [⟨a, b, lw, color⟩, ⟨c, d, lw, color⟩]) := by
  unfold msq_grid_march_draw msq_threshold
  by_cases h : average > g.threshold <;> simp [havg, h]

theorem edge_vertices_two (mask : Nat) (v0 v1 v2 v3 : Vector2) (hm : mask ∈ lut_contours)
    (h0 : mask ≠ 0) (h170 : mask ≠ 170) :
    ∃ a b, edge_vertices mask v0 v1 v2 v3 = [a, b] := by
  simp only [lut_contours, List.mem_cons, List.mem_singleton] at hm
  rcases hm with h | h | h | h | h | h | h | h | h | h | h | h | h | h | h | h | h <;>
    first
    | exact (h0 h).elim
    | exact (h170 h).elim
    | (subst h; exact ⟨_, _, rfl⟩)
    | simp at h

theorem edge_vertices_four (v0 v1 v2 v3 : Vector2) :
    edge_vertices 170 v0 v1 v2 v3 = [v0, v1, v2, v3] := rfl

theorem lut_contours_saddle (code : Nat) (h : code = 5 ∨ code = 10) :
    lut_contours[code]? = some 170 := by
  rcases h with rfl | rfl <;> rfl

theorem lut_contours_single (code : Nat) (h1 : 1 ≤ code) (h14 : code ≤ 14) (h5 : code ≠ 5)
    (h10 : code ≠ 10) : ∃ mask, lut_contours[code]? = some mask ∧ mask ≠ 0 ∧ mask ≠ 170 := by
  interval_cases code <;> first
    | exact (h5 rfl).elim
    | exact (h10 rfl).elim
    | exact ⟨_, rfl, by decide, by decide⟩

theorem pack4_bits (t tl tr br bl : ℚ) :
    (pack4 (msq_threshold t tl) (msq_threshold t tr) (msq_threshold t br)
        (msq_threshold t bl)).testBit 0 = decide (bl > t) ∧
    (pack4 (msq_threshold t tl) (msq_threshold t tr) (msq_threshold t br)
        (msq_threshold t bl)).testBit 1 = decide (br > t) ∧
    (pack4 (msq_threshold t tl) (msq_threshold t tr) (msq_threshold t br)
        (msq_threshold t bl)).testBit 2 = decide (tr > t) ∧
    (pack4 (msq_threshold t tl) (msq_threshold t tr) (msq_threshold t br)
        (msq_threshold t bl)).testBit 3 = decide (tl > t) := by
  unfold msq_threshold
  by_cases h1 : tl > t <;> by_cases h2 : tr > t <;> by_cases h3 : br > t <;>
    by_cases h4 : bl > t <;> simp only [h1, h2, h3, h4, if_true, if_false] <;> decide

theorem wf_edge_vertices (build : msq_build) (g : msq_squares_grid) (ws whs hs hhs : Int)
    (i j : Nat) (hwf : msq_grid_wf g) (hi : i < g.rows_count - 1) (hj : j < g.cols_count - 1) :
    ∃ tl tr bl br v0 v1 v2 v3,
      load2 g.field i j = some tl ∧ load2 g.field i (j + 1) = some tr ∧
      load2 g.field (i + 1) j = some bl ∧ load2 g.field (i + 1) (j + 1) = some br ∧
      cell_average g i j = some (f32_average tl tr bl br) ∧
      vertex_128 build g ws hs hhs (cell_x ws whs j) (cell_y hs hhs i) i j = some v0 ∧
      v0.x = ((cell_x ws whs j + ws : Int) : ℚ) ∧
      vertex_32 build g ws whs (cell_x ws whs j) (cell_y hs hhs i) i j = some v1 ∧
      v1.y = ((cell_y hs hhs i : Int) : ℚ) ∧
      vertex_8 build g hs hhs (cell_x ws whs j) (cell_y hs hhs i) i j = some v2 ∧
      v2.x = ((cell_x ws whs j : Int) : ℚ) ∧
      vertex_2 build g ws whs hs (cell_x ws whs j) (cell_y hs hhs i) i j = some v3 ∧
      v3.y = ((cell_y hs hhs i + hs : Int) : ℚ) := by
  obtain ⟨tl, tr, bl, br, htl, htr, hbl, hbr⟩ := wf_corners g hwf i j hi hj
  have hrows := hwf.2.1
  have hcols := hwf.2.2.2.1
  have hi1 : u32_add i 1 = i + 1 := u32_add_one i (by omega)
  have hj1 : u32_add j 1 = j + 1 := u32_add_one j (by omega)
  refine ⟨tl, tr, bl, br, _, _, _, _, ?_, ?_, ?_, ?_,
    cell_average_eq g i j tl tr bl br htl htr hbl hbr,
    vertex_128_eq build g ws hs hhs _ _ i j tr br htr hbr, rfl,
    vertex_32_eq build g ws whs _ _ i j tl tr htl htr, rfl,
    vertex_8_eq build g hs hhs _ _ i j tl bl htl hbl, rfl,
    vertex_2_eq build g ws whs hs _ _ i j bl br hbl hbr, rfl⟩
  · exact htl
  · rw [← hj1]; exact htr
  · rw [← hi1]; exact hbl
  · rw [← hi1, ← hj1]; exact hbr

/-! ## The whole march -/

theorem msq_grid_march_all_skip (build : msq_build) (g : msq_squares_grid)
    (sw sh : Int) (color : Color) (lw : ℚ) (hwf : msq_grid_wf g)
    (hall : ∀ i j, i < g.rows_count - 1 → j < g.cols_count - 1 →
      ∃ code, load2 g.binary_index i j = some code ∧ (code = 0 ∨ code = 15)) :
    msq_grid_march build g sw sh color lw = some [] := by
  have hr := hwf.1
  have hc := hwf.2.2.1
  unfold msq_grid_march
  rw [if_neg (by omega), if_neg (by omega), u32_sub_one g.rows_count (by omega) hwf.2.1,
    u32_sub_one g.cols_count (by omega) hwf.2.2.2.1]
  obtain ⟨s, hs, hP⟩ := foldlM_range_invariant
    (fun drawn i => (List.range (g.cols_count - 1)).foldlM
      (fun drawn j => do
        let calls ← msq_grid_march_cell build g (toI32 (toU32 sw / g.cols_count))
          (Int.tdiv (toI32 (toU32 sw / g.cols_count)) 2) (toI32 (toU32 sh / g.rows_count))
          (Int.tdiv (toI32 (toU32 sh / g.rows_count)) 2) color lw i j
        pure (drawn ++ calls))
      drawn)
    (fun _ s => s = []) (g.rows_count - 1) [] rfl
    (by
      intro i s hi hs
      subst hs
      exact foldlM_range_invariant _ (fun _ s => s = []) (g.cols_count - 1) [] rfl
        (by
          intro j s hj hs
          subst hs
          obtain ⟨code, hcode, h015⟩ := hall i j hi hj
          refine ⟨[], ?_, rfl⟩
          simp [msq_grid_march_cell_skip build g _ _ _ _ color lw i j code hcode h015]))
  subst hP
  exact hs

theorem load2_mem {α : Type} (m : List (List α)) (i j : Nat) (v : α)
    (h : load2 m i j = some v) : ∃ row ∈ m, v ∈ row := by
  obtain ⟨row, hrow, hv⟩ := (load2_eq_some_iff m i j v).mp h
  exact ⟨row, List.getElem?_mem hrow, List.getElem?_mem hv⟩

theorem msq_lerp_eq (t pa pb a b : ℚ) (ht : t ≠ 0) (hab : a ≠ b) :
    msq_lerp t pa pb a b = pa + (pb - pa) * (t - a) / (b - a) := by
  have hba : b - a ≠ 0 := sub_ne_zero.mpr (Ne.symm hab)
  unfold msq_lerp
  field_simp

/-! ## Float arithmetic -/

theorem f32_quantum_eq (x : ℚ) (e : Int) (hx : 0 < x) (h1 : (2 : ℚ) ^ e ≤ x)
    (h2 : x < (2 : ℚ) ^ (e + 1)) (he : -126 ≤ e) : f32_quantum x = 2 ^ (e - 23) := by
  have hlog : Int.log 2 x = e := by
    apply le_antisymm
    · have h3 : Int.log 2 x < e + 1 :=
        (Int.lt_zpow_iff_log_lt (by norm_num) hx).mp (by exact_mod_cast h2)
      omega
    · exact (Int.zpow_le_iff_le_log (by norm_num) hx).mp (by exact_mod_cast h1)
  unfold f32_quantum
  rw [abs_of_pos hx, hlog, max_eq_left he]

theorem f32_round_eq (x r : ℚ) (e : Int) (hx : 0 < x) (h1 : (2 : ℚ) ^ e ≤ x)
    (h2 : x < (2 : ℚ) ^ (e + 1)) (he : -126 ≤ e)
    (hr : (round_ties_even (x / 2 ^ (e - 23)) : ℚ) * 2 ^ (e - 23) = r)
    (hlo : -2 ^ 128 < r) (hhi : r < 2 ^ 128) : f32_round x = r := by
  unfold f32_round
  rw [f32_quantum_eq x e hx h1 h2 he, hr, if_neg (not_le.mpr hhi), if_neg (not_le.mpr hlo)]

theorem f32_add_eq (a b : ℚ) (ha1 : -2 ^ 128 < a) (ha2 : a < 2 ^ 128) (hb1 : -2 ^ 128 < b)
    (hb2 : b < 2 ^ 128) : f32_add a b = f32_round (a + b) := by
  unfold f32_add
  rw [if_neg (not_le.mpr (abs_lt.mpr ⟨ha1, ha2⟩)), if_neg (not_le.mpr (abs_lt.mpr ⟨hb1, hb2⟩))]

theorem f32_average_eq (a b c d s1 s2 s3 : ℚ)
    (ha : -2 ^ 128 < a ∧ a < 2 ^ 128) (hb : -2 ^ 128 < b ∧ b < 2 ^ 128)
    (hc : -2 ^ 128 < c ∧ c < 2 ^ 128) (hd : -2 ^ 128 < d ∧ d < 2 ^ 128)
    (h1 : f32_round (a + b) = s1) (hs1 : -2 ^ 128 < s1 ∧ s1 < 2 ^ 128)
    (h2 : f32_round (s1 + c) = s2) (hs2 : -2 ^ 128 < s2 ∧ s2 < 2 ^ 128)
    (h3 : f32_round (s2 + d) = s3) (hs3 : -2 ^ 128 < s3 ∧ s3 < 2 ^ 128) :
    f32_average a b c d = f32_round (s3 / 4) := by
  unfold f32_average
  rw [f32_add_eq a b ha.1 ha.2 hb.1 hb.2, h1, f32_add_eq s1 c hs1.1 hs1.2 hc.1 hc.2, h2,
    f32_add_eq s2 d hs2.1 hs2.2 hd.1 hd.2, h3, if_neg (not_le.mpr (abs_lt.mpr hs3))]

theorem f32_round_5 : f32_round 5 = 5 :=
  f32_round_eq 5 5 2 (by norm_num) (by norm_num) (by norm_num) (by norm_num)
    (by norm_num [round_ties_even]) (by norm_num) (by norm_num)

theorem f32_round_10 : f32_round 10 = 10 :=
  f32_round_eq 10 10 3 (by norm_num) (by norm_num) (by norm_num) (by norm_num)
    (by norm_num [round_ties_even]) (by norm_num) (by norm_num)

theorem f32_round_20 : f32_round 20 = 20 :=
  f32_round_eq 20 20 4 (by norm_num) (by norm_num) (by norm_num) (by norm_num)
    (by norm_num [round_ties_even]) (by norm_num) (by norm_num)

theorem f32_average_10_0_0_10 : f32_average 10 0 0 10 = 5 := by
  rw [f32_average_eq 10 0 0 10 10 10 20 (by norm_num) (by norm_num) (by norm_num) (by norm_num)
    (by norm_num [f32_round_10]) (by norm_num) (by norm_num [f32_round_10]) (by norm_num)
    (by norm_num [f32_round_20]) (by norm_num)]
  norm_num [f32_round_5]

theorem f32_average_0_10_10_0 : f32_average 0 10 10 0 = 5 := by
  rw [f32_average_eq 0 10 10 0 10 20 20 (by norm_num) (by norm_num) (by norm_num) (by norm_num)
    (by norm_num [f32_round_10]) (by norm_num) (by norm_num [f32_round_20]) (by norm_num)
    (by norm_num [f32_round_20]) (by norm_num)]
  norm_num [f32_round_5]

theorem f32_average_rounds_down :
    f32_average (8388609 / 8388608) 1 1 (8388609 / 8388608) = 1 := by
  have r1 : f32_round (8388609 / 8388608 + 1) = 2 :=
    f32_round_eq _ 2 1 (by norm_num) (by norm_num) (by norm_num) (by norm_num)
      (by norm_num [round_ties_even]) (by norm_num) (by norm_num)
  have r2 : f32_round (2 + 1) = 3 :=
    f32_round_eq _ 3 1 (by norm_num) (by norm_num) (by norm_num) (by norm_num)
      (by norm_num [round_ties_even]) (by norm_num) (by norm_num)
  have r3 : f32_round (3 + 8388609 / 8388608) = 4 :=
    f32_round_eq _ 4 2 (by norm_num) (by norm_num) (by norm_num) (by norm_num)
      (by norm_num [round_ties_even]) (by norm_num) (by norm_num)
  have r4 : f32_round (4 / 4) = 1 :=
    f32_round_eq _ 1 0 (by norm_num) (by norm_num) (by norm_num) (by norm_num)
      (by norm_num [round_ties_even]) (by norm_num) (by norm_num)
  rw [f32_average_eq (8388609 / 8388608) 1 1 (8388609 / 8388608) 2 3 4 (by norm_num)
    (by norm_num) (by norm_num) (by norm_num) r1 (by norm_num) r2 (by norm_num) r3
    (by norm_num), r4]

/-! ## The checkerboard cell -/

theorem checkerboard_average :
    cell_average grid_checkerboard 0 0 = some grid_checkerboard.threshold := by
  rw [cell_average_eq grid_checkerboard 0 0 10 0 0 10 (by decide) (by decide) (by decide)
    (by decide), f32_average_10_0_0_10]
  rfl

theorem checkerboard_cell :
    msq_grid_march_cell ⟨false, false⟩ grid_checkerboard 600 300 450 225 ⟨0, 0, 0, 255⟩ 2 0 0 =
      some [⟨⟨900, 450⟩, ⟨600, 225⟩, 2, ⟨0, 0, 0, 255⟩⟩,
        ⟨⟨300, 450⟩, ⟨600, 675⟩, 2, ⟨0, 0, 0, 255⟩⟩] := by
  have hx : cell_x 600 300 0 = 300 := by decide
  have hy : cell_y 450 225 0 = 225 := by decide
  have hth : grid_checkerboard.threshold = 5 := rfl
  have h := msq_grid_march_cell_eq ⟨false, false⟩ grid_checkerboard 600 300 450 225
    ⟨0, 0, 0, 255⟩ 2 0 0 10 170 _ _ _ _ (by decide) (by decide) (by decide) (by decide)
    (by decide)
    (vertex_128_eq _ _ 600 450 225 _ _ 0 0 0 10 (by decide) (by decide))
    (vertex_32_eq _ _ 600 300 _ _ 0 0 10 0 (by decide) (by decide))
    (vertex_8_eq _ _ 450 225 _ _ 0 0 10 0 (by decide) (by decide))
    (vertex_2_eq _ _ 600 300 450 _ _ 0 0 0 10 (by decide) (by decide))
  rw [h, edge_vertices_four, msq_grid_march_draw_four _ _ _ _ _ _ _ 0 0 _ checkerboard_average,
    hx, hy, hth]
  simp [msq_lerp]
  norm_num

theorem checkerboard_march :
    msq_grid_march ⟨false, false⟩ grid_checkerboard 1200 900 ⟨0, 0, 0, 255⟩ 2 =
      some [⟨⟨900, 450⟩, ⟨600, 225⟩, 2, ⟨0, 0, 0, 255⟩⟩,
        ⟨⟨300, 450⟩, ⟨600, 675⟩, 2, ⟨0, 0, 0, 255⟩⟩] := by
  have h1 : toI32 (toU32 1200 / 2) = 600 := by decide
  have h2 : toI32 (toU32 900 / 2) = 450 := by decide
  have h3 : Int.tdiv 600 2 = 300 := by decide
  have h4 : Int.tdiv 450 2 = 225 := by decide
  have h5 : u32_sub 2 1 = 1 := by decide
  have e1 : grid_checkerboard.rows_count = 2 := rfl
  have e2 : grid_checkerboard.cols_count = 2 := rfl
  simp [msq_grid_march, e1, e2, h1, h2, h3, h4, h5, checkerboard_cell, List.range_succ]

/-! ## Classification depends on the samples and the threshold only -/

theorem classified_same_field (g1 g2 g1' g2' : msq_squares_grid) (h1 : msq_grid_wf g1)
    (h2 : msq_grid_wf g2) (hf : g2.field = g1.field) (ht : g2.threshold = g1.threshold)
    (c1 : classified g1 (fun r c => r < g1.rows_count - 1 ∧ c < g1.cols_count - 1) g1')
    (c2 : classified g2 (fun r c => r < g2.rows_count - 1 ∧ c < g2.cols_count - 1) g2') :
    g2'.binary_index = g1'.binary_index := by
  obtain ⟨hr, hc⟩ := wf_same_field_dims g1 g2 h1 h2 hf
  rw [hr, hc] at c2
  apply shape_load2_ext
  · rw [c2.2.2.2.2.2.1, c1.2.2.2.2.2.1, wf_shape_binary_index g1 h1, wf_shape_binary_index g2 h2,
      hr, hc]
  · intro i j
    by_cases hw : i < g1.rows_count - 1 ∧ j < g1.cols_count - 1
    · rw [c2.2.2.2.2.2.2.1 i j hw, c1.2.2.2.2.2.2.1 i j hw, msq_get_index_congr g1 g2 hf ht]
    · rw [c2.2.2.2.2.2.2.2 i j hw, c1.2.2.2.2.2.2.2 i j hw,
        wf_load_binary_index_none g1 h1 i j hw,
        wf_load_binary_index_none g2 h2 i j (by rw [hr, hc]; exact hw)]

theorem classified_uniform (g g' : msq_squares_grid) (hwf : msq_grid_wf g) (k : Nat)
    (hk : ∀ v, (∃ row ∈ g.field, v ∈ row) → msq_threshold g.threshold v = k)
    (hp : pack4 k k k k = if k = 0 then 0 else 15)
    (hcl : classified g (fun r c => r < g.rows_count - 1 ∧ c < g.cols_count - 1) g') :
    ∀ i j, i < g.rows_count - 1 → j < g.cols_count - 1 →
      load2 g'.binary_index i j = some (if k = 0 then 0 else 15) := by
  intro i j hi hj
  obtain ⟨tl, tr, br, bl, htl, htr, hbr, hbl, hcode⟩ := wf_get_index g hwf i j hi hj
  rw [hcl.2.2.2.2.2.2.1 i j ⟨hi, hj⟩, hcode, hk tl (load2_mem _ _ _ _ htl),
    hk tr (load2_mem _ _ _ _ htr), hk br (load2_mem _ _ _ _ hbr), hk bl (load2_mem _ _ _ _ hbl),
    hp]

/-! ## Cells with one segment -/

theorem msq_grid_march_cell_single (build : msq_build) (g : msq_squares_grid)
    (ws whs hs hhs : Int) (color : Color) (lw : ℚ) (i j code mask : Nat)
    (v0 v1 v2 v3 a b : Vector2)
    (hcode : load2 g.binary_index i j = some code)
    (h0 : code ≠ 0) (h15 : code ≠ 15) (hlt : code < 16)
    (hmask : lut_contours[code]? = some mask)
    (hv0 : vertex_128 build g ws hs hhs (cell_x ws whs j) (cell_y hs hhs i) i j = some v0)
    (hv1 : vertex_32 build g ws whs (cell_x ws whs j) (cell_y hs hhs i) i j = some v1)
    (hv2 : vertex_8 build g hs hhs (cell_x ws whs j) (cell_y hs hhs i) i j = some v2)
    (hv3 : vertex_2 build g ws whs hs (cell_x ws whs j) (cell_y hs hhs i) i j = some v3)
    (hab : edge_vertices mask v0 v1 v2 v3 = [a, b]) :
    msq_grid_march_cell build g ws whs hs hhs color lw i j = some [⟨a, b, lw, color⟩] := by
  rw [msq_grid_march_cell_eq build g ws whs hs hhs color lw i j code mask v0 v1 v2 v3 hcode
    h0 h15 hlt hmask hv0 hv1 hv2 hv3, hab, msq_grid_march_draw_two]

theorem msq_lerp_midpoint_up (p s : ℚ) : msq_lerp 5 p (p + s) 0 10 = p + s / 2 := by
  unfold msq_lerp
  norm_num

theorem msq_lerp_midpoint_down (p s : ℚ) : msq_lerp 5 p (p + s) 10 0 = p + s / 2 := by
  unfold msq_lerp
  norm_num

/-! ## The grid with one sample above the threshold -/

theorem centre_peak_cell_0_0 (ws whs hs hhs : Int) (color : Color) (lw : ℚ) :
    msq_grid_march_cell ⟨false, false⟩ grid_centre_peak_classified
        ws whs hs hhs color lw 0 0 =
      some [⟨⟨((cell_x ws whs 0 + ws : Int) : ℚ), (cell_y hs hhs 0 : ℚ) + (hs : ℚ) / 2⟩,
        ⟨(cell_x ws whs 0 : ℚ) + (ws : ℚ) / 2, ((cell_y hs hhs 0 + hs : Int) : ℚ)⟩, lw, color⟩] := by
  have h := msq_grid_march_cell_single ⟨false, false⟩
    grid_centre_peak_classified ws whs hs hhs color lw 0 0 2 130
    _ _ _ _ _ _ (by decide) (by decide) (by decide) (by decide) (by decide)
    (vertex_128_eq _ _ ws hs hhs _ _ 0 0 0 10 (by decide) (by decide))
    (vertex_32_eq _ _ ws whs _ _ 0 0 0 0 (by decide) (by decide))
    (vertex_8_eq _ _ hs hhs _ _ 0 0 0 0 (by decide) (by decide))
    (vertex_2_eq _ _ ws whs hs _ _ 0 0 0 10 (by decide) (by decide)) rfl
  rw [h]
  simp [grid_centre_peak_classified, msq_lerp_midpoint_up]

theorem centre_peak_cell_0_1 (ws whs hs hhs : Int) (color : Color) (lw : ℚ) :
    msq_grid_march_cell ⟨false, false⟩ grid_centre_peak_classified
        ws whs hs hhs color lw 0 1 =
      some [⟨⟨(cell_x ws whs 1 : ℚ), (cell_y hs hhs 0 : ℚ) + (hs : ℚ) / 2⟩,
        ⟨(cell_x ws whs 1 : ℚ) + (ws : ℚ) / 2, ((cell_y hs hhs 0 + hs : Int) : ℚ)⟩, lw, color⟩] := by
  have h := msq_grid_march_cell_single ⟨false, false⟩
    grid_centre_peak_classified ws whs hs hhs color lw 0 1 1 10
    _ _ _ _ _ _ (by decide) (by decide) (by decide) (by decide) (by decide)
    (vertex_128_eq _ _ ws hs hhs _ _ 0 1 0 0 (by decide) (by decide))
    (vertex_32_eq _ _ ws whs _ _ 0 1 0 0 (by decide) (by decide))
    (vertex_8_eq _ _ hs hhs _ _ 0 1 0 10 (by decide) (by decide))
    (vertex_2_eq _ _ ws whs hs _ _ 0 1 10 0 (by decide) (by decide)) rfl
  rw [h]
  simp [grid_centre_peak_classified, msq_lerp_midpoint_up, msq_lerp_midpoint_down]

theorem centre_peak_cell_1_0 (ws whs hs hhs : Int) (color : Color) (lw : ℚ) :
    msq_grid_march_cell ⟨false, false⟩ grid_centre_peak_classified
        ws whs hs hhs color lw 1 0 =
      some [⟨⟨((cell_x ws whs 0 + ws : Int) : ℚ), (cell_y hs hhs 1 : ℚ) + (hs : ℚ) / 2⟩,
        ⟨(cell_x ws whs 0 : ℚ) + (ws : ℚ) / 2, (cell_y hs hhs 1 : ℚ)⟩, lw, color⟩] := by
  have h := msq_grid_march_cell_single ⟨false, false⟩
    grid_centre_peak_classified ws whs hs hhs color lw 1 0 4 160
    _ _ _ _ _ _ (by decide) (by decide) (by decide) (by decide) (by decide)
    (vertex_128_eq _ _ ws hs hhs _ _ 1 0 10 0 (by decide) (by decide))
    (vertex_32_eq _ _ ws whs _ _ 1 0 0 10 (by decide) (by decide))
    (vertex_8_eq _ _ hs hhs _ _ 1 0 0 0 (by decide) (by decide))
    (vertex_2_eq _ _ ws whs hs _ _ 1 0 0 0 (by decide) (by decide)) rfl
  rw [h]
  simp [grid_centre_peak_classified, msq_lerp_midpoint_up, msq_lerp_midpoint_down]

theorem centre_peak_cell_1_1 (ws whs hs hhs : Int) (color : Color) (lw : ℚ) :
    msq_grid_march_cell ⟨false, false⟩ grid_centre_peak_classified
        ws whs hs hhs color lw 1 1 =
      some [⟨⟨(cell_x ws whs 1 : ℚ) + (ws : ℚ) / 2, (cell_y hs hhs 1 : ℚ)⟩,
        ⟨(cell_x ws whs 1 : ℚ), (cell_y hs hhs 1 : ℚ) + (hs : ℚ) / 2⟩, lw, color⟩] := by
  have h := msq_grid_march_cell_single ⟨false, false⟩
    grid_centre_peak_classified ws whs hs hhs color lw 1 1 8 40
    _ _ _ _ _ _ (by decide) (by decide) (by decide) (by decide) (by decide)
    (vertex_128_eq _ _ ws hs hhs _ _ 1 1 0 0 (by decide) (by decide))
    (vertex_32_eq _ _ ws whs _ _ 1 1 10 0 (by decide) (by decide))
    (vertex_8_eq _ _ hs hhs _ _ 1 1 10 0 (by decide) (by decide))
    (vertex_2_eq _ _ ws whs hs _ _ 1 1 0 0 (by decide) (by decide)) rfl
  rw [h]
  simp [grid_centre_peak_classified, msq_lerp_midpoint_up, msq_lerp_midpoint_down]

theorem centre_peak_march (sw sh : Int) (color : Color) (lw : ℚ) :
    msq_grid_march ⟨false, false⟩ grid_centre_peak_classified sw sh color lw =
      some
        [⟨⟨((cell_x (march_spacing sw 3) (march_halfspacing (march_spacing sw 3)) 0 +
              march_spacing sw 3 : Int) : ℚ),
            (cell_y (march_spacing sh 3) (march_halfspacing (march_spacing sh 3)) 0 : ℚ) +
              (march_spacing sh 3 : ℚ) / 2⟩,
          ⟨(cell_x (march_spacing sw 3) (march_halfspacing (march_spacing sw 3)) 0 : ℚ) +
              (march_spacing sw 3 : ℚ) / 2,
            ((cell_y (march_spacing sh 3) (march_halfspacing (march_spacing sh 3)) 0 +
              march_spacing sh 3 : Int) : ℚ)⟩, lw, color⟩,
         ⟨⟨(cell_x (march_spacing sw 3) (march_halfspacing (march_spacing sw 3)) 1 : ℚ),
            (cell_y (march_spacing sh 3) (march_halfspacing (march_spacing sh 3)) 0 : ℚ) +
              (march_spacing sh 3 : ℚ) / 2⟩,
          ⟨(cell_x (march_spacing sw 3) (march_halfspacing (march_spacing sw 3)) 1 : ℚ) +
              (march_spacing sw 3 : ℚ) / 2,
            ((cell_y (march_spacing sh 3) (march_halfspacing (march_spacing sh 3)) 0 +
              march_spacing sh 3 : Int) : ℚ)⟩, lw, color⟩,
         ⟨⟨((cell_x (march_spacing sw 3) (march_halfspacing (march_spacing sw 3)) 0 +
              march_spacing sw 3 : Int) : ℚ),
            (cell_y (march_spacing sh 3) (march_halfspacing (march_spacing sh 3)) 1 : ℚ) +
              (march_spacing sh 3 : ℚ) / 2⟩,
          ⟨(cell_x (march_spacing sw 3) (march_halfspacing (march_spacing sw 3)) 0 : ℚ) +
              (march_spacing sw 3 : ℚ) / 2,
            (cell_y (march_spacing sh 3) (march_halfspacing (march_spacing sh 3)) 1 : ℚ)⟩,
          lw, color⟩,
         ⟨⟨(cell_x (march_spacing sw 3) (march_halfspacing (march_spacing sw 3)) 1 : ℚ) +
              (march_spacing sw 3 : ℚ) / 2,
            (cell_y (march_spacing sh 3) (march_halfspacing (march_spacing sh 3)) 1 : ℚ)⟩,
          ⟨(cell_x (march_spacing sw 3) (march_halfspacing (march_spacing sw 3)) 1 : ℚ),
            (cell_y (march_spacing sh 3) (march_halfspacing (march_spacing sh 3)) 1 : ℚ) +
              (march_spacing sh 3 : ℚ) / 2⟩, lw, color⟩] := by
  have h5 : u32_sub 3 1 = 2 := by decide
  have e1 : grid_centre_peak_classified.rows_count = 3 := rfl
  have e2 : grid_centre_peak_classified.cols_count = 3 := rfl
  unfold msq_grid_march
  simp only [e1, e2, h5, List.range_succ, List.range_zero, List.nil_append, List.cons_append,
    List.foldlM_cons, List.foldlM_nil, centre_peak_cell_0_0, centre_peak_cell_0_1,
    centre_peak_cell_1_0, centre_peak_cell_1_1, Option.bind_eq_bind, Option.some_bind,
    Option.pure_def, OfNat.ofNat_ne_zero, if_false, List.append_nil, march_spacing,
    march_halfspacing, reduceIte]

/-! ## Construction -/

theorem msq_grid_create_wf (fs : Nat → Nat → ℚ) (fc : Nat → Nat → Nat) (rows cols : Nat) (mt : ℚ)
    (hr : 2 ≤ rows ∧ rows < 2 ^ 32) (hc : 2 ≤ cols ∧ cols < 2 ^ 32) :
    msq_grid_wf
      { rows_count := rows
        cols_count := cols
        field := (List.range rows).map (fun i => (List.range cols).map (fs i))
        binary_index :=
          (List.range (u32_sub rows 1)).map (fun i => (List.range (u32_sub cols 1)).map (fc i))
        threshold := mt / 2
        max_threshold := mt } := by
  rw [u32_sub_one rows (by omega) hr.2, u32_sub_one cols (by omega) hc.2]
  refine ⟨hr.1, hr.2, hc.1, hc.2, by simp, ?_, by simp, ?_⟩
  · intro row hrow
    obtain ⟨i, _, rfl⟩ := List.mem_map.mp hrow
    simp
  · intro row hrow
    obtain ⟨i, _, rfl⟩ := List.mem_map.mp hrow
    simp

/-! ## The edges flagged by the table are crossed -/

theorem lut_mask_bits (a b c d mask : Nat) (ha : a ≤ 1) (hb : b ≤ 1) (hc : c ≤ 1) (hd : d ≤ 1)
    (hm : lut_contours[pack4 a b c d]? = some mask) :
    (mask &&& 128 ≠ 0 → b ≠ c) ∧ (mask &&& 32 ≠ 0 → a ≠ b) ∧
    (mask &&& 8 ≠ 0 → a ≠ d) ∧ (mask &&& 2 ≠ 0 → d ≠ c) := by
  obtain rfl : mask = (lut_contours[pack4 a b c d]?).getD 0 := by rw [hm]; rfl
  clear hm
  interval_cases a <;> interval_cases b <;> interval_cases c <;> interval_cases d <;> decide

theorem lut_contours_some (code : Nat) (h : code < 16) :
    ∃ mask, lut_contours[code]? = some mask := by
  interval_cases code <;> exact ⟨_, rfl⟩

theorem msq_threshold_ne (t x y : ℚ) (h : msq_threshold t x ≠ msq_threshold t y) :
    ((x > t ∧ ¬ y > t) ∨ (¬ x > t ∧ y > t)) ∧ x ≠ y := by
  unfold msq_threshold at h
  refine ⟨?_, fun e => h (by rw [e])⟩
  by_cases hx : x > t <;> by_cases hy : y > t <;> simp [hx, hy] at h ⊢

theorem lerp_calls_128_vertex (build : msq_build) (g : msq_squares_grid)
    (ws hs hhs cx cy : Int) (i j : Nat) (c : msq_lerp_call)
    (h : lerp_calls_128 build g hs cy i j = some [c]) :
    vertex_128 build g ws hs hhs cx cy i j =
      some ⟨((cx + ws : Int) : ℚ), msq_lerp c.threshold c.pos_a c.pos_b c.grid_a c.grid_b⟩ := by
  unfold lerp_calls_128 at h
  unfold vertex_128
  cases hb : build.NO_LERP
  · cases ha : load2 g.field i (u32_add j 1) with
    | none => simp [hb, ha] at h
    | some a =>
      cases hb' : load2 g.field (u32_add i 1) (u32_add j 1) with
      | none => simp [hb, ha, hb'] at h
      | some b =>
        simp [hb, ha, hb'] at h
        subst h
        simp
  · simp [hb] at h

theorem lerp_calls_32_vertex (build : msq_build) (g : msq_squares_grid)
    (ws whs cx cy : Int) (i j : Nat) (c : msq_lerp_call)
    (h : lerp_calls_32 build g ws cx i j = some [c]) :
    vertex_32 build g ws whs cx cy i j =
      some ⟨msq_lerp c.threshold c.pos_a c.pos_b c.grid_a c.grid_b, (cy : ℚ)⟩ := by
  unfold lerp_calls_32 at h
  unfold vertex_32
  cases hb : build.MSQ_NO_LERP
  · cases ha : load2 g.field i j with
    | none => simp [hb, ha] at h
    | some a =>
      cases hb' : load2 g.field i (u32_add j 1) with
      | none => simp [hb, ha, hb'] at h
      | some b =>
        simp [hb, ha, hb'] at h
        subst h
        simp
  · simp [hb] at h

theorem lerp_calls_8_vertex (build : msq_build) (g : msq_squares_grid)
    (hs hhs cx cy : Int) (i j : Nat) (c : msq_lerp_call)
    (h : lerp_calls_8 build g hs cy i j = some [c]) :
    vertex_8 build g hs hhs cx cy i j =
      some ⟨(cx : ℚ), msq_lerp c.threshold c.pos_a c.pos_b c.grid_a c.grid_b⟩ := by
  unfold lerp_calls_8 at h
  unfold vertex_8
  cases hb : build.MSQ_NO_LERP
  · cases ha : load2 g.field i j with
    | none => simp [hb, ha] at h
    | some a =>
      cases hb' : load2 g.field (u32_add i 1) j with
      | none => simp [hb, ha, hb'] at h
      | some b =>
        simp [hb, ha, hb'] at h
        subst h
        simp
  · simp [hb] at h

theorem lerp_calls_2_vertex (build : msq_build) (g : msq_squares_grid)
    (ws whs hs cx cy : Int) (i j : Nat) (c : msq_lerp_call)
    (h : lerp_calls_2 build g ws cx i j = some [c]) :
    vertex_2 build g ws whs hs cx cy i j =
      some ⟨msq_lerp c.threshold c.pos_a c.pos_b c.grid_a c.grid_b,
        ((cy + hs : Int) : ℚ)⟩ := by
  unfold lerp_calls_2 at h
  unfold vertex_2
  cases hb : build.MSQ_NO_LERP
  · cases ha : load2 g.field (u32_add i 1) j with
    | none => simp [hb, ha] at h
    | some a =>
      cases hb' : load2 g.field (u32_add i 1) (u32_add j 1) with
      | none => simp [hb, ha, hb'] at h
      | some b =>
        simp [hb, ha, hb'] at h
        subst h
        simp
  · simp [hb] at h

theorem msq_grid_march_cell_lerp_calls_skip (build : msq_build) (g : msq_squares_grid)
    (ws whs hs hhs : Int) (i j code : Nat)
    (hcode : load2 g.binary_index i j = some code) (h : code = 0 ∨ code = 15) :
    msq_grid_march_cell_lerp_calls build g ws whs hs hhs i j = some [] := by
  unfold msq_grid_march_cell_lerp_calls
  have h1 : toI32 code = 0 ∨ toI32 code = 15 := by
    rcases h with rfl | rfl
    · left; rw [toI32_of_lt 0 (by norm_num)]; rfl
    · right; rw [toI32_of_lt 15 (by norm_num)]; rfl
  simp only [hcode, Option.bind_eq_bind, Option.some_bind, if_pos h1, Option.pure_def]

theorem msq_grid_march_cell_lerp_calls_eq (build : msq_build) (g : msq_squares_grid)
    (ws whs hs hhs : Int) (i j code mask : Nat) (tl tr bl br : ℚ)
    (hcode : load2 g.binary_index i j = some code)
    (h0 : code ≠ 0) (h15 : code ≠ 15) (hlt : code < 16)
    (hmask : lut_contours[code]? = some mask)
    (htl : load2 g.field i j = some tl) (htr : load2 g.field i (u32_add j 1) = some tr)
    (hbl : load2 g.field (u32_add i 1) j = some bl)
    (hbr : load2 g.field (u32_add i 1) (u32_add j 1) = some br) :
    msq_grid_march_cell_lerp_calls build g ws whs hs hhs i j =
      some ((if mask &&& 128 ≠ 0 then
            (if build.NO_LERP then []
            else [⟨g.threshold, (cell_y hs hhs i : ℚ), ((cell_y hs hhs i + hs : Int) : ℚ), tr, br⟩])
          else []) ++
        (if mask &&& 32 ≠ 0 then
            (if build.MSQ_NO_LERP then []
            else [⟨g.threshold, (cell_x ws whs j : ℚ), ((cell_x ws whs j + ws : Int) : ℚ), tl, tr⟩])
          else []) ++
        (if mask &&& 8 ≠ 0 then
            (if build.MSQ_NO_LERP then []
            else [⟨g.threshold, (cell_y hs hhs i : ℚ), ((cell_y hs hhs i + hs : Int) : ℚ), tl, bl⟩])
          else []) ++
        (if mask &&& 2 ≠ 0 then
            (if build.MSQ_NO_LERP then []
            else [⟨g.threshold, (cell_x ws whs j : ℚ), ((cell_x ws whs j + ws : Int) : ℚ), bl, br⟩])
          else [])) := by
  unfold msq_grid_march_cell_lerp_calls
  have h1 : ¬ (toI32 code = 0 ∨ toI32 code = 15) := by
    rw [toI32_of_lt code (by omega)]
    omega
  simp only [hcode, Option.bind_eq_bind, Option.some_bind, if_neg h1, lut_contours_at_eq code hlt,
    hmask, lerp_calls_128, lerp_calls_32, lerp_calls_8, lerp_calls_2, htl, htr, hbl, hbr,
    Option.pure_def]
  cases build.NO_LERP <;> cases build.MSQ_NO_LERP <;>
    by_cases h128 : mask &&& 128 = 0 <;> by_cases h32 : mask &&& 32 = 0 <;>
    by_cases h8 : mask &&& 8 = 0 <;> by_cases h2 : mask &&& 2 = 0 <;>
    simp [h128, h32, h8, h2]

/-! ## The march as a traversal of the cells -/

theorem foldlM_append_calls {α β : Type} (f : α → Option (List β)) (xs : List α)
    (acc : List β) :
    xs.foldlM (fun drawn x => (f x).bind (fun c => some (drawn ++ c))) acc =
      (xs.mapM f).map (fun cs => acc ++ cs.flatten) := by
  induction xs generalizing acc with
  | nil =>
    rw [List.foldlM_nil, List.mapM_nil]
    simp
  | cons x xs ih =>
    rw [List.foldlM_cons, List.mapM_cons]
    cases hx : f x with
    | none => simp
    | some c =>
      simp only [Option.some_bind, Option.bind_eq_bind, ih]
      cases List.mapM f xs with
      | none => simp
      | some cs => simp [List.append_assoc]

theorem msq_grid_march_eq_march_over (build : msq_build) (g : msq_squares_grid)
    (sw sh : Int) (color : Color) (lw : ℚ) (hwf : msq_grid_wf g) :
    msq_grid_march build g sw sh color lw =
      march_over (g.rows_count - 1) (g.cols_count - 1)
        (fun i j => msq_grid_march_cell build g (march_spacing sw g.cols_count)
          (march_halfspacing (march_spacing sw g.cols_count)) (march_spacing sh g.rows_count)
          (march_halfspacing (march_spacing sh g.rows_count)) color lw i j) := by
  have hr := hwf.1
  have hc := hwf.2.2.1
  unfold msq_grid_march march_over march_spacing march_halfspacing
  rw [if_neg (by omega), if_neg (by omega), u32_sub_one g.rows_count (by omega) hwf.2.1,
    u32_sub_one g.cols_count (by omega) hwf.2.2.2.1]
  simp only [Option.bind_eq_bind, Option.pure_def, foldlM_append_calls]
  have key : ∀ (o : Option (List (List DrawLineEx_call))) (drawn : List DrawLineEx_call),
      o.map (fun cs => drawn ++ cs.flatten) =
        (o.map List.flatten).bind (fun c => some (drawn ++ c)) := by
    intro o drawn
    cases o <;> rfl
  simp only [key, foldlM_append_calls]
  simp

/-! ## Every cell of a classified grid is marched without failure -/

theorem lut_contours_nonzero (code : Nat) (hlt : code < 16) (h0 : code ≠ 0) (h15 : code ≠ 15) :
    ∃ mask, lut_contours[code]? = some mask ∧ mask ≠ 0 := by
  interval_cases code <;> first
    | exact (h0 rfl).elim
    | exact (h15 rfl).elim
    | exact ⟨_, rfl, by decide⟩

theorem edge_vertices_length_le (mask : Nat) (v0 v1 v2 v3 : Vector2) :
    (edge_vertices mask v0 v1 v2 v3).length ≤ 4 := by
  unfold edge_vertices
  split_ifs <;> simp

theorem msq_grid_march_cell_parts (build : msq_build) (g : msq_squares_grid)
    (ws whs hs hhs : Int) (color : Color) (lw : ℚ) (i j code : Nat)
    (hwf : msq_grid_wf g) (hi : i < g.rows_count - 1) (hj : j < g.cols_count - 1)
    (hcode : load2 g.binary_index i j = some code) (hlt : code < 16)
    (h0 : code ≠ 0) (h15 : code ≠ 15) :
    ∃ mask vertices calls, lut_contours_at (toI32 code) = some mask ∧
      msq_grid_march_vertices build g ws whs hs hhs (cell_x ws whs j) (cell_y hs hhs i) mask i j =
        some vertices ∧
      vertices.length ≤ 4 ∧
      msq_grid_march_draw g color lw vertices i j = some calls ∧
      msq_grid_march_cell build g ws whs hs hhs color lw i j = some calls := by
  obtain ⟨tl, tr, bl, br, v0, v1, v2, v3, _, _, _, _, havg, hv0, _, hv1, _, hv2, _, hv3, _⟩ :=
    wf_edge_vertices build g ws whs hs hhs i j hwf hi hj
  obtain ⟨mask, hm, hm0⟩ := lut_contours_nonzero code hlt h0 h15
  have hverts := msq_grid_march_vertices_eq build g ws whs hs hhs (cell_x ws whs j)
    (cell_y hs hhs i) mask i j v0 v1 v2 v3 hv0 hv1 hv2 hv3 (List.getElem?_mem hm)
  have hcell := msq_grid_march_cell_eq build g ws whs hs hhs color lw i j code mask v0 v1 v2 v3
    hcode h0 h15 hlt hm hv0 hv1 hv2 hv3
  have hat : lut_contours_at (toI32 code) = some mask := by
    rw [lut_contours_at_eq code hlt]
    exact hm
  by_cases h170 : mask = 170
  · subst h170
    have hdraw := msq_grid_march_draw_four g color lw v0 v1 v2 v3 i j _ havg
    rw [← edge_vertices_four v0 v1 v2 v3] at hdraw
    exact ⟨170, _, _, hat, hverts, edge_vertices_length_le _ _ _ _ _, hdraw, hcell.trans hdraw⟩
  · obtain ⟨a, b, hab⟩ := edge_vertices_two mask v0 v1 v2 v3 (List.getElem?_mem hm) hm0 h170
    have hdraw := msq_grid_march_draw_two g color lw a b i j
    rw [← hab] at hdraw
    exact ⟨mask, _, _, hat, hverts, edge_vertices_length_le _ _ _ _ _, hdraw, hcell.trans hdraw⟩

theorem msq_grid_march_some (build : msq_build) (g : msq_squares_grid)
    (sw sh : Int) (color : Color) (lw : ℚ) (hwf : msq_grid_wf g)
    (hall : ∀ i j, i < g.rows_count - 1 → j < g.cols_count - 1 →
      ∃ calls, msq_grid_march_cell build g (march_spacing sw g.cols_count)
        (march_halfspacing (march_spacing sw g.cols_count)) (march_spacing sh g.rows_count)
        (march_halfspacing (march_spacing sh g.rows_count)) color lw i j = some calls) :
    ∃ drawn, msq_grid_march build g sw sh color lw = some drawn := by
  have hr := hwf.1
  have hc := hwf.2.2.1
  unfold msq_grid_march
  rw [if_neg (by omega), if_neg (by omega), u32_sub_one g.rows_count (by omega) hwf.2.1,
    u32_sub_one g.cols_count (by omega) hwf.2.2.2.1]
  obtain ⟨s, hs, _⟩ := foldlM_range_invariant
    (fun drawn i => (List.range (g.cols_count - 1)).foldlM
      (fun drawn j => do
        let calls ← msq_grid_march_cell build g (toI32 (toU32 sw / g.cols_count))
          (Int.tdiv (toI32 (toU32 sw / g.cols_count)) 2) (toI32 (toU32 sh / g.rows_count))
          (Int.tdiv (toI32 (toU32 sh / g.rows_count)) 2) color lw i j
        pure (drawn ++ calls))
      drawn)
    (fun _ _ => True) (g.rows_count - 1) [] trivial
    (by
      intro i s hi _
      obtain ⟨s', hs', _⟩ := foldlM_range_invariant
        (fun drawn j => do
          let calls ← msq_grid_march_cell build g (toI32 (toU32 sw / g.cols_count))
            (Int.tdiv (toI32 (toU32 sw / g.cols_count)) 2) (toI32 (toU32 sh / g.rows_count))
            (Int.tdiv (toI32 (toU32 sh / g.rows_count)) 2) color lw i j
          pure (drawn ++ calls))
        (fun _ _ => True) (g.cols_count - 1) s trivial
        (by
          intro j s _ hj
          rename_i hj'
          obtain ⟨calls, hcalls⟩ := hall i j hi hj'
          unfold march_spacing march_halfspacing at hcalls
          exact ⟨s ++ calls, by simp [hcalls], trivial⟩)
      exact ⟨s', hs', trivial⟩)
  exact ⟨s, hs⟩

theorem checkerboard_vertices :
    vertex_128 ⟨false, false⟩ grid_checkerboard 600 450 225 (cell_x 600 300 0) (cell_y 450 225 0)
      0 0 = some ⟨900, 450⟩ ∧
    vertex_32 ⟨false, false⟩ grid_checkerboard 600 300 (cell_x 600 300 0) (cell_y 450 225 0)
      0 0 = some ⟨600, 225⟩ ∧
    vertex_8 ⟨false, false⟩ grid_checkerboard 450 225 (cell_x 600 300 0) (cell_y 450 225 0)
      0 0 = some ⟨300, 450⟩ ∧
    vertex_2 ⟨false, false⟩ grid_checkerboard 600 300 450 (cell_x 600 300 0) (cell_y 450 225 0)
      0 0 = some ⟨600, 675⟩ := by
  have hx : cell_x 600 300 0 = 300 := by decide
  have hy : cell_y 450 225 0 = 225 := by decide
  have hth : grid_checkerboard.threshold = 5 := rfl
  rw [vertex_128_eq _ _ _ _ _ _ _ 0 0 0 10 (by decide) (by decide),
    vertex_32_eq _ _ _ _ _ _ 0 0 10 0 (by decide) (by decide),
    vertex_8_eq _ _ _ _ _ _ 0 0 10 0 (by decide) (by decide),
    vertex_2_eq _ _ _ _ _ _ _ 0 0 0 10 (by decide) (by decide), hx, hy, hth]
  refine ⟨?_, ?_, ?_, ?_⟩ <;> simp [msq_lerp] <;> norm_num

/-! ## The cell of `grid_lerp_probe` -/

theorem lerp_probe_cell :
    msq_grid_march_cell ⟨false, true⟩ grid_lerp_probe 600 300 450 225 ⟨0, 0, 0, 255⟩ 2 0 0 =
      some [⟨⟨900, 315⟩, ⟨600, 675⟩, 2, ⟨0, 0, 0, 255⟩⟩] := by
  have hx : cell_x 600 300 0 = 300 := by decide
  have hy : cell_y 450 225 0 = 225 := by decide
  have hth : grid_lerp_probe.threshold = 2 := rfl
  have h := msq_grid_march_cell_single ⟨false, true⟩ grid_lerp_probe 600 300 450 225
    ⟨0, 0, 0, 255⟩ 2 0 0 2 130 _ _ _ _ _ _ (by decide) (by decide) (by decide) (by decide)
    (by decide)
    (vertex_128_eq _ _ 600 450 225 _ _ 0 0 0 10 (by decide) (by decide))
    (vertex_32_eq _ _ 600 300 _ _ 0 0 0 0 (by decide) (by decide))
    (vertex_8_eq _ _ 450 225 _ _ 0 0 0 0 (by decide) (by decide))
    (vertex_2_eq _ _ 600 300 450 _ _ 0 0 0 10 (by decide) (by decide)) rfl
  rw [h, hx, hy, hth]
  simp [msq_lerp]
  norm_num

theorem lerp_probe_calls :
    msq_grid_march_cell_lerp_calls ⟨false, true⟩ grid_lerp_probe 600 300 450 225 0 0 =
      some [⟨2, 225, 675, 0, 10⟩] := by
  have hy : cell_y 450 225 0 = 225 := by decide
  have hth : grid_lerp_probe.threshold = 2 := rfl
  rw [msq_grid_march_cell_lerp_calls_eq ⟨false, true⟩ grid_lerp_probe 600 300 450 225 0 0 2 130
    0 0 0 10 (by decide) (by decide) (by decide) (by decide) (by decide) (by decide) (by decide)
    (by decide) (by decide), hy, hth]
  have a128 : (130 : Nat) &&& 128 ≠ 0 := by decide
  simp [a128]

/-! ## The other checkerboard -/

theorem checkerboard_5_cell :
    msq_grid_march_cell ⟨false, false⟩ grid_checkerboard_5 600 300 450 225 ⟨0, 0, 0, 255⟩ 2 0 0 =
      some [⟨⟨900, 450⟩, ⟨600, 225⟩, 2, ⟨0, 0, 0, 255⟩⟩,
        ⟨⟨300, 450⟩, ⟨600, 675⟩, 2, ⟨0, 0, 0, 255⟩⟩] := by
  have hx : cell_x 600 300 0 = 300 := by decide
  have hy : cell_y 450 225 0 = 225 := by decide
  have hth : grid_checkerboard_5.threshold = 5 := rfl
  have h := msq_grid_march_cell_eq ⟨false, false⟩ grid_checkerboard_5 600 300 450 225
    ⟨0, 0, 0, 255⟩ 2 0 0 5 170 _ _ _ _ (by decide) (by decide) (by decide) (by decide)
    (by decide)
    (vertex_128_eq _ _ 600 450 225 _ _ 0 0 10 0 (by decide) (by decide))
    (vertex_32_eq _ _ 600 300 _ _ 0 0 0 10 (by decide) (by decide))
    (vertex_8_eq _ _ 450 225 _ _ 0 0 0 10 (by decide) (by decide))
    (vertex_2_eq _ _ 600 300 450 _ _ 0 0 10 0 (by decide) (by decide))
  rw [h, edge_vertices_four, msq_grid_march_draw_four _ _ _ _ _ _ _ 0 0 _
    (cell_average_eq grid_checkerboard_5 0 0 0 10 10 0 (by decide) (by decide) (by decide)
      (by decide)), f32_average_0_10_10_0, hx, hy, hth]
  simp [msq_lerp]
  norm_num

/-! ## The cell whose average is rounded down -/

theorem msq_grid_get_indices_fixed (g : msq_squares_grid) (hwf : msq_grid_wf g)
    (h : ∀ i j, i < g.rows_count - 1 → j < g.cols_count - 1 →
      load2 g.binary_index i j = msq_get_index g (i + 1) j) :
    msq_grid_get_indices g = some g := by
  obtain ⟨g', hg', hcl⟩ := msq_grid_get_indices_classified g hwf
  rw [hg']
  congr 1
  apply grid_eq_of_fields g g' hcl.1 hcl.2.1 hcl.2.2.1 _ hcl.2.2.2.1 hcl.2.2.2.2.1
  apply shape_load2_ext _ _ hcl.2.2.2.2.2.1
  intro i j
  by_cases hw : i < g.rows_count - 1 ∧ j < g.cols_count - 1
  · rw [hcl.2.2.2.2.2.2.1 i j hw, h i j hw.1 hw.2]
  · exact hcl.2.2.2.2.2.2.2 i j hw

theorem rounding_classified : msq_grid_get_indices grid_rounding = some grid_rounding := by
  apply msq_grid_get_indices_fixed grid_rounding (by decide)
  intro i j hi hj
  have hi0 : i = 0 := by
    have : grid_rounding.rows_count = 2 := rfl
    omega
  have hj0 : j = 0 := by
    have : grid_rounding.cols_count = 2 := rfl
    omega
  subst hi0 hj0
  rw [msq_get_index_eq grid_rounding (0 + 1) 0 (8388609 / 8388608) 1 (8388609 / 8388608) 1
    (by norm_num) (by norm_num) (by norm_num) rfl rfl rfl rfl]
  have hth : grid_rounding.threshold = 1 := rfl
  have t1 : msq_threshold 1 (8388609 / 8388608) = 1 := by norm_num [msq_threshold]
  have t0 : msq_threshold 1 1 = 0 := by norm_num [msq_threshold]
  rw [hth, t1, t0]
  rfl

theorem rounding_average : cell_average grid_rounding 0 0 = some 1 := by
  rw [cell_average_eq grid_rounding 0 0 (8388609 / 8388608) 1 1 (8388609 / 8388608) rfl rfl rfl
    rfl, f32_average_rounds_down]

theorem rounding_vertices :
    vertex_128 ⟨false, false⟩ grid_rounding 600 450 225 (cell_x 600 300 0) (cell_y 450 225 0)
      0 0 = some ⟨900, 225⟩ ∧
    vertex_32 ⟨false, false⟩ grid_rounding 600 300 (cell_x 600 300 0) (cell_y 450 225 0)
      0 0 = some ⟨900, 225⟩ ∧
    vertex_8 ⟨false, false⟩ grid_rounding 450 225 (cell_x 600 300 0) (cell_y 450 225 0)
      0 0 = some ⟨300, 675⟩ ∧
    vertex_2 ⟨false, false⟩ grid_rounding 600 300 450 (cell_x 600 300 0) (cell_y 450 225 0)
      0 0 = some ⟨300, 675⟩ := by
  have hx : cell_x 600 300 0 = 300 := by decide
  have hy : cell_y 450 225 0 = 225 := by decide
  have hth : grid_rounding.threshold = 1 := rfl
  rw [vertex_128_eq ⟨false, false⟩ grid_rounding _ _ _ _ _ 0 0 1 (8388609 / 8388608) rfl rfl,
    vertex_32_eq ⟨false, false⟩ grid_rounding _ _ _ _ 0 0 (8388609 / 8388608) 1 rfl rfl,
    vertex_8_eq ⟨false, false⟩ grid_rounding _ _ _ _ 0 0 (8388609 / 8388608) 1 rfl rfl,
    vertex_2_eq ⟨false, false⟩ grid_rounding _ _ _ _ _ 0 0 1 (8388609 / 8388608) rfl rfl,
    hx, hy, hth]
  refine ⟨?_, ?_, ?_, ?_⟩ <;> simp [msq_lerp] <;> norm_num

theorem rounding_cell :
    msq_grid_march_cell ⟨false, false⟩ grid_rounding 600 300 450 225 ⟨0, 0, 0, 255⟩ 2 0 0 =
      some [⟨⟨900, 225⟩, ⟨900, 225⟩, 2, ⟨0, 0, 0, 255⟩⟩,
        ⟨⟨300, 675⟩, ⟨300, 675⟩, 2, ⟨0, 0, 0, 255⟩⟩] := by
  have hth : grid_rounding.threshold = 1 := rfl
  rw [msq_grid_march_cell_eq ⟨false, false⟩ grid_rounding 600 300 450 225 ⟨0, 0, 0, 255⟩ 2 0 0
    10 170 _ _ _ _ rfl (by decide) (by decide) (by decide) (by decide) rounding_vertices.1
    rounding_vertices.2.1 rounding_vertices.2.2.1 rounding_vertices.2.2.2, edge_vertices_four,
    msq_grid_march_draw_four _ _ _ _ _ _ _ 0 0 _ rounding_average, hth]
  norm_num

/-! ## The claims -/

/-- C1, as the specification states it, fails: on the grid
`grid_low_right_high` (samples `[[0, 0], [0, 10]]`, threshold `5`) the code
that `msq_grid_get_indices` stores for the cell `(0, 0)` is `2`, so its bit 0
is clear although `field[1][1] = 10` is above the threshold. -/
theorem C1_bit0_is_not_bottom_right :
    msq_grid_wf grid_low_right_high ∧
    ¬ (∀ g' code br, msq_grid_get_indices grid_low_right_high = some g' →
        load2 g'.binary_index 0 0 = some code →
        load2 grid_low_right_high.field (0 + 1) (0 + 1) = some br →
        code.testBit 0 = decide (br > grid_low_right_high.threshold)) := by
  refine ⟨by decide, ?_⟩
  intro h
  have h2 := h { grid_low_right_high with binary_index := [[2]] } 2 10 (by decide) (by decide)
    (by decide)
  revert h2
  decide

/-- C1, amended: for a well-formed grid and a cell `(i, j)` with
`i < rows_count - 1` and `j < cols_count - 1`, `msq_grid_get_indices` returns,
and the code it stores in `binary_index[i][j]` has bit 0 set exactly when
`field[i + 1][j]` is above the threshold, bit 1 exactly when
`field[i + 1][j + 1]` is, bit 2 exactly when `field[i][j + 1]` is, and bit 3
exactly when `field[i][j]` is. -/
theorem C1_index_bits (g : msq_squares_grid) (i j : Nat) (hwf : msq_grid_wf g)
    (hi : i < g.rows_count - 1) (hj : j < g.cols_count - 1) :
    ∃ g' code tl tr bl br, msq_grid_get_indices g = some g' ∧
      load2 g'.binary_index i j = some code ∧
      load2 g.field i j = some tl ∧ load2 g.field i (j + 1) = some tr ∧
      load2 g.field (i + 1) j = some bl ∧ load2 g.field (i + 1) (j + 1) = some br ∧
      code.testBit 0 = decide (bl > g.threshold) ∧
      code.testBit 1 = decide (br > g.threshold) ∧
      code.testBit 2 = decide (tr > g.threshold) ∧
      code.testBit 3 = decide (tl > g.threshold) := by
  obtain ⟨g', hg', hcl⟩ := msq_grid_get_indices_classified g hwf
  obtain ⟨tl, tr, br, bl, htl, htr, hbr, hbl, hcode⟩ := wf_get_index g hwf i j hi hj
  have hload := hcl.2.2.2.2.2.2.1 i j ⟨hi, hj⟩
  rw [hcode] at hload
  obtain ⟨b0, b1, b2, b3⟩ := pack4_bits g.threshold tl tr br bl
  exact ⟨g', _, tl, tr, bl, br, hg', hload, htl, htr, hbl, hbr, b0, b1, b2, b3⟩

/-- Witness of `C1_index_bits` on `grid_low_right_high`, cell `(0, 0)`. -/
theorem C1_index_bits_witness :
    msq_grid_wf grid_low_right_high ∧
    ∃ g' code tl tr bl br, msq_grid_get_indices grid_low_right_high = some g' ∧
      load2 g'.binary_index 0 0 = some code ∧
      load2 grid_low_right_high.field 0 0 = some tl ∧
      load2 grid_low_right_high.field 0 (0 + 1) = some tr ∧
      load2 grid_low_right_high.field (0 + 1) 0 = some bl ∧
      load2 grid_low_right_high.field (0 + 1) (0 + 1) = some br ∧
      code.testBit 0 = decide (bl > grid_low_right_high.threshold) ∧
      code.testBit 1 = decide (br > grid_low_right_high.threshold) ∧
      code.testBit 2 = decide (tr > grid_low_right_high.threshold) ∧
      code.testBit 3 = decide (tl > grid_low_right_high.threshold) :=
  ⟨by decide, C1_index_bits grid_low_right_high 0 0 (by decide) (by decide) (by decide)⟩

/-- C2: for every code `c` in `0..15`, read with the packing of
`msq_get_index` (bit 3 top-left, bit 2 top-right, bit 1 bottom-right, bit 0
bottom-left), the mask `lut_contours[c]` has the bit 128 (right edge) set
exactly when the top-right and bottom-right bits of `c` differ, the bit 32
(top edge) exactly when the top-left and top-right bits differ, the bit 8
(left edge) exactly when the top-left and bottom-left bits differ, the bit 2
(bottom edge) exactly when the bottom-left and bottom-right bits differ, and
none of the corner bits 64, 16, 4, 1 is set. -/
theorem C2_lut_flags_crossed_edges (c : Nat) (hc : c < 16) :
    ∃ mask, lut_contours[c]? = some mask ∧
      (mask &&& 128 ≠ 0 ↔ c.testBit 2 ≠ c.testBit 1) ∧
      (mask &&& 32 ≠ 0 ↔ c.testBit 3 ≠ c.testBit 2) ∧
      (mask &&& 8 ≠ 0 ↔ c.testBit 3 ≠ c.testBit 0) ∧
      (mask &&& 2 ≠ 0 ↔ c.testBit 0 ≠ c.testBit 1) ∧
      mask &&& 64 = 0 ∧ mask &&& 16 = 0 ∧ mask &&& 4 = 0 ∧ mask &&& 1 = 0 := by
  interval_cases c <;> exact ⟨_, rfl, by decide⟩

/-- Witness of `C2_lut_flags_crossed_edges` at the code `6` (both right
corners above the threshold). -/
theorem C2_lut_flags_crossed_edges_witness :
    (6 : Nat) < 16 ∧
    ∃ mask, lut_contours[6]? = some mask ∧
      (mask &&& 128 ≠ 0 ↔ Nat.testBit 6 2 ≠ Nat.testBit 6 1) ∧
      (mask &&& 32 ≠ 0 ↔ Nat.testBit 6 3 ≠ Nat.testBit 6 2) ∧
      (mask &&& 8 ≠ 0 ↔ Nat.testBit 6 3 ≠ Nat.testBit 6 0) ∧
      (mask &&& 2 ≠ 0 ↔ Nat.testBit 6 0 ≠ Nat.testBit 6 1) ∧
      mask &&& 64 = 0 ∧ mask &&& 16 = 0 ∧ mask &&& 4 = 0 ∧ mask &&& 1 = 0 :=
  ⟨by decide, C2_lut_flags_crossed_edges 6 (by decide)⟩

/-- C3: for a well-formed grid and a cell `(i, j)` with `i < rows_count - 1`
and `j < cols_count - 1` whose stored code is `code`, the loop body of
`msq_grid_march` returns, and the number of `DrawLineEx` calls it makes is
fixed by `code`: none when `code` is 0 or 15, exactly two when `code` is 5 or
10, exactly one for every other code in `1..14`. -/
theorem C3_segments_per_code (build : msq_build) (g : msq_squares_grid)
    (ws whs hs hhs : Int) (color : Color) (lw : ℚ) (i j code : Nat)
    (hwf : msq_grid_wf g) (hi : i < g.rows_count - 1) (hj : j < g.cols_count - 1)
    (hcode : load2 g.binary_index i j = some code) :
    ((code = 0 ∨ code = 15) →
      msq_grid_march_cell build g ws whs hs hhs color lw i j = some []) ∧
    ((code = 5 ∨ code = 10) →
      ∃ s1 s2, msq_grid_march_cell build g ws whs hs hhs color lw i j = some [s1, s2]) ∧
    ((1 ≤ code ∧ code ≤ 14 ∧ code ≠ 5 ∧ code ≠ 10) →
      ∃ s1, msq_grid_march_cell build g ws whs hs hhs color lw i j = some [s1]) := by
  obtain ⟨tl, tr, bl, br, v0, v1, v2, v3, _, _, _, _, havg, hv0, _, hv1, _, hv2, _, hv3, _⟩ :=
    wf_edge_vertices build g ws whs hs hhs i j hwf hi hj
  refine ⟨msq_grid_march_cell_skip build g ws whs hs hhs color lw i j code hcode, ?_, ?_⟩
  · intro h
    have hm := lut_contours_saddle code h
    rw [msq_grid_march_cell_eq build g ws whs hs hhs color lw i j code 170 v0 v1 v2 v3 hcode
      (by omega) (by omega) (by omega) hm hv0 hv1 hv2 hv3, edge_vertices_four,
      msq_grid_march_draw_four g color lw v0 v1 v2 v3 i j _ havg]
    by_cases hgt : f32_average tl tr bl br > g.threshold
    · exact ⟨_, _, by rw [if_pos hgt]⟩
    · exact ⟨_, _, by rw [if_neg hgt]⟩
  · rintro ⟨h1, h14, h5, h10⟩
    obtain ⟨mask, hm, hm0, hm170⟩ := lut_contours_single code h1 h14 h5 h10
    obtain ⟨a, b, hab⟩ := edge_vertices_two mask v0 v1 v2 v3 (List.getElem?_mem hm) hm0 hm170
    rw [msq_grid_march_cell_eq build g ws whs hs hhs color lw i j code mask v0 v1 v2 v3 hcode
      (by omega) (by omega) (by omega) hm hv0 hv1 hv2 hv3, hab, msq_grid_march_draw_two]
    exact ⟨_, rfl⟩

/-- Witness of `C3_segments_per_code` on `grid_three_cells`, which
`msq_grid_get_indices` leaves as it is: the cell `(0, 0)` has the code `10` and
gets two calls, the cell `(0, 1)` has the code `1` and gets one call, the cell
`(0, 2)` has the code `0` and gets none. -/
theorem C3_segments_per_code_witness :
    msq_grid_wf grid_three_cells ∧
    msq_grid_get_indices grid_three_cells = some grid_three_cells ∧
    load2 grid_three_cells.binary_index 0 0 = some 10 ∧
    load2 grid_three_cells.binary_index 0 1 = some 1 ∧
    load2 grid_three_cells.binary_index 0 2 = some 0 ∧
    (∃ s1 s2, msq_grid_march_cell ⟨false, false⟩ grid_three_cells 300 150 450 225
      ⟨0, 0, 0, 255⟩ 2 0 0 = some [s1, s2]) ∧
    (∃ s1, msq_grid_march_cell ⟨false, false⟩ grid_three_cells 300 150 450 225
      ⟨0, 0, 0, 255⟩ 2 0 1 = some [s1]) ∧
    msq_grid_march_cell ⟨false, false⟩ grid_three_cells 300 150 450 225
      ⟨0, 0, 0, 255⟩ 2 0 2 = some [] :=
  ⟨by decide, by decide, by decide, by decide, by decide,
    (C3_segments_per_code ⟨false, false⟩ grid_three_cells 300 150 450 225 ⟨0, 0, 0, 255⟩ 2 0 0 10
      (by decide) (by decide) (by decide) (by decide)).2.1 (Or.inr rfl),
    (C3_segments_per_code ⟨false, false⟩ grid_three_cells 300 150 450 225 ⟨0, 0, 0, 255⟩ 2 0 1 1
      (by decide) (by decide) (by decide) (by decide)).2.2 (by decide),
    (C3_segments_per_code ⟨false, false⟩ grid_three_cells 300 150 450 225 ⟨0, 0, 0, 255⟩ 2 0 2 0
      (by decide) (by decide) (by decide) (by decide)).1 (Or.inl rfl)⟩

/-- C4, as the specification states it, fails: on the classified grid with
the samples `[[1 + 2 ^ (-23), 1], [1, 1 + 2 ^ (-23)]]` and the threshold `1`
(code 10) the average of the four corners is `1 + 2 ^ (-24)`, strictly above
the threshold, but the `float` additions round the sum to `4`, the average
that `msq_threshold` receives is `1`, and the loop body of `msq_grid_march`
draws `v0`-`v1` and `v2`-`v3`, not `v0`-`v3` and `v1`-`v2`. -/
theorem C4_exact_average_does_not_decide :
    msq_grid_wf grid_rounding ∧
    msq_grid_get_indices grid_rounding = some grid_rounding ∧
    load2 grid_rounding.binary_index 0 0 = some 10 ∧
    load2 grid_rounding.field 0 0 = some (8388609 / 8388608) ∧
    load2 grid_rounding.field 0 1 = some 1 ∧
    load2 grid_rounding.field 1 0 = some 1 ∧
    load2 grid_rounding.field 1 1 = some (8388609 / 8388608) ∧
    ((8388609 / 8388608 : ℚ) + 1 + 1 + 8388609 / 8388608) / 4 > grid_rounding.threshold ∧
    cell_average grid_rounding 0 0 = some 1 ∧ ¬ (1 : ℚ) > grid_rounding.threshold ∧
    vertex_128 ⟨false, false⟩ grid_rounding 600 450 225 (cell_x 600 300 0) (cell_y 450 225 0)
      0 0 = some ⟨900, 225⟩ ∧
    vertex_32 ⟨false, false⟩ grid_rounding 600 300 (cell_x 600 300 0) (cell_y 450 225 0)
      0 0 = some ⟨900, 225⟩ ∧
    vertex_8 ⟨false, false⟩ grid_rounding 450 225 (cell_x 600 300 0) (cell_y 450 225 0)
      0 0 = some ⟨300, 675⟩ ∧
    vertex_2 ⟨false, false⟩ grid_rounding 600 300 450 (cell_x 600 300 0) (cell_y 450 225 0)
      0 0 = some ⟨300, 675⟩ ∧
    msq_grid_march_cell ⟨false, false⟩ grid_rounding 600 300 450 225 ⟨0, 0, 0, 255⟩ 2 0 0 =
      some [⟨⟨900, 225⟩, ⟨900, 225⟩, 2, ⟨0, 0, 0, 255⟩⟩,
        ⟨⟨300, 675⟩, ⟨300, 675⟩, 2, ⟨0, 0, 0, 255⟩⟩] ∧
    msq_grid_march_cell ⟨false, false⟩ grid_rounding 600 300 450 225 ⟨0, 0, 0, 255⟩ 2 0 0 ≠
      some [⟨⟨900, 225⟩, ⟨300, 675⟩, 2, ⟨0, 0, 0, 255⟩⟩,
        ⟨⟨900, 225⟩, ⟨300, 675⟩, 2, ⟨0, 0, 0, 255⟩⟩] := by
  refine ⟨by decide, rounding_classified, rfl, rfl, rfl, rfl, rfl, ?_, rounding_average, ?_,
    rounding_vertices.1, rounding_vertices.2.1, rounding_vertices.2.2.1,
    rounding_vertices.2.2.2, rounding_cell, ?_⟩
  · show ((8388609 / 8388608 : ℚ) + 1 + 1 + 8388609 / 8388608) / 4 > 1
    norm_num
  · show ¬ (1 : ℚ) > 1
    norm_num
  · rw [rounding_cell]
    intro h
    have h1 := congrArg (fun o => o.map (fun l => l.map (fun c => c.endPos.x))) h
    simp at h1

/-- C4, amended: for a well-formed grid and a cell `(i, j)` whose stored code
is 5 or 10, the vertex list built by `msq_grid_march` is `[v0, v1, v2, v3]`
with `v0` the vertex of the bit 128 (on the right side
`x = cell_x + width_spacing`), `v1` the vertex of the bit 32 (on the top side
`y = cell_y`), `v2` the vertex of the bit 8 (on the left side `x = cell_x`) and
`v3` the vertex of the bit 2 (on the bottom side `y = cell_y + height_spacing`);
the calls made are `v0`-`v3` then `v1`-`v2` when the average of the four
corners as the code computes it, in `float` arithmetic, is strictly above the
threshold, and `v0`-`v1` then `v2`-`v3` otherwise, in particular when that
average equals the threshold. -/
theorem C4_saddle_pairing (build : msq_build) (g : msq_squares_grid)
    (ws whs hs hhs : Int) (color : Color) (lw : ℚ) (i j code : Nat)
    (hwf : msq_grid_wf g) (hi : i < g.rows_count - 1) (hj : j < g.cols_count - 1)
    (hcode : load2 g.binary_index i j = some code) (h : code = 5 ∨ code = 10) :
    ∃ tl tr bl br v0 v1 v2 v3 mask,
      load2 g.field i j = some tl ∧ load2 g.field i (j + 1) = some tr ∧
      load2 g.field (i + 1) j = some bl ∧ load2 g.field (i + 1) (j + 1) = some br ∧
      vertex_128 build g ws hs hhs (cell_x ws whs j) (cell_y hs hhs i) i j = some v0 ∧
      v0.x = ((cell_x ws whs j + ws : Int) : ℚ) ∧
      vertex_32 build g ws whs (cell_x ws whs j) (cell_y hs hhs i) i j = some v1 ∧
      v1.y = ((cell_y hs hhs i : Int) : ℚ) ∧
      vertex_8 build g hs hhs (cell_x ws whs j) (cell_y hs hhs i) i j = some v2 ∧
      v2.x = ((cell_x ws whs j : Int) : ℚ) ∧
      vertex_2 build g ws whs hs (cell_x ws whs j) (cell_y hs hhs i) i j = some v3 ∧
      v3.y = ((cell_y hs hhs i + hs : Int) : ℚ) ∧
      lut_contours_at (toI32 code) = some mask ∧
      msq_grid_march_vertices build g ws whs hs hhs (cell_x ws whs j) (cell_y hs hhs i)
        mask i j = some [v0, v1, v2, v3] ∧
      cell_average g i j = some (f32_average tl tr bl br) ∧
      (f32_average tl tr bl br > g.threshold →
        msq_grid_march_cell build g ws whs hs hhs color lw i j =
          some [⟨v0, v3, lw, color⟩, ⟨v1, v2, lw, color⟩]) ∧
      (¬ f32_average tl tr bl br > g.threshold →
        msq_grid_march_cell build g ws whs hs hhs color lw i j =
          some [⟨v0, v1, lw, color⟩, ⟨v2, v3, lw, color⟩]) ∧
      (f32_average tl tr bl br = g.threshold →
        msq_grid_march_cell build g ws whs hs hhs color lw i j =
          some [⟨v0, v1, lw, color⟩, ⟨v2, v3, lw, color⟩]) := by
  obtain ⟨tl, tr, bl, br, v0, v1, v2, v3, htl, htr, hbl, hbr, havg, hv0, hx0, hv1, hy1, hv2, hx2,
    hv3, hy3⟩ := wf_edge_vertices build g ws whs hs hhs i j hwf hi hj
  have hm := lut_contours_saddle code h
  have hcell := msq_grid_march_cell_eq build g ws whs hs hhs color lw i j code 170 v0 v1 v2 v3
    hcode (by omega) (by omega) (by omega) hm hv0 hv1 hv2 hv3
  rw [edge_vertices_four, msq_grid_march_draw_four g color lw v0 v1 v2 v3 i j _ havg] at hcell
  have hverts := msq_grid_march_vertices_eq build g ws whs hs hhs (cell_x ws whs j)
    (cell_y hs hhs i) 170 i j v0 v1 v2 v3 hv0 hv1 hv2 hv3 (List.getElem?_mem hm)
  rw [edge_vertices_four] at hverts
  refine ⟨tl, tr, bl, br, v0, v1, v2, v3, 170, htl, htr, hbl, hbr, hv0, hx0, hv1, hy1, hv2, hx2,
    hv3, hy3, ?_, hverts, havg, ?_, ?_, ?_⟩
  · rw [lut_contours_at_eq code (by omega)]
    exact hm
  · intro hgt
    rw [hcell, if_pos hgt]
  · intro hgt
    rw [hcell, if_neg hgt]
  · intro heq
    rw [hcell, if_neg (by rw [heq]; exact lt_irrefl _)]

/-- Witness of `C4_saddle_pairing`, the boundary case of the specification:
the checkerboard `[[10, 0], [0, 10]]` with threshold `5` is classified `10`,
the average of its corners equals the threshold, and the march (screen
`1200 x 900`) draws right-top then left-bottom. -/
theorem C4_saddle_pairing_witness :
    msq_grid_wf grid_checkerboard ∧
    msq_grid_get_indices grid_checkerboard = some grid_checkerboard ∧
    load2 grid_checkerboard.binary_index 0 0 = some 10 ∧
    cell_average grid_checkerboard 0 0 = some grid_checkerboard.threshold ∧
    msq_grid_march ⟨false, false⟩ grid_checkerboard 1200 900 ⟨0, 0, 0, 255⟩ 2 =
      some [⟨⟨900, 450⟩, ⟨600, 225⟩, 2, ⟨0, 0, 0, 255⟩⟩,
        ⟨⟨300, 450⟩, ⟨600, 675⟩, 2, ⟨0, 0, 0, 255⟩⟩] ∧
    ∃ tl tr bl br v0 v1 v2 v3 mask,
      load2 grid_checkerboard.field 0 0 = some tl ∧
      load2 grid_checkerboard.field 0 (0 + 1) = some tr ∧
      load2 grid_checkerboard.field (0 + 1) 0 = some bl ∧
      load2 grid_checkerboard.field (0 + 1) (0 + 1) = some br ∧
      vertex_128 ⟨false, false⟩ grid_checkerboard 600 450 225 (cell_x 600 300 0)
        (cell_y 450 225 0) 0 0 = some v0 ∧
      v0.x = ((cell_x 600 300 0 + 600 : Int) : ℚ) ∧
      vertex_32 ⟨false, false⟩ grid_checkerboard 600 300 (cell_x 600 300 0)
        (cell_y 450 225 0) 0 0 = some v1 ∧
      v1.y = ((cell_y 450 225 0 : Int) : ℚ) ∧
      vertex_8 ⟨false, false⟩ grid_checkerboard 450 225 (cell_x 600 300 0)
        (cell_y 450 225 0) 0 0 = some v2 ∧
      v2.x = ((cell_x 600 300 0 : Int) : ℚ) ∧
      vertex_2 ⟨false, false⟩ grid_checkerboard 600 300 450 (cell_x 600 300 0)
        (cell_y 450 225 0) 0 0 = some v3 ∧
      v3.y = ((cell_y 450 225 0 + 450 : Int) : ℚ) ∧
      lut_contours_at (toI32 10) = some mask ∧
      msq_grid_march_vertices ⟨false, false⟩ grid_checkerboard 600 300 450 225
        (cell_x 600 300 0) (cell_y 450 225 0) mask 0 0 = some [v0, v1, v2, v3] ∧
      cell_average grid_checkerboard 0 0 = some (f32_average tl tr bl br) ∧
      (f32_average tl tr bl br > grid_checkerboard.threshold →
        msq_grid_march_cell ⟨false, false⟩ grid_checkerboard 600 300 450 225
          ⟨0, 0, 0, 255⟩ 2 0 0 =
          some [⟨v0, v3, 2, ⟨0, 0, 0, 255⟩⟩, ⟨v1, v2, 2, ⟨0, 0, 0, 255⟩⟩]) ∧
      (¬ f32_average tl tr bl br > grid_checkerboard.threshold →
        msq_grid_march_cell ⟨false, false⟩ grid_checkerboard 600 300 450 225
          ⟨0, 0, 0, 255⟩ 2 0 0 =
          some [⟨v0, v1, 2, ⟨0, 0, 0, 255⟩⟩, ⟨v2, v3, 2, ⟨0, 0, 0, 255⟩⟩]) ∧
      (f32_average tl tr bl br = grid_checkerboard.threshold →
        msq_grid_march_cell ⟨false, false⟩ grid_checkerboard 600 300 450 225
          ⟨0, 0, 0, 255⟩ 2 0 0 =
          some [⟨v0, v1, 2, ⟨0, 0, 0, 255⟩⟩, ⟨v2, v3, 2, ⟨0, 0, 0, 255⟩⟩]) :=
  ⟨by decide, by decide, by decide, checkerboard_average, checkerboard_march,
    C4_saddle_pairing ⟨false, false⟩ grid_checkerboard 600 300 450 225 ⟨0, 0, 0, 255⟩ 2 0 0 10
      (by decide) (by decide) (by decide) (by decide) (Or.inr rfl)⟩

/-- C5: in exact arithmetic, for a threshold other than zero and two distinct
values `a` and `b`, `msq_lerp threshold pos_a pos_b a b` is
`pos_a + (pos_b - pos_a) * (threshold - a) / (b - a)`; and when the two
positions differ, the value that varies linearly from `a` at `pos_a` to `b` at
`pos_b` equals the threshold at that position. -/
theorem C5_lerp_is_linear_crossing (threshold pos_a pos_b a b : ℚ)
    (ht : threshold ≠ 0) (hab : a ≠ b) :
    msq_lerp threshold pos_a pos_b a b = pos_a + (pos_b - pos_a) * (threshold - a) / (b - a) ∧
    (pos_a ≠ pos_b →
      a + (b - a) * ((msq_lerp threshold pos_a pos_b a b - pos_a) / (pos_b - pos_a)) =
        threshold) := by
  have hba : b - a ≠ 0 := sub_ne_zero.mpr (Ne.symm hab)
  refine ⟨msq_lerp_eq threshold pos_a pos_b a b ht hab, ?_⟩
  intro hp
  have hpp : pos_b - pos_a ≠ 0 := sub_ne_zero.mpr (Ne.symm hp)
  rw [msq_lerp_eq threshold pos_a pos_b a b ht hab]
  field_simp
  ring

/-- Witness of `C5_lerp_is_linear_crossing`: threshold `5` between the values
`0` at position `225` and `10` at position `675`. -/
theorem C5_lerp_is_linear_crossing_witness :
    (5 : ℚ) ≠ 0 ∧ (0 : ℚ) ≠ 10 ∧
    msq_lerp 5 225 675 0 10 = 225 + (675 - 225) * (5 - 0) / (10 - 0) ∧
    ((225 : ℚ) ≠ 675 →
      0 + (10 - 0) * ((msq_lerp 5 225 675 0 10 - 225) / (675 - 225)) = (5 : ℚ)) :=
  ⟨by norm_num, by norm_num, C5_lerp_is_linear_crossing 5 225 675 0 10 (by norm_num) (by norm_num)⟩

/-- C6: in exact arithmetic, for a threshold other than zero, two distinct
positions and two values that straddle the threshold (one strictly below, the
other strictly above), `msq_lerp` lies strictly between the two positions. -/
theorem C6_lerp_strictly_between (threshold pos_a pos_b a b : ℚ)
    (ht : threshold ≠ 0) (hp : pos_a ≠ pos_b)
    (hs : (a < threshold ∧ threshold < b) ∨ (b < threshold ∧ threshold < a)) :
    min pos_a pos_b < msq_lerp threshold pos_a pos_b a b ∧
    msq_lerp threshold pos_a pos_b a b < max pos_a pos_b := by
  have hab : a ≠ b := by
    rcases hs with ⟨h1, h2⟩ | ⟨h1, h2⟩
    · exact ne_of_lt (lt_trans h1 h2)
    · exact ne_of_gt (lt_trans h1 h2)
  rw [msq_lerp_eq threshold pos_a pos_b a b ht hab]
  have hfrac : 0 < (threshold - a) / (b - a) ∧ (threshold - a) / (b - a) < 1 := by
    rcases hs with ⟨h1, h2⟩ | ⟨h1, h2⟩
    · have hd : 0 < b - a := by linarith
      exact ⟨div_pos (by linarith) hd, (div_lt_one hd).mpr (by linarith)⟩
    · have hd : 0 < a - b := by linarith
      have e : (threshold - a) / (b - a) = (a - threshold) / (a - b) := by
        rw [← neg_sub a threshold, ← neg_sub a b, neg_div_neg_eq]
      rw [e]
      exact ⟨div_pos (by linarith) hd, (div_lt_one hd).mpr (by linarith)⟩
  obtain ⟨f0, f1⟩ := hfrac
  have e : pos_a + (pos_b - pos_a) * (threshold - a) / (b - a) =
      pos_a + (pos_b - pos_a) * ((threshold - a) / (b - a)) := by
    rw [mul_div_assoc]
  rw [e]
  rcases lt_or_gt_of_ne hp with hlt | hgt
  · rw [min_eq_left (le_of_lt hlt), max_eq_right (le_of_lt hlt)]
    have hd : 0 < pos_b - pos_a := by linarith
    constructor
    · nlinarith [mul_pos hd f0]
    · nlinarith [mul_pos hd (sub_pos.mpr f1)]
  · rw [min_eq_right (le_of_lt hgt), max_eq_left (le_of_lt hgt)]
    have hd : 0 < pos_a - pos_b := by linarith
    constructor
    · nlinarith [mul_pos hd (sub_pos.mpr f1)]
    · nlinarith [mul_pos hd f0]

/-- Witness of `C6_lerp_strictly_between`: threshold `5` between the values
`10` at position `300` and `0` at position `900`. -/
theorem C6_lerp_strictly_between_witness :
    (5 : ℚ) ≠ 0 ∧ (300 : ℚ) ≠ 900 ∧
    (((10 : ℚ) < 5 ∧ (5 : ℚ) < 0) ∨ ((0 : ℚ) < 5 ∧ (5 : ℚ) < 10)) ∧
    min (300 : ℚ) 900 < msq_lerp 5 300 900 10 0 ∧ msq_lerp 5 300 900 10 0 < max (300 : ℚ) 900 :=
  ⟨by norm_num, by norm_num, by norm_num,
    C6_lerp_strictly_between 5 300 900 10 0 (by norm_num) (by norm_num) (by norm_num)⟩

/-- C7: for every code `c` in `0..15`, `lut_contours[c]` and
`lut_contours[15 - c]` are the same mask. -/
theorem C7_lut_complement_symmetric (c : Nat) (hc : c < 16) :
    ∃ mask, lut_contours[c]? = some mask ∧ lut_contours[15 - c]? = some mask := by
  interval_cases c <;> exact ⟨_, rfl, rfl⟩

/-- Witness of `C7_lut_complement_symmetric` at the code `3`. -/
theorem C7_lut_complement_symmetric_witness :
    (3 : Nat) < 16 ∧ ∃ mask, lut_contours[3]? = some mask ∧ lut_contours[15 - 3]? = some mask :=
  ⟨by decide, C7_lut_complement_symmetric 3 (by decide)⟩

/-- C8: for every code `c` in `0..15` the mask `lut_contours[c]` is empty when
`c` is 0 or 15, has exactly 2 or exactly 4 set bits when `c` is in `1..14`, and
has 4 set bits exactly when `c` is 5 or 10. -/
theorem C8_lut_popcount (c : Nat) (hc : c < 16) :
    ∃ mask, lut_contours[c]? = some mask ∧
      ((c = 0 ∨ c = 15) → mask = 0) ∧
      ((1 ≤ c ∧ c ≤ 14) → (popcount8 mask = 2 ∨ popcount8 mask = 4)) ∧
      (popcount8 mask = 4 ↔ (c = 5 ∨ c = 10)) := by
  interval_cases c <;> exact ⟨_, rfl, by decide⟩

/-- Witness of `C8_lut_popcount` at the code `5`. -/
theorem C8_lut_popcount_witness :
    (5 : Nat) < 16 ∧
    ∃ mask, lut_contours[5]? = some mask ∧
      (((5 : Nat) = 0 ∨ (5 : Nat) = 15) → mask = 0) ∧
      ((1 ≤ (5 : Nat) ∧ (5 : Nat) ≤ 14) → (popcount8 mask = 2 ∨ popcount8 mask = 4)) ∧
      (popcount8 mask = 4 ↔ ((5 : Nat) = 5 ∨ (5 : Nat) = 10)) :=
  ⟨by decide, C8_lut_popcount 5 (by decide)⟩

/-- C9: `msq_grid_get_indices` is idempotent and pure.  On a well-formed grid
it returns; running it again on its result returns that same result; two
well-formed grids with the same samples and the same threshold (whatever codes
they held before) end with the same `binary_index`; and `field`, `threshold`,
`rows_count`, `cols_count` and `max_threshold` are left unchanged. -/
theorem C9_classification_idempotent_pure (g1 g2 : msq_squares_grid)
    (h1 : msq_grid_wf g1) (h2 : msq_grid_wf g2)
    (hf : g2.field = g1.field) (ht : g2.threshold = g1.threshold) :
    ∃ g1' g2', msq_grid_get_indices g1 = some g1' ∧ msq_grid_get_indices g2 = some g2' ∧
      msq_grid_get_indices g1' = some g1' ∧
      g2'.binary_index = g1'.binary_index ∧
      g1'.field = g1.field ∧ g1'.threshold = g1.threshold ∧
      g1'.rows_count = g1.rows_count ∧ g1'.cols_count = g1.cols_count ∧
      g1'.max_threshold = g1.max_threshold := by
  obtain ⟨g1', hg1, c1⟩ := msq_grid_get_indices_classified g1 h1
  obtain ⟨g2', hg2, c2⟩ := msq_grid_get_indices_classified g2 h2
  exact ⟨g1', g2', hg1, hg2, msq_grid_get_indices_idempotent g1 g1' h1 hg1,
    classified_same_field g1 g2 g1' g2' h1 h2 hf ht c1 c2, c1.2.2.1, c1.2.2.2.1, c1.1, c1.2.1,
    c1.2.2.2.2.1⟩

/-- Witness of `C9_classification_idempotent_pure`: the checkerboard samples
with threshold `5`, once with the stored code `10` and once with the stored
code `3`. -/
theorem C9_classification_idempotent_pure_witness :
    msq_grid_wf grid_checkerboard ∧
    msq_grid_wf { grid_checkerboard with binary_index := [[3]] } ∧
    ∃ g1' g2', msq_grid_get_indices grid_checkerboard = some g1' ∧
      msq_grid_get_indices { grid_checkerboard with binary_index := [[3]] } = some g2' ∧
      msq_grid_get_indices g1' = some g1' ∧
      g2'.binary_index = g1'.binary_index ∧
      g1'.field = grid_checkerboard.field ∧ g1'.threshold = grid_checkerboard.threshold ∧
      g1'.rows_count = grid_checkerboard.rows_count ∧
      g1'.cols_count = grid_checkerboard.cols_count ∧
      g1'.max_threshold = grid_checkerboard.max_threshold :=
  ⟨by decide, by decide,
    C9_classification_idempotent_pure grid_checkerboard
      { grid_checkerboard with binary_index := [[3]] } (by decide) (by decide) rfl rfl⟩

/-- C10: for a well-formed grid whose samples are all at most the threshold,
`msq_grid_get_indices` returns and stores the code 0 in every cell, and the
following `msq_grid_march` returns having made no `DrawLineEx` call; for a
well-formed grid whose samples are all above the threshold, the same holds
with the code 15. -/
theorem C10_uniform_field_draws_nothing (build : msq_build) (g : msq_squares_grid)
    (sw sh : Int) (color : Color) (lw : ℚ) (hwf : msq_grid_wf g) :
    ((∀ row ∈ g.field, ∀ v ∈ row, v ≤ g.threshold) →
      ∃ g', msq_grid_get_indices g = some g' ∧
        (∀ i j, i < g.rows_count - 1 → j < g.cols_count - 1 →
          load2 g'.binary_index i j = some 0) ∧
        msq_grid_march build g' sw sh color lw = some []) ∧
    ((∀ row ∈ g.field, ∀ v ∈ row, v > g.threshold) →
      ∃ g', msq_grid_get_indices g = some g' ∧
        (∀ i j, i < g.rows_count - 1 → j < g.cols_count - 1 →
          load2 g'.binary_index i j = some 15) ∧
        msq_grid_march build g' sw sh color lw = some []) := by
  obtain ⟨g', hg', hcl⟩ := msq_grid_get_indices_classified g hwf
  have hwf' := classified_wf g g' _ hwf hcl
  constructor
  · intro hall
    have hcodes := classified_uniform g g' hwf 0
      (by
        rintro v ⟨row, hrow, hv⟩
        unfold msq_threshold
        rw [if_neg (not_lt.mpr (hall row hrow v hv))])
      (by decide) hcl
    refine ⟨g', hg', hcodes, ?_⟩
    apply msq_grid_march_all_skip build g' sw sh color lw hwf'
    intro i j hi hj
    rw [hcl.1] at hi
    rw [hcl.2.1] at hj
    exact ⟨0, hcodes i j hi hj, Or.inl rfl⟩
  · intro hall
    have hcodes := classified_uniform g g' hwf 1
      (by
        rintro v ⟨row, hrow, hv⟩
        unfold msq_threshold
        rw [if_pos (hall row hrow v hv)])
      (by decide) hcl
    refine ⟨g', hg', hcodes, ?_⟩
    apply msq_grid_march_all_skip build g' sw sh color lw hwf'
    intro i j hi hj
    rw [hcl.1] at hi
    rw [hcl.2.1] at hj
    exact ⟨15, hcodes i j hi hj, Or.inr rfl⟩

/-- Witness of `C10_uniform_field_draws_nothing`: samples all `3` with the
threshold `5` (first case), and samples all `8` with the threshold `5` (second
case). -/
theorem C10_uniform_field_draws_nothing_witness :
    (msq_grid_wf grid_uniform_low ∧
      (∀ row ∈ grid_uniform_low.field, ∀ v ∈ row, v ≤ grid_uniform_low.threshold) ∧
      ∃ g', msq_grid_get_indices grid_uniform_low = some g' ∧
        (∀ i j, i < grid_uniform_low.rows_count - 1 → j < grid_uniform_low.cols_count - 1 →
          load2 g'.binary_index i j = some 0) ∧
        msq_grid_march ⟨false, false⟩ g' 1200 900 ⟨0, 0, 0, 255⟩ 2 = some []) ∧
    (msq_grid_wf grid_uniform_high ∧
      (∀ row ∈ grid_uniform_high.field, ∀ v ∈ row, v > grid_uniform_high.threshold) ∧
      ∃ g', msq_grid_get_indices grid_uniform_high = some g' ∧
        (∀ i j, i < grid_uniform_high.rows_count - 1 → j < grid_uniform_high.cols_count - 1 →
          load2 g'.binary_index i j = some 15) ∧
        msq_grid_march ⟨false, false⟩ g' 1200 900 ⟨0, 0, 0, 255⟩ 2 = some []) :=
  ⟨⟨by decide, by decide,
    (C10_uniform_field_draws_nothing ⟨false, false⟩ grid_uniform_low 1200 900 ⟨0, 0, 0, 255⟩ 2
      (by decide)).1 (by decide)⟩,
   ⟨by decide, by decide,
    (C10_uniform_field_draws_nothing ⟨false, false⟩ grid_uniform_high 1200 900 ⟨0, 0, 0, 255⟩ 2
      (by decide)).2 (by decide)⟩⟩

/-- C11: on the grid of three rows and three columns with the samples
`[[0, 0, 0], [0, 10, 0], [0, 0, 0]]` and the threshold `5`,
`msq_grid_get_indices` stores the codes `[[2, 1], [4, 8]]`, each with exactly
one bit set, the bit of the corner that is the centre sample; the masks of
these codes are right + bottom, left + bottom, right + top and top + left, the
two edges that meet at the centre sample; for every cell the loop body of
`msq_grid_march` (built without `NO_LERP` and `MSQ_NO_LERP`) makes exactly one
`DrawLineEx` call, whose two endpoints are the midpoints of these two edges,
edge start plus half of the spacing as a rational; and the whole march makes
these four calls, whatever the screen size. -/
theorem C11_centre_peak_midpoints (sw sh ws whs hs hhs : Int) (color : Color) (lw : ℚ) :
    msq_grid_get_indices grid_centre_peak = some grid_centre_peak_classified ∧
    grid_centre_peak_classified.binary_index = [[2, 1], [4, 8]] ∧
    popcount8 2 = 1 ∧ popcount8 1 = 1 ∧ popcount8 4 = 1 ∧ popcount8 8 = 1 ∧
    lut_contours[2]? = some (128 + 2) ∧ lut_contours[1]? = some (8 + 2) ∧
    lut_contours[4]? = some (128 + 32) ∧ lut_contours[8]? = some (32 + 8) ∧
    msq_grid_march_cell ⟨false, false⟩ grid_centre_peak_classified ws whs hs hhs color lw 0 0 =
      some [⟨⟨((cell_x ws whs 0 + ws : Int) : ℚ), (cell_y hs hhs 0 : ℚ) + (hs : ℚ) / 2⟩,
        ⟨(cell_x ws whs 0 : ℚ) + (ws : ℚ) / 2, ((cell_y hs hhs 0 + hs : Int) : ℚ)⟩, lw, color⟩] ∧
    msq_grid_march_cell ⟨false, false⟩ grid_centre_peak_classified ws whs hs hhs color lw 0 1 =
      some [⟨⟨(cell_x ws whs 1 : ℚ), (cell_y hs hhs 0 : ℚ) + (hs : ℚ) / 2⟩,
        ⟨(cell_x ws whs 1 : ℚ) + (ws : ℚ) / 2, ((cell_y hs hhs 0 + hs : Int) : ℚ)⟩, lw, color⟩] ∧
    msq_grid_march_cell ⟨false, false⟩ grid_centre_peak_classified ws whs hs hhs color lw 1 0 =
      some [⟨⟨((cell_x ws whs 0 + ws : Int) : ℚ), (cell_y hs hhs 1 : ℚ) + (hs : ℚ) / 2⟩,
        ⟨(cell_x ws whs 0 : ℚ) + (ws : ℚ) / 2, (cell_y hs hhs 1 : ℚ)⟩, lw, color⟩] ∧
    msq_grid_march_cell ⟨false, false⟩ grid_centre_peak_classified ws whs hs hhs color lw 1 1 =
      some [⟨⟨(cell_x ws whs 1 : ℚ) + (ws : ℚ) / 2, (cell_y hs hhs 1 : ℚ)⟩,
        ⟨(cell_x ws whs 1 : ℚ), (cell_y hs hhs 1 : ℚ) + (hs : ℚ) / 2⟩, lw, color⟩] ∧
    msq_grid_march ⟨false, false⟩ grid_centre_peak_classified sw sh color lw =
      some
        [⟨⟨((cell_x (march_spacing sw 3) (march_halfspacing (march_spacing sw 3)) 0 +
              march_spacing sw 3 : Int) : ℚ),
            (cell_y (march_spacing sh 3) (march_halfspacing (march_spacing sh 3)) 0 : ℚ) +
              (march_spacing sh 3 : ℚ) / 2⟩,
          ⟨(cell_x (march_spacing sw 3) (march_halfspacing (march_spacing sw 3)) 0 : ℚ) +
              (march_spacing sw 3 : ℚ) / 2,
            ((cell_y (march_spacing sh 3) (march_halfspacing (march_spacing sh 3)) 0 +
              march_spacing sh 3 : Int) : ℚ)⟩, lw, color⟩,
         ⟨⟨(cell_x (march_spacing sw 3) (march_halfspacing (march_spacing sw 3)) 1 : ℚ),
            (cell_y (march_spacing sh 3) (march_halfspacing (march_spacing sh 3)) 0 : ℚ) +
              (march_spacing sh 3 : ℚ) / 2⟩,
          ⟨(cell_x (march_spacing sw 3) (march_halfspacing (march_spacing sw 3)) 1 : ℚ) +
              (march_spacing sw 3 : ℚ) / 2,
            ((cell_y (march_spacing sh 3) (march_halfspacing (march_spacing sh 3)) 0 +
              march_spacing sh 3 : Int) : ℚ)⟩, lw, color⟩,
         ⟨⟨((cell_x (march_spacing sw 3) (march_halfspacing (march_spacing sw 3)) 0 +
              march_spacing sw 3 : Int) : ℚ),
            (cell_y (march_spacing sh 3) (march_halfspacing (march_spacing sh 3)) 1 : ℚ) +
              (march_spacing sh 3 : ℚ) / 2⟩,
          ⟨(cell_x (march_spacing sw 3) (march_halfspacing (march_spacing sw 3)) 0 : ℚ) +
              (march_spacing sw 3 : ℚ) / 2,
            (cell_y (march_spacing sh 3) (march_halfspacing (march_spacing sh 3)) 1 : ℚ)⟩,
          lw, color⟩,
         ⟨⟨(cell_x (march_spacing sw 3) (march_halfspacing (march_spacing sw 3)) 1 : ℚ) +
              (march_spacing sw 3 : ℚ) / 2,
            (cell_y (march_spacing sh 3) (march_halfspacing (march_spacing sh 3)) 1 : ℚ)⟩,
          ⟨(cell_x (march_spacing sw 3) (march_halfspacing (march_spacing sw 3)) 1 : ℚ),
            (cell_y (march_spacing sh 3) (march_halfspacing (march_spacing sh 3)) 1 : ℚ) +
              (march_spacing sh 3 : ℚ) / 2⟩, lw, color⟩] :=
  ⟨by decide, rfl, by decide, by decide, by decide, by decide, rfl, rfl, rfl, rfl,
    centre_peak_cell_0_0 ws whs hs hhs color lw, centre_peak_cell_0_1 ws whs hs hhs color lw,
    centre_peak_cell_1_0 ws whs hs hhs color lw, centre_peak_cell_1_1 ws whs hs hhs color lw,
    centre_peak_march sw sh color lw⟩

/-- C12, as the specification states it, fails: called with one row and one
column, `msq_grid_create` returns a grid, with `rows_count = 1` and
`cols_count = 1`, and not the null pointer. -/
theorem C12_create_accepts_one_by_one :
    ((1 : Nat) < 2 ∨ (1 : Nat) < 2) ∧
    (∃ g, msq_grid_create (fun _ _ => 0) (fun _ _ => 0) 1 1 16 = some g ∧ g.rows_count = 1 ∧
      g.cols_count = 1 ∧ ¬ msq_grid_wf g) ∧
    ¬ (∀ (fresh_sample : Nat → Nat → ℚ) (fresh_code : Nat → Nat → Nat) (rows_count cols_count : Nat)
        (max_threshold : ℚ), (rows_count < 2 ∨ cols_count < 2) →
        msq_grid_create fresh_sample fresh_code rows_count cols_count max_threshold = none) := by
  refine ⟨Or.inl (by decide), ⟨_, rfl, rfl, rfl, by decide⟩, ?_⟩
  intro h
  have h1 := h (fun _ _ => 0) (fun _ _ => 0) 1 1 16 (Or.inl (by decide))
  simp [msq_grid_create] at h1

/-- C12, amended: `msq_grid_create` makes no check of its dimensions.  For
every `rows_count` and `cols_count` (32-bit values, the allocations
succeeding) it returns a grid that stores the two counts as given, with the
threshold `max_threshold / 2`; the grid returned has at least one cell and the
arrays of a well-formed grid exactly when both counts are at least 2. -/
theorem C12_create_makes_no_check (fresh_sample : Nat → Nat → ℚ) (fresh_code : Nat → Nat → Nat)
    (rows_count cols_count : Nat) (max_threshold : ℚ)
    (hr : rows_count < 2 ^ 32) (hc : cols_count < 2 ^ 32) :
    ∃ g, msq_grid_create fresh_sample fresh_code rows_count cols_count max_threshold = some g ∧
      g.rows_count = rows_count ∧ g.cols_count = cols_count ∧
      g.threshold = max_threshold / 2 ∧ g.max_threshold = max_threshold ∧
      (msq_grid_wf g ↔ (2 ≤ rows_count ∧ 2 ≤ cols_count)) := by
  refine ⟨_, rfl, rfl, rfl, rfl, rfl, ?_⟩
  constructor
  · intro hwf
    exact ⟨hwf.1, hwf.2.2.1⟩
  · rintro ⟨h1, h2⟩
    exact msq_grid_create_wf fresh_sample fresh_code rows_count cols_count max_threshold
      ⟨h1, hr⟩ ⟨h2, hc⟩

/-- Witness of `C12_create_makes_no_check`: one row and one column. -/
theorem C12_create_makes_no_check_witness :
    (1 : Nat) < 2 ^ 32 ∧ (1 : Nat) < 2 ^ 32 ∧
    ∃ g, msq_grid_create (fun _ _ => 0) (fun _ _ => 0) 1 1 16 = some g ∧
      g.rows_count = 1 ∧ g.cols_count = 1 ∧
      g.threshold = 16 / 2 ∧ g.max_threshold = 16 ∧
      (msq_grid_wf g ↔ (2 ≤ 1 ∧ 2 ≤ 1)) :=
  ⟨by decide, by decide,
    C12_create_makes_no_check (fun _ _ => 0) (fun _ _ => 0) 1 1 16 (by decide) (by decide)⟩

/-- C13, at the failing input: on the checkerboard `[[10, 0], [0, 10]]` with
the threshold `5` and a screen of `1200 x 900`, `msq_grid_draw` returns (4
tests of each `while` condition suffice) after drawing the six grid lines and
the four circles; the circles of the samples `10`, above the threshold, are
`RED`, and the circles of the samples `0`, not above it, are `GREEN`. -/
theorem C13_circle_colours_swapped :
    load2 grid_checkerboard.field 0 0 = some 10 ∧ (10 : ℚ) > grid_checkerboard.threshold ∧
    load2 grid_checkerboard.field 0 1 = some 0 ∧ ¬ (0 : ℚ) > grid_checkerboard.threshold ∧
    RED ≠ GREEN ∧
    msq_grid_draw 4 grid_checkerboard 1200 900 =
      some [draw_call.DrawLine 0 900 0 0 BLACK, draw_call.DrawLine 600 900 600 0 BLACK,
        draw_call.DrawLine 1200 900 1200 0 BLACK,
        draw_call.DrawLine 0 0 1200 0 BLACK, draw_call.DrawLine 0 450 1200 450 BLACK,
        draw_call.DrawLine 0 900 1200 900 BLACK,
        draw_call.DrawCircle 300 225 2 RED, draw_call.DrawCircle 900 225 2 GREEN,
        draw_call.DrawCircle 300 675 2 GREEN, draw_call.DrawCircle 900 675 2 RED] := by
  refine ⟨by decide, by decide, by decide, by decide, by decide, by decide⟩

/-- C14: for a well-formed grid, once `msq_grid_get_indices` has classified it
from its samples and threshold, the loop body of `msq_grid_march` returns the
list of its calls of `msq_lerp` for every cell `(i, j)` with
`i < rows_count - 1` and `j < cols_count - 1`, in every build, and every call
`msq_lerp (threshold, pos_a, pos_b, a, b)` in that list is made with the
threshold of the grid and with exactly one of `a`, `b` above it, so `a ≠ b`. -/
theorem C14_lerp_only_on_crossed_edges (build : msq_build) (g : msq_squares_grid)
    (ws whs hs hhs : Int) (i j : Nat)
    (hwf : msq_grid_wf g) (hi : i < g.rows_count - 1) (hj : j < g.cols_count - 1) :
    ∃ g' calls, msq_grid_get_indices g = some g' ∧
      msq_grid_march_cell_lerp_calls build g' ws whs hs hhs i j = some calls ∧
      ∀ c ∈ calls, c.threshold = g.threshold ∧
        ((c.grid_a > g.threshold ∧ ¬ c.grid_b > g.threshold) ∨
          (¬ c.grid_a > g.threshold ∧ c.grid_b > g.threshold)) ∧
        c.grid_a ≠ c.grid_b := by
  obtain ⟨g', hg', hcl⟩ := msq_grid_get_indices_classified g hwf
  obtain ⟨tl, tr, br, bl, _, _, _, _, hcode⟩ := wf_get_index g hwf i j hi hj
  have hstored := (hcl.2.2.2.2.2.2.1 i j ⟨hi, hj⟩).trans hcode
  obtain ⟨tl', tr', bl', br', htl, htr, hbl, hbr⟩ := wf_corners g hwf i j hi hj
  have hrows := hwf.2.1
  have hcols := hwf.2.2.2.1
  have hi1 : u32_add i 1 = i + 1 := u32_add_one i (by omega)
  have hj1 : u32_add j 1 = j + 1 := u32_add_one j (by omega)
  have e1 : tl' = tl := by
    have := htl.symm.trans ‹load2 g.field i j = some tl›
    exact Option.some.inj this
  have e2 : tr' = tr := by
    rw [hj1] at htr
    exact Option.some.inj (htr.symm.trans ‹load2 g.field i (j + 1) = some tr›)
  have e3 : bl' = bl := by
    rw [hi1] at hbl
    exact Option.some.inj (hbl.symm.trans ‹load2 g.field (i + 1) j = some bl›)
  have e4 : br' = br := by
    rw [hi1, hj1] at hbr
    exact Option.some.inj (hbr.symm.trans ‹load2 g.field (i + 1) (j + 1) = some br›)
  subst e1 e2 e3 e4
  rw [← hcl.2.2.1] at htl htr hbl hbr
  have ta := msq_threshold_le_one g.threshold tl'
  have tb := msq_threshold_le_one g.threshold tr'
  have tc := msq_threshold_le_one g.threshold br'
  have td := msq_threshold_le_one g.threshold bl'
  have hlt : pack4 (msq_threshold g.threshold tl') (msq_threshold g.threshold tr')
      (msq_threshold g.threshold br') (msq_threshold g.threshold bl') < 16 := by
    rw [pack4_eq _ _ _ _ ta tb tc td]
    omega
  by_cases h015 : pack4 (msq_threshold g.threshold tl') (msq_threshold g.threshold tr')
      (msq_threshold g.threshold br') (msq_threshold g.threshold bl') = 0 ∨
      pack4 (msq_threshold g.threshold tl') (msq_threshold g.threshold tr')
      (msq_threshold g.threshold br') (msq_threshold g.threshold bl') = 15
  · refine ⟨g', [], hg',
      msq_grid_march_cell_lerp_calls_skip build g' ws whs hs hhs i j _ hstored h015, ?_⟩
    intro c hc
    exact absurd hc (List.not_mem_nil c)
  · obtain ⟨mask, hm⟩ := lut_contours_some _ hlt
    obtain ⟨b128, b32, b8, b2⟩ := lut_mask_bits _ _ _ _ _ ta tb tc td hm
    refine ⟨g', _, hg',
      msq_grid_march_cell_lerp_calls_eq build g' ws whs hs hhs i j _ _ tl' tr' bl' br' hstored
        (fun e => h015 (Or.inl e)) (fun e => h015 (Or.inr e)) hlt hm htl htr hbl hbr, ?_⟩
    intro c hc
    simp only [List.mem_append] at hc
    rcases hc with ((hc | hc) | hc) | hc
    · split_ifs at hc with h1 h2
      · exact absurd hc (List.not_mem_nil c)
      · rw [List.mem_singleton] at hc
        subst hc
        obtain ⟨x, y⟩ := msq_threshold_ne g.threshold tr' br' (b128 h1)
        exact ⟨hcl.2.2.2.1, x, y⟩
      · exact absurd hc (List.not_mem_nil c)
    · split_ifs at hc with h1 h2
      · exact absurd hc (List.not_mem_nil c)
      · rw [List.mem_singleton] at hc
        subst hc
        obtain ⟨x, y⟩ := msq_threshold_ne g.threshold tl' tr' (b32 h1)
        exact ⟨hcl.2.2.2.1, x, y⟩
      · exact absurd hc (List.not_mem_nil c)
    · split_ifs at hc with h1 h2
      · exact absurd hc (List.not_mem_nil c)
      · rw [List.mem_singleton] at hc
        subst hc
        obtain ⟨x, y⟩ := msq_threshold_ne g.threshold tl' bl' (b8 h1)
        exact ⟨hcl.2.2.2.1, x, y⟩
      · exact absurd hc (List.not_mem_nil c)
    · split_ifs at hc with h1 h2
      · exact absurd hc (List.not_mem_nil c)
      · rw [List.mem_singleton] at hc
        subst hc
        obtain ⟨x, y⟩ := msq_threshold_ne g.threshold bl' br' (b2 h1)
        exact ⟨hcl.2.2.2.1, x, y⟩
      · exact absurd hc (List.not_mem_nil c)

/-- Witness of `C14_lerp_only_on_crossed_edges` on `grid_centre_peak`, cell
`(0, 0)`, built without `NO_LERP` and `MSQ_NO_LERP`. -/
theorem C14_lerp_only_on_crossed_edges_witness :
    msq_grid_wf grid_centre_peak ∧ 0 < grid_centre_peak.rows_count - 1 ∧
    0 < grid_centre_peak.cols_count - 1 ∧
    ∃ g' calls, msq_grid_get_indices grid_centre_peak = some g' ∧
      msq_grid_march_cell_lerp_calls ⟨false, false⟩ g' 400 200 300 150 0 0 = some calls ∧
      ∀ c ∈ calls, c.threshold = grid_centre_peak.threshold ∧
        ((c.grid_a > grid_centre_peak.threshold ∧ ¬ c.grid_b > grid_centre_peak.threshold) ∨
          (¬ c.grid_a > grid_centre_peak.threshold ∧ c.grid_b > grid_centre_peak.threshold)) ∧
        c.grid_a ≠ c.grid_b :=
  ⟨by decide, by decide, by decide,
    C14_lerp_only_on_crossed_edges ⟨false, false⟩ grid_centre_peak 400 200 300 150 0 0
      (by decide) (by decide) (by decide)⟩

/-- C15, at the failing input: the checkerboard `[[10, 0], [0, 10]]` with the
threshold `5` is classified `10` (top-left and bottom-right above the
threshold), the average of its corners is `5`, not above the threshold, and
the loop body of `msq_grid_march` draws from the right-edge vertex to the
top-edge vertex and from the left-edge vertex to the bottom-edge vertex.  The
right and top edges meet at the top-right corner and the left and bottom edges
at the bottom-left corner, and both corners hold `0`, which is not above the
threshold.  On the other checkerboard `[[0, 10], [10, 0]]`, classified `5`,
with the same average, the same two calls are made, and there the two corners
hold `10`, above the threshold. -/
theorem C15_saddle_code_10_cuts_low_corners :
    msq_grid_get_indices grid_checkerboard = some grid_checkerboard ∧
    load2 grid_checkerboard.binary_index 0 0 = some 10 ∧
    cell_average grid_checkerboard 0 0 = some 5 ∧ ¬ (5 : ℚ) > grid_checkerboard.threshold ∧
    vertex_128 ⟨false, false⟩ grid_checkerboard 600 450 225 (cell_x 600 300 0) (cell_y 450 225 0)
      0 0 = some ⟨900, 450⟩ ∧
    vertex_32 ⟨false, false⟩ grid_checkerboard 600 300 (cell_x 600 300 0) (cell_y 450 225 0)
      0 0 = some ⟨600, 225⟩ ∧
    vertex_8 ⟨false, false⟩ grid_checkerboard 450 225 (cell_x 600 300 0) (cell_y 450 225 0)
      0 0 = some ⟨300, 450⟩ ∧
    vertex_2 ⟨false, false⟩ grid_checkerboard 600 300 450 (cell_x 600 300 0) (cell_y 450 225 0)
      0 0 = some ⟨600, 675⟩ ∧
    msq_grid_march_cell ⟨false, false⟩ grid_checkerboard 600 300 450 225 ⟨0, 0, 0, 255⟩ 2 0 0 =
      some [⟨⟨900, 450⟩, ⟨600, 225⟩, 2, ⟨0, 0, 0, 255⟩⟩,
        ⟨⟨300, 450⟩, ⟨600, 675⟩, 2, ⟨0, 0, 0, 255⟩⟩] ∧
    load2 grid_checkerboard.field 0 1 = some 0 ∧ load2 grid_checkerboard.field 1 0 = some 0 ∧
    ¬ (0 : ℚ) > grid_checkerboard.threshold ∧
    load2 grid_checkerboard.field 0 0 = some 10 ∧ load2 grid_checkerboard.field 1 1 = some 10 ∧
    (10 : ℚ) > grid_checkerboard.threshold ∧
    msq_grid_get_indices grid_checkerboard_5 = some grid_checkerboard_5 ∧
    load2 grid_checkerboard_5.binary_index 0 0 = some 5 ∧
    msq_grid_march_cell ⟨false, false⟩ grid_checkerboard_5 600 300 450 225 ⟨0, 0, 0, 255⟩ 2 0 0 =
      some [⟨⟨900, 450⟩, ⟨600, 225⟩, 2, ⟨0, 0, 0, 255⟩⟩,
        ⟨⟨300, 450⟩, ⟨600, 675⟩, 2, ⟨0, 0, 0, 255⟩⟩] ∧
    load2 grid_checkerboard_5.field 0 1 = some 10 ∧
    load2 grid_checkerboard_5.field 1 0 = some 10 ∧
    (10 : ℚ) > grid_checkerboard_5.threshold :=
  ⟨by decide, by decide, checkerboard_average, by decide, checkerboard_vertices.1,
    checkerboard_vertices.2.1, checkerboard_vertices.2.2.1, checkerboard_vertices.2.2.2,
    checkerboard_cell, by decide, by decide, by decide, by decide, by decide, by decide,
    by decide, by decide, checkerboard_5_cell, by decide, by decide, by decide⟩

/-- C16, as the specification states it, fails: the mask of the code 6 (and of
the code 9) is `32 + 2`, the top and the bottom edge, which are opposite and
share no corner. -/
theorem C16_codes_6_9_not_adjacent :
    lut_contours[6]? = some (32 + 2) ∧ lut_contours[9]? = some (32 + 2) ∧
    ¬ edges_adjacent (32 + 2) ∧
    ¬ (∀ c ∈ [4, 11, 6, 9], ∃ mask, lut_contours[c]? = some mask ∧ edges_adjacent mask) := by
  refine ⟨rfl, rfl, by decide, ?_⟩
  intro h
  obtain ⟨mask, hm, ha⟩ := h 6 (by decide)
  have e : mask = 32 + 2 := (Option.some.inj hm).symm
  subst e
  revert ha
  decide

/-- C16, amended: in `lut_contours`, with the bits read as `msq_grid_march`
places them (128 right, 32 top, 8 left, 2 bottom), the masks of the codes 3
and 12 select the right and the left edge, the masks of the codes 6 and 9
select the top and the bottom edge, both pairs of opposite edges, and the masks
of the codes 4 and 11 select the right and the top edge, two adjacent
edges. -/
theorem C16_opposite_and_adjacent_masks :
    lut_contours[3]? = some (128 + 8) ∧ lut_contours[12]? = some (128 + 8) ∧
    lut_contours[6]? = some (32 + 2) ∧ lut_contours[9]? = some (32 + 2) ∧
    lut_contours[4]? = some (128 + 32) ∧ lut_contours[11]? = some (128 + 32) ∧
    edges_opposite (128 + 8) ∧ edges_opposite (32 + 2) ∧ edges_adjacent (128 + 32) ∧
    ¬ edges_adjacent (128 + 8) ∧ ¬ edges_adjacent (32 + 2) ∧ ¬ edges_opposite (128 + 32) :=
  ⟨rfl, rfl, rfl, rfl, rfl, rfl, by decide, by decide, by decide, by decide, by decide, by decide⟩

/-- C17, as the specification states it, fails: the checkerboard grid has two
rows and two columns, so no cell `(i, j)` has `i` in `[0, rows - 2)`, and the
traversal of that range makes no call; but `msq_grid_march` processes the cell
`(0, 0)` and makes two calls of `DrawLineEx`. -/
theorem C17_march_reaches_last_row_and_column :
    msq_grid_wf grid_checkerboard ∧
    march_over (grid_checkerboard.rows_count - 2) (grid_checkerboard.cols_count - 2)
      (fun i j => msq_grid_march_cell ⟨false, false⟩ grid_checkerboard
        (march_spacing 1200 grid_checkerboard.cols_count)
        (march_halfspacing (march_spacing 1200 grid_checkerboard.cols_count))
        (march_spacing 900 grid_checkerboard.rows_count)
        (march_halfspacing (march_spacing 900 grid_checkerboard.rows_count))
        ⟨0, 0, 0, 255⟩ 2 i j) = some [] ∧
    msq_grid_march ⟨false, false⟩ grid_checkerboard 1200 900 ⟨0, 0, 0, 255⟩ 2 =
      some [⟨⟨900, 450⟩, ⟨600, 225⟩, 2, ⟨0, 0, 0, 255⟩⟩,
        ⟨⟨300, 450⟩, ⟨600, 675⟩, 2, ⟨0, 0, 0, 255⟩⟩] ∧
    msq_grid_march ⟨false, false⟩ grid_checkerboard 1200 900 ⟨0, 0, 0, 255⟩ 2 ≠
      march_over (grid_checkerboard.rows_count - 2) (grid_checkerboard.cols_count - 2)
        (fun i j => msq_grid_march_cell ⟨false, false⟩ grid_checkerboard
          (march_spacing 1200 grid_checkerboard.cols_count)
          (march_halfspacing (march_spacing 1200 grid_checkerboard.cols_count))
          (march_spacing 900 grid_checkerboard.rows_count)
          (march_halfspacing (march_spacing 900 grid_checkerboard.rows_count))
          ⟨0, 0, 0, 255⟩ 2 i j) := by
  have h0 : march_over (grid_checkerboard.rows_count - 2) (grid_checkerboard.cols_count - 2)
      (fun i j => msq_grid_march_cell ⟨false, false⟩ grid_checkerboard
        (march_spacing 1200 grid_checkerboard.cols_count)
        (march_halfspacing (march_spacing 1200 grid_checkerboard.cols_count))
        (march_spacing 900 grid_checkerboard.rows_count)
        (march_halfspacing (march_spacing 900 grid_checkerboard.rows_count))
        ⟨0, 0, 0, 255⟩ 2 i j) = some [] := rfl
  refine ⟨by decide, h0, checkerboard_march, ?_⟩
  rw [h0, checkerboard_march]
  intro h
  cases h

/-- C17, amended: for every well-formed grid, `msq_grid_march` processes
exactly the cells `(i, j)` with `i` in `[0, rows_count - 1)` and `j` in
`[0, cols_count - 1)`: its calls are those of its loop body run over these
cells, rows first and columns within a row, each cell once, and it fails
exactly when the body fails on one of them. -/
theorem C17_march_covers_all_cells (build : msq_build) (g : msq_squares_grid)
    (sw sh : Int) (color : Color) (lw : ℚ) (hwf : msq_grid_wf g) :
    msq_grid_march build g sw sh color lw =
      march_over (g.rows_count - 1) (g.cols_count - 1)
        (fun i j => msq_grid_march_cell build g (march_spacing sw g.cols_count)
          (march_halfspacing (march_spacing sw g.cols_count)) (march_spacing sh g.rows_count)
          (march_halfspacing (march_spacing sh g.rows_count)) color lw i j) :=
  msq_grid_march_eq_march_over build g sw sh color lw hwf

/-- Witness of `C17_march_covers_all_cells` on the checkerboard grid. -/
theorem C17_march_covers_all_cells_witness :
    msq_grid_wf grid_checkerboard ∧
    msq_grid_march ⟨false, false⟩ grid_checkerboard 1200 900 ⟨0, 0, 0, 255⟩ 2 =
      march_over (grid_checkerboard.rows_count - 1) (grid_checkerboard.cols_count - 1)
        (fun i j => msq_grid_march_cell ⟨false, false⟩ grid_checkerboard
          (march_spacing 1200 grid_checkerboard.cols_count)
          (march_halfspacing (march_spacing 1200 grid_checkerboard.cols_count))
          (march_spacing 900 grid_checkerboard.rows_count)
          (march_halfspacing (march_spacing 900 grid_checkerboard.rows_count))
          ⟨0, 0, 0, 255⟩ 2 i j) :=
  ⟨by decide,
    C17_march_covers_all_cells ⟨false, false⟩ grid_checkerboard 1200 900 ⟨0, 0, 0, 255⟩ 2
      (by decide)⟩

/-- C18: for a well-formed grid and a cell `(c, j)` with `c < rows_count - 1`
and `j < cols_count - 1`, `msq_grid_get_indices` returns and leaves in
`binary_index[c][j]` the value
`8 * [field[c][j] > t] + 4 * [field[c][j + 1] > t] + 2 * [field[c + 1][j + 1] > t] + [field[c + 1][j] > t]`,
whatever the array held before; this value is below 16; and the array keeps its
`rows_count - 1` rows of `cols_count - 1` codes, so these cells are all its
cells. -/
theorem C18_stored_code_formula (g : msq_squares_grid) (c j : Nat) (hwf : msq_grid_wf g)
    (hc : c < g.rows_count - 1) (hj : j < g.cols_count - 1) :
    ∃ g' tl tr br bl, msq_grid_get_indices g = some g' ∧
      load2 g.field c j = some tl ∧ load2 g.field c (j + 1) = some tr ∧
      load2 g.field (c + 1) (j + 1) = some br ∧ load2 g.field (c + 1) j = some bl ∧
      load2 g'.binary_index c j =
        some (8 * (if tl > g.threshold then 1 else 0) + 4 * (if tr > g.threshold then 1 else 0) +
          2 * (if br > g.threshold then 1 else 0) + (if bl > g.threshold then 1 else 0)) ∧
      8 * (if tl > g.threshold then 1 else 0) + 4 * (if tr > g.threshold then 1 else 0) +
          2 * (if br > g.threshold then 1 else 0) + (if bl > g.threshold then 1 else 0) < 16 ∧
      shape g'.binary_index = List.replicate (g.rows_count - 1) (g.cols_count - 1) := by
  obtain ⟨g', hg', hcl⟩ := msq_grid_get_indices_classified g hwf
  obtain ⟨tl, tr, br, bl, htl, htr, hbr, hbl, hcode⟩ := wf_get_index g hwf c j hc hj
  have hload := (hcl.2.2.2.2.2.2.1 c j ⟨hc, hj⟩).trans hcode
  have ta := msq_threshold_le_one g.threshold tl
  have tb := msq_threshold_le_one g.threshold tr
  have tc := msq_threshold_le_one g.threshold br
  have td := msq_threshold_le_one g.threshold bl
  rw [pack4_eq _ _ _ _ ta tb tc td] at hload
  unfold msq_threshold at hload ta tb tc td
  refine ⟨g', tl, tr, br, bl, hg', htl, htr, hbr, hbl, hload, by omega, ?_⟩
  rw [hcl.2.2.2.2.2.1]
  exact wf_shape_binary_index g hwf

/-- Witness of `C18_stored_code_formula` on `grid_centre_peak`, cell `(1, 0)`. -/
theorem C18_stored_code_formula_witness :
    msq_grid_wf grid_centre_peak ∧ 1 < grid_centre_peak.rows_count - 1 ∧
    0 < grid_centre_peak.cols_count - 1 ∧
    ∃ g' tl tr br bl, msq_grid_get_indices grid_centre_peak = some g' ∧
      load2 grid_centre_peak.field 1 0 = some tl ∧
      load2 grid_centre_peak.field 1 (0 + 1) = some tr ∧
      load2 grid_centre_peak.field (1 + 1) (0 + 1) = some br ∧
      load2 grid_centre_peak.field (1 + 1) 0 = some bl ∧
      load2 g'.binary_index 1 0 =
        some (8 * (if tl > grid_centre_peak.threshold then 1 else 0) +
          4 * (if tr > grid_centre_peak.threshold then 1 else 0) +
          2 * (if br > grid_centre_peak.threshold then 1 else 0) +
          (if bl > grid_centre_peak.threshold then 1 else 0)) ∧
      8 * (if tl > grid_centre_peak.threshold then 1 else 0) +
          4 * (if tr > grid_centre_peak.threshold then 1 else 0) +
          2 * (if br > grid_centre_peak.threshold then 1 else 0) +
          (if bl > grid_centre_peak.threshold then 1 else 0) < 16 ∧
      shape g'.binary_index =
        List.replicate (grid_centre_peak.rows_count - 1) (grid_centre_peak.cols_count - 1) :=
  ⟨by decide, by decide, by decide,
    C18_stored_code_formula grid_centre_peak 1 0 (by decide) (by decide) (by decide)⟩

/-- C19: for a well-formed grid (`rows_count` and `cols_count` at least 2,
`field` of `rows_count x cols_count` samples, `binary_index` of
`(rows_count - 1) x (cols_count - 1)` codes), in every build and for every
screen size, `msq_grid_get_indices` returns and the following
`msq_grid_march` returns: no load or store of `field` or `binary_index`, no
read of `lut_contours`, no write and no read of `vertices` falls outside its
array or on an entry not written.  Cell by cell: the stored code is below 16;
when it is neither 0 nor 15 the table read succeeds, the vertex list is built
with at most 4 entries, and the drawing reads only entries of that list. -/
theorem C19_all_accesses_in_bounds (build : msq_build) (g : msq_squares_grid)
    (sw sh : Int) (color : Color) (lw : ℚ) (hwf : msq_grid_wf g) :
    ∃ g' drawn, msq_grid_get_indices g = some g' ∧
      msq_grid_march build g' sw sh color lw = some drawn ∧
      ∀ i j, i < g.rows_count - 1 → j < g.cols_count - 1 →
        ∃ code, load2 g'.binary_index i j = some code ∧ code < 16 ∧
          ((code = 0 ∨ code = 15) ∨
            ∃ mask vertices calls, lut_contours_at (toI32 code) = some mask ∧
              msq_grid_march_vertices build g' (march_spacing sw g.cols_count)
                (march_halfspacing (march_spacing sw g.cols_count))
                (march_spacing sh g.rows_count)
                (march_halfspacing (march_spacing sh g.rows_count))
                (cell_x (march_spacing sw g.cols_count)
                  (march_halfspacing (march_spacing sw g.cols_count)) j)
                (cell_y (march_spacing sh g.rows_count)
                  (march_halfspacing (march_spacing sh g.rows_count)) i) mask i j =
                some vertices ∧
              vertices.length ≤ 4 ∧
              msq_grid_march_draw g' color lw vertices i j = some calls) := by
  obtain ⟨g', hg', hcl⟩ := msq_grid_get_indices_classified g hwf
  have hwf' := classified_wf g g' _ hwf hcl
  have hcells : ∀ i j, i < g.rows_count - 1 → j < g.cols_count - 1 →
      ∃ code, load2 g'.binary_index i j = some code ∧ code < 16 := by
    intro i j hi hj
    obtain ⟨tl, tr, br, bl, _, _, _, _, hcode⟩ := wf_get_index g hwf i j hi hj
    have hload := (hcl.2.2.2.2.2.2.1 i j ⟨hi, hj⟩).trans hcode
    have ta := msq_threshold_le_one g.threshold tl
    have tb := msq_threshold_le_one g.threshold tr
    have tc := msq_threshold_le_one g.threshold br
    have td := msq_threshold_le_one g.threshold bl
    refine ⟨_, hload, ?_⟩
    rw [pack4_eq _ _ _ _ ta tb tc td]
    omega
  have hmarch : ∃ drawn, msq_grid_march build g' sw sh color lw = some drawn := by
    apply msq_grid_march_some build g' sw sh color lw hwf'
    intro i j hi hj
    rw [hcl.1] at hi
    rw [hcl.2.1] at hj
    obtain ⟨code, hcode, hlt⟩ := hcells i j hi hj
    by_cases h015 : code = 0 ∨ code = 15
    · exact ⟨[], msq_grid_march_cell_skip build g' _ _ _ _ color lw i j code hcode h015⟩
    · obtain ⟨_, _, calls, _, _, _, _, hcell⟩ := msq_grid_march_cell_parts build g'
        (march_spacing sw g'.cols_count) (march_halfspacing (march_spacing sw g'.cols_count))
        (march_spacing sh g'.rows_count) (march_halfspacing (march_spacing sh g'.rows_count))
        color lw i j code hwf' (by rw [hcl.1]; exact hi) (by rw [hcl.2.1]; exact hj) hcode hlt
        (fun e => h015 (Or.inl e)) (fun e => h015 (Or.inr e))
      exact ⟨calls, hcell⟩
  obtain ⟨drawn, hdrawn⟩ := hmarch
  refine ⟨g', drawn, hg', hdrawn, ?_⟩
  intro i j hi hj
  obtain ⟨code, hcode, hlt⟩ := hcells i j hi hj
  refine ⟨code, hcode, hlt, ?_⟩
  by_cases h015 : code = 0 ∨ code = 15
  · exact Or.inl h015
  · obtain ⟨mask, vertices, calls, hat, hverts, hlen, hdraw, _⟩ := msq_grid_march_cell_parts
      build g' (march_spacing sw g.cols_count) (march_halfspacing (march_spacing sw g.cols_count))
      (march_spacing sh g.rows_count) (march_halfspacing (march_spacing sh g.rows_count))
      color lw i j code hwf' (by rw [hcl.1]; exact hi) (by rw [hcl.2.1]; exact hj) hcode hlt
      (fun e => h015 (Or.inl e)) (fun e => h015 (Or.inr e))
    exact Or.inr ⟨mask, vertices, calls, hat, hverts, hlen, hdraw⟩

/-- Witness of `C19_all_accesses_in_bounds` on `grid_centre_peak`, which has
four cells, none of them skipped. -/
theorem C19_all_accesses_in_bounds_witness :
    msq_grid_wf grid_centre_peak ∧
    ∃ g' drawn, msq_grid_get_indices grid_centre_peak = some g' ∧
      msq_grid_march ⟨false, false⟩ g' 1200 900 ⟨0, 0, 0, 255⟩ 2 = some drawn ∧
      ∀ i j, i < grid_centre_peak.rows_count - 1 → j < grid_centre_peak.cols_count - 1 →
        ∃ code, load2 g'.binary_index i j = some code ∧ code < 16 ∧
          ((code = 0 ∨ code = 15) ∨
            ∃ mask vertices calls, lut_contours_at (toI32 code) = some mask ∧
              msq_grid_march_vertices ⟨false, false⟩ g'
                (march_spacing 1200 grid_centre_peak.cols_count)
                (march_halfspacing (march_spacing 1200 grid_centre_peak.cols_count))
                (march_spacing 900 grid_centre_peak.rows_count)
                (march_halfspacing (march_spacing 900 grid_centre_peak.rows_count))
                (cell_x (march_spacing 1200 grid_centre_peak.cols_count)
                  (march_halfspacing (march_spacing 1200 grid_centre_peak.cols_count)) j)
                (cell_y (march_spacing 900 grid_centre_peak.rows_count)
                  (march_halfspacing (march_spacing 900 grid_centre_peak.rows_count)) i) mask i j =
                some vertices ∧
              vertices.length ≤ 4 ∧
              msq_grid_march_draw g' ⟨0, 0, 0, 255⟩ 2 vertices i j = some calls) :=
  ⟨by decide,
    C19_all_accesses_in_bounds ⟨false, false⟩ grid_centre_peak 1200 900 ⟨0, 0, 0, 255⟩ 2
      (by decide)⟩

/-- C20, at the failing input: built with `MSQ_NO_LERP` defined (and `NO_LERP`
not), on the classified grid with the samples `[[0, 0], [0, 10]]` and the
threshold `2`, with the spacings `600` and `450` and the half spacings `300`
and `225`, the loop body of `msq_grid_march` calls
`msq_lerp (2, 225, 675, 0, 10)` for the right-edge vertex and places it at
`y = 315`, not at the half-spacing point `y = cell_y + height_halfspacing = 450`;
the bottom-edge vertex is at its half-spacing point `x = 600`. -/
theorem C20_right_edge_ignores_MSQ_NO_LERP :
    msq_grid_get_indices grid_lerp_probe = some grid_lerp_probe ∧
    load2 grid_lerp_probe.binary_index 0 0 = some 2 ∧
    msq_grid_march_cell_lerp_calls ⟨false, true⟩ grid_lerp_probe 600 300 450 225 0 0 =
      some [⟨2, 225, 675, 0, 10⟩] ∧
    msq_lerp 2 225 675 0 10 = 315 ∧
    msq_grid_march_cell ⟨false, true⟩ grid_lerp_probe 600 300 450 225 ⟨0, 0, 0, 255⟩ 2 0 0 =
      some [⟨⟨900, 315⟩, ⟨600, 675⟩, 2, ⟨0, 0, 0, 255⟩⟩] ∧
    cell_y 450 225 0 + 225 = 450 ∧ cell_x 600 300 0 + 300 = 600 ∧ (315 : ℚ) ≠ 450 :=
  ⟨by decide, by decide, lerp_probe_calls, by norm_num [msq_lerp], lerp_probe_cell, by decide,
    by decide, by norm_num⟩

end Squares
